import Mathlib

/-!
# Breakout game controller (Breakout.c)

A shallow embedding of the cooperative state machines of
`Microcontroller Code/Breakout.c`: the process-wide variables become one record
`Globals`, every machine tick becomes a function on that record, and the
`while(1)` body of `main` becomes `main_iter`.

Conventions
* `unsigned char` variables are `Nat` and every store that can leave the
  byte range is reduced `% 256`; `unsigned short` stores are reduced `% 65536`.
* `signed char xdir, ydir` are `Int` holding the values of the direction macros.
* C truth tests `if (v)` / `if (!v)` are `v ≠ 0` / `v = 0`.
* hardware reads (`PINA`, `ADC`, `USART_IsSendReady`) come from an `Inputs`
  record; `USART_Send` appends to the log `sent`.
* the only loop of the program (column decoding in `Ball_Tick`) takes a fuel
  argument; `none` means the fuel ran out.
-/

namespace Breakout

/-! ## Constants and types -/

/-- Macro `UP`. -/
abbrev UP : Int := 1
/-- Macro `DOWN`. -/
abbrev DOWN : Int := -1
/-- Macro `LEFT`. -/
abbrev LEFT : Int := -1
/-- Macro `MIDDLE`. -/
abbrev MIDDLE : Int := 0
/-- Macro `RIGHT`. -/
abbrev RIGHT : Int := 1

/-- Global `mid` (never written after initialisation). -/
abbrev mid : Nat := 512

inductive Paddle_States where
  | Pad_Init | Pad_Wait | Pad_Setup | Pad_Control | Pad_Reset
  deriving DecidableEq, Repr

inductive Ball_States where
  | Ball_Init | Ball_Wait | Ball_Setup | Ball_Cycle | Ball_Out | Ball_Reset
  deriving DecidableEq, Repr

inductive Game_States where
  | Game_Init | Game_Wait | Game_Setup | Game_Status | Game_Reset | Game_Lost | Game_Won
  deriving DecidableEq, Repr

inductive LED_States where
  | LED_Init | LED_Paddle | LED_Ball | LED_Brick1 | LED_Brick2 | LED_Brick3 | LED_Brick4
  deriving DecidableEq, Repr

/-- The global variables of Breakout.c, the two counters local to `main`, the
output ports written by `LED_Tick`, the log of bytes given to `USART_Send`, and
one ghost counter. -/
structure Globals where
  PWM_freq : Nat
  reading : Nat
  paddle_pos : Nat
  paddle_data : Nat
  xpos : Nat
  ypos : Nat
  xdir : Int
  ydir : Int
  shot : Nat
  layer1 : Nat
  layer2 : Nat
  layer3 : Nat
  reset : Nat
  lost : Nat
  victory : Nat
  start : Nat
  setup : Nat
  ballreset : Nat
  ballspeed : Nat
  brickhits : Nat
  paddle_hit : Nat
  score : Nat
  finalsend : Nat
  p_state : Paddle_States
  b_state : Ball_States
  g_state : Game_States
  l_state : LED_States
  /-- local `game_ticks` of `main` -/
  game_ticks : Nat
  /-- local `ball_ticks` of `main` -/
  ball_ticks : Nat
  /-- register `PORTC` (row select written by `LED_Tick`) -/
  PORTC : Nat
  /-- last byte passed to `transmit_data` -/
  shifted : Nat
  /-- bytes passed to `USART_Send`, oldest first -/
  sent : List Nat
  /-- ghost (no program variable, read by no code): how many assignments to
  `xdir` have replaced LEFT by RIGHT or RIGHT by LEFT -/
  xflips : Nat
  deriving DecidableEq, Repr

/-- What the hardware shows during one pass of the `while(1)` body. -/
structure Inputs where
  /-- register `PINA` (buttons, active low) -/
  PINA : Nat
  /-- register `ADC` (joystick sample) -/
  ADC : Nat
  /-- result of the first `USART_IsSendReady(0)` poll of a tick -/
  tx_ready : Bool
  /-- result of a second `USART_IsSendReady(0)` poll in the same tick -/
  tx_ready2 : Bool
  deriving DecidableEq, Repr

/-- The expression `~PINA & mask` stored into an `unsigned char`. -/
def btn (pina mask : Nat) : Nat := (0xFF - pina % 256) &&& mask

/-- Modelled from the spec: `GetBit` of the absent header bit.h. A set bit of a
brick layer means a brick at that column; `GetBit(x, k)` tests bit `k` of the
byte `x`. An index outside 0..7 selects no bit of the byte. -/
def GetBit (x : Nat) (k : Int) : Bool :=
  decide (0 ≤ k ∧ k < 8) && Nat.testBit x k.toNat

/-- The byte `layer & ~mask`. -/
def clearBits (layer mask : Nat) : Nat := layer &&& (0xFF ^^^ (mask % 256))

/-- Assignment `xdir = v`, counting it in the ghost when it reverses the direction. -/
def setXdir (s : Globals) (v : Int) : Globals :=
  { s with xdir := v,
           xflips := if v ≠ 0 ∧ s.xdir = -v then s.xflips + 1 else s.xflips }

/-- The two statements `layer1 = layer1 & ~m; brickhits++;`. -/
def hit1 (s : Globals) (m : Nat) : Globals :=
  { s with layer1 := clearBits s.layer1 m, brickhits := (s.brickhits + 1) % 256 }

/-- The two statements `layer2 = layer2 & ~m; brickhits++;`. -/
def hit2 (s : Globals) (m : Nat) : Globals :=
  { s with layer2 := clearBits s.layer2 m, brickhits := (s.brickhits + 1) % 256 }

/-- The two statements `layer3 = layer3 & ~m; brickhits++;`. -/
def hit3 (s : Globals) (m : Nat) : Globals :=
  { s with layer3 := clearBits s.layer3 m, brickhits := (s.brickhits + 1) % 256 }

/-! ## Paddle machine -/

/-- First `switch` of `Paddle_Tick` (transitions). -/
def Paddle_transition (s : Globals) : Globals :=
  match s.p_state with
  | .Pad_Init => { s with p_state := .Pad_Wait }
  | .Pad_Wait => if s.start ≠ 0 then { s with p_state := .Pad_Setup } else s
  | .Pad_Setup => { s with p_state := .Pad_Control }
  | .Pad_Control =>
    let s1 := if s.reset ≠ 0 then { s with p_state := .Pad_Reset } else s
    let s2 := if s1.lost ≠ 0 then { s1 with p_state := .Pad_Wait } else s1
    if s2.victory ≠ 0 then { s2 with p_state := .Pad_Wait } else s2
  | .Pad_Reset => if s.reset = 0 then { s with p_state := .Pad_Setup } else s

/-- Second `switch` of `Paddle_Tick` (actions). -/
def Paddle_action (s : Globals) (i : Inputs) : Globals :=
  match s.p_state with
  | .Pad_Init => s
  | .Pad_Wait => { s with start := btn i.PINA 0x02, paddle_data := 0x00, paddle_pos := 0x00 }
  | .Pad_Setup => { s with paddle_data := 0x07, paddle_pos := 0x02 }
  | .Pad_Control =>
    let s1 := { s with reading := i.ADC % 65536, reset := btn i.PINA 0x02 }
    if s1.reading > mid + 100 then
      if s1.paddle_data < 0xE0 then
        { s1 with paddle_data := (s1.paddle_data * 2) % 256,
                  paddle_pos := (s1.paddle_pos * 2) % 256 }
      else s1
    else if s1.reading < mid - 100 then
      if s1.paddle_data > 0x07 then
        { s1 with paddle_data := s1.paddle_data / 2, paddle_pos := s1.paddle_pos / 2 }
      else s1
    else s1
  | .Pad_Reset =>
    let s1 := { s with paddle_data := 0x00, reset := btn i.PINA 0x02 }
    if s1.reset ≠ 0 then { s1 with ballreset := 1 } else s1

/-- `Paddle_Tick()`. -/
def Paddle_Tick (s : Globals) (i : Inputs) : Globals :=
  Paddle_action (Paddle_transition s) i

/-! ## Ball machine -/

/-- First `switch` of `Ball_Tick` (transitions). -/
def Ball_transition (s : Globals) : Globals :=
  match s.b_state with
  | .Ball_Init => { s with b_state := .Ball_Wait }
  | .Ball_Wait => if s.start ≠ 0 then { s with b_state := .Ball_Setup } else s
  | .Ball_Setup =>
    let s1 := if s.shot ≠ 0 then { s with b_state := .Ball_Cycle } else s
    if s1.reset ≠ 0 then { s1 with b_state := .Ball_Reset } else s1
  | .Ball_Cycle =>
    let s1 := if s.lost ≠ 0 then { s with b_state := .Ball_Out } else s
    let s2 := if s1.setup ≠ 0 then { s1 with b_state := .Ball_Setup } else s1
    let s3 := if s2.ballreset ≠ 0 then { s2 with b_state := .Ball_Reset } else s2
    if s3.victory ≠ 0 then { s3 with b_state := .Ball_Wait } else s3
  | .Ball_Out => if s.ballreset ≠ 0 then { s with b_state := .Ball_Reset } else s
  | .Ball_Reset => if s.reset = 0 then { s with b_state := .Ball_Setup } else s

/-- Action of `case Ball_Setup`. -/
def Ball_Setup_action (s : Globals) (i : Inputs) : Globals :=
  let s1 := { s with setup := 1, ballreset := 0, brickhits := 0, PWM_freq := 0,
                     reset := btn i.PINA 0x02, shot := btn i.PINA 0x04 }
  let s2 := if s1.shot ≠ 0 then { s1 with setup := 0 } else s1
  let s3 := setXdir s2 MIDDLE
  { s3 with ydir := UP, xpos := s3.paddle_pos, ypos := 0x40 }

/-- The loop `while (tmpxpos != 0x01) { tmpxpos = tmpxpos / 2; xposnum++; }`:
each unit of fuel pays for one evaluation of the loop condition. -/
def decodeLoop : Nat → Nat → Nat → Option Nat
  | 0, _, _ => none
  | fuel + 1, tmpxpos, xposnum =>
    if tmpxpos ≠ 0x01 then decodeLoop fuel (tmpxpos / 2) ((xposnum + 1) % 256)
    else some xposnum

/-- Lines 268-272: the assignments that open `case Ball_Cycle`. -/
def cycEnter (s : Globals) (i : Inputs) : Globals :=
  { s with setup := 0, PWM_freq := 0, brickhits := 0, paddle_hit := 0,
           reset := btn i.PINA 0x02 }

/-- Lines 283-291: launch (prevents the ball from going MIDDLE again). -/
def cycLaunch (s : Globals) : Globals :=
  if s.ypos = 0x08 ∧ s.xdir = MIDDLE then
    let s1 := if s.paddle_pos ≤ 0x08 then setXdir s LEFT else setXdir s RIGHT
    hit3 { s1 with ydir := DOWN } s1.xpos
  else s

/-- Lines 300-320: body of `else if (xdir == LEFT)`. -/
def cycSideLeft (s : Globals) (xposnum : Nat) : Globals :=
  let s1 := if s.ypos = 0x04 then
      (if GetBit s.layer3 ((xposnum : Int) - 1) then hit3 (setXdir s RIGHT) (s.xpos / 2) else s)
    else s
  let s2 := if s1.ypos = 0x02 then
      (if GetBit s1.layer2 ((xposnum : Int) - 1) then hit2 (setXdir s1 RIGHT) (s1.xpos / 2) else s1)
    else s1
  if s2.ypos = 0x01 then
    (if GetBit s2.layer1 ((xposnum : Int) - 1) then hit1 (setXdir s2 RIGHT) (s2.xpos / 2) else s2)
  else s2

/-- Lines 323-343: body of `else if (xdir == RIGHT)`. -/
def cycSideRight (s : Globals) (xposnum : Nat) : Globals :=
  let s1 := if s.ypos = 0x04 then
      (if GetBit s.layer3 ((xposnum : Int) + 1) then hit3 (setXdir s LEFT) (s.xpos * 2) else s)
    else s
  let s2 := if s1.ypos = 0x02 then
      (if GetBit s1.layer2 ((xposnum : Int) + 1) then hit2 (setXdir s1 LEFT) (s1.xpos * 2) else s1)
    else s1
  if s2.ypos = 0x01 then
    (if GetBit s2.layer1 ((xposnum : Int) + 1) then hit1 (setXdir s2 LEFT) (s2.xpos * 2) else s2)
  else s2

/-- Lines 294-344: wall bounce, else side collision with a brick. -/
def cycSide (s : Globals) (xposnum : Nat) : Globals :=
  if s.xpos = 0x01 ∧ s.xdir = LEFT then setXdir s RIGHT
  else if s.xpos = 0x80 ∧ s.xdir = RIGHT then setXdir s LEFT
  else if s.xdir = LEFT then cycSideLeft s xposnum
  else if s.xdir = RIGHT then cycSideRight s xposnum
  else s

/-- Lines 348-349: `if (ypos == 0x01) ydir = DOWN;`. -/
def cycCeil (s : Globals) : Globals :=
  if s.ypos = 0x01 then { s with ydir := DOWN } else s

/-- Lines 461-479: body of the paddle branch `ypos == 0x40 && ydir == DOWN`. -/
def cycPaddle (s : Globals) : Globals :=
  let s1 := if s.xpos = s.paddle_pos / 4 then
      setXdir (if s.xdir = LEFT then { s with lost := 1 } else s) LEFT
    else s
  let s2 := if s1.xpos = s1.paddle_pos * 4 then
      setXdir (if s1.xdir = RIGHT then { s1 with lost := 1 } else s1) RIGHT
    else s1
  if s2.xpos ≥ s2.paddle_pos / 4 ∧ s2.xpos ≤ s2.paddle_pos * 4 ∧ s2.lost = 0 then
    { s2 with ydir := UP, paddle_hit := 1 }
  else { s2 with lost := 1 }

/-- Lines 352-480: the `if / else if` chain of layer-transition collisions and
the paddle collision. The second component is the local `omit`. -/
def cycTransition (s : Globals) (xposnum : Nat) : Globals × Nat :=
  let n : Int := (xposnum : Int)
  if s.ypos = 0x01 ∧ s.ydir = DOWN then
    if GetBit s.layer2 (n - 1) ∧ s.xdir = LEFT then
      (hit2 (setXdir s RIGHT) (s.xpos / 2), 0)
    else if GetBit s.layer2 (n + 1) ∧ s.xdir = RIGHT then
      (hit2 (setXdir s LEFT) (s.xpos * 2), 0)
    else (s, 0)
  else if s.ypos = 0x02 ∧ s.ydir = DOWN then
    if GetBit s.layer3 n then
      (hit3 { s with ydir := UP } s.xpos, 0)
    else if GetBit s.layer3 (n - 1) ∧ s.xdir = LEFT then
      let s1 := hit3 { setXdir s RIGHT with ydir := UP } (s.xpos / 2)
      if GetBit s1.layer1 (n + 1) then
        (hit1 { setXdir s1 LEFT with ydir := DOWN } (s1.xpos * 2), 1)
      else (s1, 0)
    else if GetBit s.layer3 (n + 1) ∧ s.xdir = RIGHT then
      let s1 := hit3 { setXdir s LEFT with ydir := UP } (s.xpos * 2)
      if GetBit s1.layer1 (n - 1) then
        (hit1 { setXdir s1 RIGHT with ydir := DOWN } (s1.xpos / 2), 1)
      else (s1, 0)
    else (s, 0)
  else if s.ypos = 0x02 ∧ s.ydir = UP then
    if GetBit s.layer1 n then
      (hit1 { s with ydir := DOWN } s.xpos, 0)
    else if GetBit s.layer1 (n - 1) ∧ s.xdir = LEFT then
      (hit1 (setXdir { s with ydir := DOWN } RIGHT) (s.xpos / 2), 0)
    else if GetBit s.layer1 (n + 1) ∧ s.xdir = RIGHT then
      (hit1 (setXdir { s with ydir := DOWN } LEFT) (s.xpos * 2), 0)
    else (s, 0)
  else if s.ypos = 0x04 ∧ s.ydir = UP then
    if GetBit s.layer2 n then
      (hit2 { s with ydir := DOWN } s.xpos, 0)
    else if GetBit s.layer2 (n - 1) ∧ s.xdir = LEFT then
      (hit2 (setXdir { s with ydir := DOWN } RIGHT) (s.xpos / 2), 0)
    else if GetBit s.layer2 (n + 1) ∧ s.xdir = RIGHT then
      (hit2 (setXdir { s with ydir := DOWN } LEFT) (s.xpos * 2), 0)
    else (s, 0)
  else if s.ypos = 0x08 ∧ s.ydir = UP then
    if GetBit s.layer3 n then
      (hit3 { s with ydir := DOWN } s.xpos, 0)
    else if GetBit s.layer3 (n - 1) ∧ s.xdir = LEFT then
      (hit3 (setXdir { s with ydir := DOWN } RIGHT) (s.xpos / 2), 0)
    else if GetBit s.layer3 (n + 1) ∧ s.xdir = RIGHT then
      (hit3 (setXdir { s with ydir := DOWN } LEFT) (s.xpos * 2), 0)
    else (s, 0)
  else if s.ypos = 0x40 ∧ s.ydir = DOWN then
    (cycPaddle s, 0)
  else (s, 0)

/-- Lines 483-492: moves the ball unless the local `omit` (here `omitted`) is set. -/
def cycMove (s : Globals) (omitted : Nat) : Globals :=
  if omitted = 0 then
    let s1 :=
      if s.xdir = LEFT ∧ s.xpos > 0x01 then { s with xpos := s.xpos / 2 }
      else if s.xdir = RIGHT ∧ s.xpos < 0x80 then { s with xpos := (s.xpos * 2) % 256 }
      else s
    if s1.ydir = UP ∧ s1.ypos > 0x01 then { s1 with ypos := s1.ypos / 2 }
    else { s1 with ypos := (s1.ypos * 2) % 256 }
  else s

/-- Lines 495-508: tone selection and score update (the timer registers that
`set_PWM` programs are not modelled). -/
def cycSound (s : Globals) : Globals :=
  let f1 := if s.brickhits = 1 then 220 else if s.brickhits ≥ 2 then 440 else 0
  let f2 := if s.paddle_hit ≠ 0 then 110 else f1
  let s1 := { s with PWM_freq := f2 }
  if s1.brickhits ≥ 1 then { s1 with score := (s1.score + s1.brickhits) % 256 } else s1

/-- Everything of `case Ball_Cycle` after the decoding loop, given `xposnum`. -/
def cycBody (s : Globals) (xposnum : Nat) : Globals :=
  let t := cycTransition (cycCeil (cycSide (cycLaunch s) xposnum)) xposnum
  cycSound (cycMove t.1 t.2)

/-- Action of `case Ball_Cycle`; `none` when the decoding loop is out of fuel. -/
def Ball_Cycle_action (fuel : Nat) (s : Globals) (i : Inputs) : Option Globals :=
  let s1 := cycEnter s i
  (decodeLoop fuel s1.xpos 0).map (cycBody s1)

/-- Second `switch` of `Ball_Tick` (actions). -/
def Ball_action (fuel : Nat) (s : Globals) (i : Inputs) : Option Globals :=
  match s.b_state with
  | .Ball_Init => some s
  | .Ball_Wait => some { s with xpos := 0, ypos := 0 }
  | .Ball_Setup => some (Ball_Setup_action s i)
  | .Ball_Cycle => Ball_Cycle_action fuel s i
  | .Ball_Out => some { s with reset := btn i.PINA 0x02 }
  | .Ball_Reset => some { s with reset := btn i.PINA 0x02, xpos := 0, ypos := 0 }

/-- `Ball_Tick()`. -/
def Ball_Tick (fuel : Nat) (s : Globals) (i : Inputs) : Option Globals :=
  Ball_action fuel (Ball_transition s) i

/-! ## LED machine -/

/-- `transmit_data(~v)`: the byte shifted out to the display register. -/
def inverted (v : Nat) : Nat := 0xFF ^^^ (v % 256)

/-- `LED_Tick()`. -/
def LED_Tick (s : Globals) : Globals :=
  let s1 : Globals :=
    match s.l_state with
    | .LED_Init => { s with l_state := .LED_Paddle }
    | .LED_Paddle => { s with l_state := .LED_Ball }
    | .LED_Ball => { s with l_state := .LED_Brick1 }
    | .LED_Brick1 => { s with l_state := .LED_Brick2 }
    | .LED_Brick2 => { s with l_state := .LED_Brick3 }
    | .LED_Brick3 => { s with l_state := .LED_Paddle }
    | .LED_Brick4 => { s with l_state := .LED_Init }
  match s1.l_state with
  | .LED_Init => s1
  | .LED_Paddle => { s1 with PORTC := 0x80, shifted := inverted s1.paddle_data }
  | .LED_Ball => { s1 with PORTC := s1.ypos, shifted := inverted s1.xpos }
  | .LED_Brick1 => { s1 with PORTC := 0x01, shifted := inverted s1.layer1 }
  | .LED_Brick2 => { s1 with PORTC := 0x02, shifted := inverted s1.layer2 }
  | .LED_Brick3 => { s1 with PORTC := 0x04, shifted := inverted s1.layer3 }
  | .LED_Brick4 => { s1 with l_state := .LED_Init }

/-! ## Game machine -/

/-- First `switch` of `Game_Tick` (transitions). -/
def Game_transition (s : Globals) : Globals :=
  match s.g_state with
  | .Game_Init => { s with g_state := .Game_Wait }
  | .Game_Wait => if s.start ≠ 0 then { s with g_state := .Game_Setup } else s
  | .Game_Setup => if s.shot ≠ 0 then { s with g_state := .Game_Status } else s
  | .Game_Status =>
    let s1 := if s.reset ≠ 0 then { s with g_state := .Game_Reset } else s
    let s2 := if s1.lost ≠ 0 then { s1 with g_state := .Game_Lost } else s1
    if s2.victory ≠ 0 then { s2 with g_state := .Game_Won } else s2
  | .Game_Reset => if s.reset = 0 then { s with g_state := .Game_Setup } else s
  | .Game_Lost => if s.start ≠ 0 then { s with g_state := .Game_Reset } else s
  | .Game_Won => if s.start ≠ 0 then { s with g_state := .Game_Reset } else s

/-- The statement `if (USART_IsSendReady(0)) USART_Send(score, 0);` with the
poll answering `ready`. -/
def sendScore (s : Globals) (ready : Bool) : Globals :=
  if ready then { s with sent := s.sent ++ [s.score] } else s

/-- Action of `case Game_Status`. The level-advance branch polls the
transmitter first; the `brickhits` branch polls it second in that case and
first otherwise. -/
def Game_Status_action (s : Globals) (i : Inputs) : Globals :=
  let s0 := { s with reset := btn i.PINA 0x02 }
  let advance : Bool := decide (s0.layer1 = 0 ∧ s0.layer2 = 0 ∧ s0.layer3 = 0 ∧ s0.ballspeed > 150)
  let s1 :=
    if s0.layer1 = 0 ∧ s0.layer2 = 0 ∧ s0.layer3 = 0 then
      if s0.ballspeed > 150 then
        sendScore { s0 with ballspeed := (s0.ballspeed - 50) % 65536,
                            layer1 := 0xFF, layer2 := 0xFF, layer3 := 0xFF, setup := 1 }
          i.tx_ready
      else { s0 with victory := 1, finalsend := 1 }
    else s0
  if s1.brickhits ≠ 0 then sendScore s1 (if advance then i.tx_ready2 else i.tx_ready) else s1

/-- Second `switch` of `Game_Tick` (actions). -/
def Game_action (s : Globals) (i : Inputs) : Globals :=
  match s.g_state with
  | .Game_Init => s
  | .Game_Wait => s
  | .Game_Setup => { s with layer1 := 0xFF, layer2 := 0xFF, layer3 := 0xFF }
  | .Game_Status => Game_Status_action s i
  | .Game_Lost => { s with PWM_freq := 55 }
  | .Game_Won =>
    let s1 := { s with PWM_freq := 0 }
    let s2 := if s1.finalsend ≠ 0 then sendScore s1 i.tx_ready else s1
    { s2 with finalsend := 0 }
  | .Game_Reset =>
    let s1 := { s with reset := btn i.PINA 0x02 }
    let s2 := if s1.reset ≠ 0 then { s1 with ballreset := 1 } else s1
    sendScore { s2 with lost := 0, victory := 0, score := 0, ballspeed := 250 } i.tx_ready

/-- `Game_Tick()`. -/
def Game_Tick (s : Globals) (i : Inputs) : Globals :=
  Game_action (Game_transition s) i

/-! ## Scheduler (`main`) -/

/-- The state when `main` enters `while(1)`: every global holds its
initialiser (the state variables hold 0, their first enumerator). -/
def initial : Globals :=
  { PWM_freq := 0, reading := 0, paddle_pos := 0, paddle_data := 0,
    xpos := 0, ypos := 0, xdir := 0, ydir := 0, shot := 0,
    layer1 := 0x00, layer2 := 0x00, layer3 := 0x00,
    reset := 0, lost := 0, victory := 0, start := 0, setup := 0, ballreset := 0,
    ballspeed := 250, brickhits := 0, paddle_hit := 0, score := 0, finalsend := 0,
    p_state := .Pad_Init, b_state := .Ball_Init, g_state := .Game_Init,
    l_state := .LED_Init, game_ticks := 0, ball_ticks := 0,
    PORTC := 0x00, shifted := 0, sent := [], xflips := 0 }

/-- Lines 727-729: `Paddle_Tick(); if (setup) Ball_Tick();`. -/
def fastBall (fuel : Nat) (s : Globals) (i : Inputs) : Option Globals :=
  let s1 := Paddle_Tick s i
  if s1.setup ≠ 0 then Ball_Tick fuel s1 i else some s1

/-- Lines 726-732: the block run when `game_ticks >= 100`. -/
def fastPath (fuel : Nat) (s : Globals) (i : Inputs) : Option Globals :=
  if s.game_ticks ≥ 100 then
    (fastBall fuel s i).map (fun s2 => { Game_Tick s2 i with game_ticks := 0 })
  else some s

/-- Lines 733-736: the block run when `ball_ticks >= ballspeed && !setup`. -/
def slowPath (fuel : Nat) (s : Globals) (i : Inputs) : Option Globals :=
  if s.ball_ticks ≥ s.ballspeed ∧ s.setup = 0 then
    (Ball_Tick fuel s i).map (fun s1 => { s1 with ball_ticks := 0 })
  else some s

/-- Lines 737-744: `LED_Tick()`, the wait for the timer flag, and the two increments. -/
def endOfIter (s : Globals) : Globals :=
  let s1 := LED_Tick s
  { s1 with game_ticks := (s1.game_ticks + 1) % 256, ball_ticks := (s1.ball_ticks + 1) % 256 }

/-- One pass through the body of `while(1)` in `main`. -/
def main_iter (fuel : Nat) (s : Globals) (i : Inputs) : Option Globals :=
  (fastPath fuel s i).bind (fun s1 => (slowPath fuel s1 i).map endOfIter)

/-- Runs `n` passes of the loop; pass `k` (counted from `k0`) sees `inp k`. -/
def runIters (fuel : Nat) (inp : Nat → Inputs) : Nat → Nat → Globals → Option Globals
  | 0, _, s => some s
  | n + 1, k0, s => (main_iter fuel s (inp k0)).bind (runIters fuel inp n (k0 + 1))

/-! ## Reachability and observation points -/

/-- States at the head of the `while(1)` body that the program can reach from
system start under some sequence of inputs. -/
inductive Reach : Globals → Prop
  | start : Reach initial
  | pass (fuel : Nat) (s : Globals) (i : Inputs) (s' : Globals) :
      Reach s → main_iter fuel s i = some s' → Reach s'

/-- States in which a machine tick called by `main` has just returned. -/
inductive Observed : Globals → Prop
  | paddle (s : Globals) (i : Inputs) :
      Reach s → s.game_ticks ≥ 100 → Observed (Paddle_Tick s i)
  | ballFast (fuel : Nat) (s : Globals) (i : Inputs) (s' : Globals) :
      Reach s → s.game_ticks ≥ 100 → (Paddle_Tick s i).setup ≠ 0 →
      Ball_Tick fuel (Paddle_Tick s i) i = some s' → Observed s'
  | game (fuel : Nat) (s : Globals) (i : Inputs) (s2 : Globals) :
      Reach s → s.game_ticks ≥ 100 → fastBall fuel s i = some s2 →
      Observed (Game_Tick s2 i)
  | ballSlow (fuel : Nat) (s : Globals) (i : Inputs) (s1 s' : Globals) :
      Reach s → fastPath fuel s i = some s1 →
      (s1.ball_ticks ≥ s1.ballspeed ∧ s1.setup = 0) →
      Ball_Tick fuel s1 i = some s' → Observed s'
  | led (fuel : Nat) (s : Globals) (i : Inputs) (s1 s2 : Globals) :
      Reach s → fastPath fuel s i = some s1 → slowPath fuel s1 i = some s2 →
      Observed (LED_Tick s2)

/-! ## Vocabulary of the properties -/

/-- Number of set bits among the eight bits of a byte. -/
def bitsSet (n : Nat) : Nat := ((List.range 8).filter (fun k => Nat.testBit n k)).length

/-- A byte with exactly one bit set (a column or a row of the display). -/
def OneHot (x : Nat) : Prop := x ∈ [0x01, 0x02, 0x04, 0x08, 0x10, 0x20, 0x40, 0x80]

/-- A byte with no bit or exactly one bit set. -/
def OneHot0 (x : Nat) : Prop := x = 0 ∨ OneHot x

instance (x : Nat) : Decidable (OneHot x) := by unfold OneHot; infer_instance

instance (x : Nat) : Decidable (OneHot0 x) := by unfold OneHot0; infer_instance

/-- Every bit set in `a` is set in `b`. -/
def bitSubset (a b : Nat) : Prop := ∀ k : Nat, Nat.testBit a k = true → Nat.testBit b k = true

/-- The machine is about to run the action of `case Ball_Cycle`: the first
switch of `Ball_Tick` leaves `b_state` at `Ball_Cycle`. -/
def RunsCycle (s : Globals) : Prop := (Ball_transition s).b_state = Ball_States.Ball_Cycle

instance (s : Globals) : Decidable (RunsCycle s) := by unfold RunsCycle; infer_instance

/-- The game machine is in `Game_Status` and its first switch keeps it there. -/
def StaysInStatus (s : Globals) : Prop :=
  s.g_state = Game_States.Game_Status ∧ s.reset = 0 ∧ s.lost = 0 ∧ s.victory = 0

instance (s : Globals) : Decidable (StaysInStatus s) := by unfold StaysInStatus; infer_instance

/-- The invariant carried along every run: ball and paddle positions have at most
one bit set and the speed threshold is one of the three level values. -/
def Inv (s : Globals) : Prop :=
  OneHot0 s.xpos ∧ OneHot0 s.ypos ∧ OneHot0 s.paddle_pos ∧
  (s.ballspeed = 250 ∨ s.ballspeed = 200 ∨ s.ballspeed = 150)

/-- The fields the invariant reads are equal in the two states. -/
def SameInvFields (a b : Globals) : Prop :=
  a.xpos = b.xpos ∧ a.ypos = b.ypos ∧ a.paddle_pos = b.paddle_pos ∧ a.ballspeed = b.ballspeed

/-- Each brick layer of `a` is a bitwise subset of the same layer of `b`. -/
def LayersSub (a b : Globals) : Prop :=
  bitSubset a.layer1 b.layer1 ∧ bitSubset a.layer2 b.layer2 ∧ bitSubset a.layer3 b.layer3

/-! ## Concrete inputs and states used by the examples -/

/-- No button pressed, joystick centred, transmitter ready. -/
def quiet : Inputs := { PINA := 0xFF, ADC := 512, tx_ready := true, tx_ready2 := true }

/-- A short game: the start button is held during passes 150..250, the shoot
button during passes 850..950, the joystick is pushed right during passes
1200..1250. -/
def playInputs (k : Nat) : Inputs :=
  if 150 ≤ k ∧ k ≤ 250 then { quiet with PINA := 0xFD }
  else if 850 ≤ k ∧ k ≤ 950 then { quiet with PINA := 0xFB }
  else if 1200 ≤ k ∧ k ≤ 1250 then { quiet with ADC := 900 }
  else quiet

/-- The state at the head of pass 2100 of the short game. -/
def playState : Globals := (runIters 8 playInputs 2100 0 initial).getD initial

/-- The state at the head of pass 1100 of the short game. -/
def earlyPlayState : Globals := (runIters 8 playInputs 1100 0 initial).getD initial

/-- A mid-game state: paddle in Control centred on column 0x08, game in Status,
ball in Cycle at column 0x04 of row 0x02 moving LEFT and DOWN, all bricks present. -/
def midGame : Globals :=
  { initial with
    paddle_pos := 0x08, paddle_data := 0x1C, xpos := 0x04, ypos := 0x02,
    xdir := LEFT, ydir := DOWN, shot := 4, start := 2,
    layer1 := 0xFF, layer2 := 0xFF, layer3 := 0xFF, score := 5,
    p_state := .Pad_Control, b_state := .Ball_Cycle, g_state := .Game_Status }

/-- The state `midGame` after one `Ball_Tick` with no button pressed. -/
def midGameNext : Globals := (Ball_Tick 8 midGame quiet).getD midGame

/-- The inputs of the run that ends in the hang: the start button is held during
passes 650..720 and the shoot button during passes 740..760; nothing else is
touched. -/
def hangInputs (k : Nat) : Inputs :=
  if 650 ≤ k ∧ k ≤ 720 then { quiet with PINA := 0xFD }
  else if 740 ≤ k ∧ k ≤ 760 then { quiet with PINA := 0xFB }
  else quiet

/-- The state at the head of pass 1000 of the run driven by `hangInputs`. -/
def hangState : Globals := (runIters 8 hangInputs 1000 0 initial).getD initial

/-- The state in which the slow-path `Ball_Tick` of pass 1000 is called. -/
def hangCall : Globals := { Game_Tick (Paddle_Tick hangState quiet) quiet with game_ticks := 0 }

/-- The state `midGame` with the bricks straight below and diagonally right below
the ball (bits 2 and 3 of layer3) removed. -/
def sideHitState : Globals := { midGame with layer3 := 0xF3 }

/-- The state `midGame` with layer1 empty and a single brick in layer3, diagonally
right below the ball. -/
def doubleFlipState : Globals := { midGame with layer1 := 0x00, layer3 := 0x08 }

/-- The state `midGame` with a single brick in layer3, diagonally right below the ball. -/
def tripleFlipState : Globals := { midGame with layer3 := 0x08 }

/-- The ball at the right wall in the row above the paddle, moving RIGHT and
DOWN, the paddle centred on column 0x20 (it occupies 0x10, 0x20, 0x40). -/
def wallPaddleState : Globals :=
  { midGame with xpos := 0x80, ypos := 0x40, xdir := RIGHT, paddle_pos := 0x20,
                 paddle_data := 0x70 }

/-- The ball in the row above the paddle at column 0x40, moving RIGHT and DOWN,
the paddle centred on column 0x08 (it occupies 0x04, 0x08, 0x10). -/
def missState : Globals := { midGame with xpos := 0x40, ypos := 0x40, xdir := RIGHT }

/-- A cleared level at the middle speed: all layers empty, `ballspeed` 200, one
brick hit reported by the last Ball tick. -/
def levelClearedState : Globals :=
  { midGame with layer1 := 0x00, layer2 := 0x00, layer3 := 0x00, ballspeed := 200,
                 brickhits := 1, score := 48 }

/-- A cleared level at the speed floor: all layers empty, `ballspeed` 150. -/
def lastLevelClearedState : Globals :=
  { midGame with layer1 := 0x00, layer2 := 0x00, layer3 := 0x00, ballspeed := 150,
                 brickhits := 1, score := 72 }

/-- The state of a Cycle tick after lines 268-344 (entry assignments, launch,
wall bounce or side collision), for the decoded column index `n`. -/
def afterSide (s : Globals) (i : Inputs) (n : Nat) : Globals :=
  cycSide (cycLaunch (cycEnter { s with b_state := Ball_States.Ball_Cycle } i)) n

/-! ## Vocabulary and examples for the paddle collision (C11, C12) -/

/-- The ball above the paddle's rightmost occupied column (paddle at 0x08, ball at
0x10), moving RIGHT and DOWN. -/
def rightColumnState : Globals := { midGame with xpos := 0x10, ypos := 0x40, xdir := RIGHT }

/-- The ball one column beyond the paddle's rightmost occupied column (paddle at 0x08,
ball at 0x20), moving RIGHT and DOWN. -/
def rightCornerState : Globals := { midGame with xpos := 0x20, ypos := 0x40, xdir := RIGHT }

/-- The ball above the paddle's centre column, moving LEFT and DOWN. -/
def centreHitState : Globals := { midGame with xpos := 0x08, ypos := 0x40 }

/-! ## The paddle's shape and the paddle machine in Control (C13, C18) -/

/-- The paddle of a running game: `paddle_pos` is one-hot in 0x02..0x40 and
`paddle_data` is exactly its three adjacent columns. -/
def PaddleShape (s : Globals) : Prop :=
  (OneHot s.paddle_pos ∧ 0x02 ≤ s.paddle_pos ∧ s.paddle_pos ≤ 0x40) ∧
  s.paddle_data = (s.paddle_pos / 2) ||| s.paddle_pos ||| (2 * s.paddle_pos)

instance (s : Globals) : Decidable (PaddleShape s) := by unfold PaddleShape; infer_instance

/-- The paddle has its shape whenever the paddle machine is in Setup or Control. -/
def PaddleInv (s : Globals) : Prop :=
  (s.p_state = Paddle_States.Pad_Setup ∨ s.p_state = Paddle_States.Pad_Control) → PaddleShape s

/-- The fields the paddle invariant reads are equal in the two states. -/
def SamePaddle (a b : Globals) : Prop :=
  a.p_state = b.p_state ∧ a.paddle_pos = b.paddle_pos ∧ a.paddle_data = b.paddle_data

/-- The paddle machine is in Control and its first switch keeps it there. -/
def StaysInControl (s : Globals) : Prop :=
  s.p_state = Paddle_States.Pad_Control ∧ s.reset = 0 ∧ s.lost = 0 ∧ s.victory = 0

/-- Joystick pushed right beyond the dead zone, reset button not pressed. -/
def MovesRight (j : Inputs) : Prop := btn j.PINA 0x02 = 0 ∧ j.ADC % 65536 > mid + 100

/-- Joystick pushed left beyond the dead zone, reset button not pressed. -/
def MovesLeft (j : Inputs) : Prop := btn j.PINA 0x02 = 0 ∧ j.ADC % 65536 < mid - 100

instance (s : Globals) : Decidable (StaysInControl s) := by unfold StaysInControl; infer_instance
instance (j : Inputs) : Decidable (MovesRight j) := by unfold MovesRight; infer_instance
instance (j : Inputs) : Decidable (MovesLeft j) := by unfold MovesLeft; infer_instance

/-- Successive calls of `Paddle_Tick`, one per input of the list. -/
def paddleTicks (s : Globals) (js : List Inputs) : Globals := js.foldl Paddle_Tick s

/-- Joystick pushed right, no button pressed. -/
def pushRight : Inputs := { quiet with ADC := 900 }

/-- Joystick pushed left, no button pressed. -/
def pushLeft : Inputs := { quiet with ADC := 100 }

/-! ## The tick calls of one pass of the scheduler (C14) -/

/-- The four machines whose tick functions `main` calls. -/
inductive Machine where
  | Paddle | Ball | Game | LED
  deriving DecidableEq, Repr

/-- The tick calls made by lines 726-732 of `main`, in order. `Game_Tick` is
called only if the `Ball_Tick` before it has returned. -/
def fastCalls (fuel : Nat) (s : Globals) (i : Inputs) : List Machine :=
  if s.game_ticks ≥ 100 then
    Machine.Paddle ::
      (if (Paddle_Tick s i).setup ≠ 0 then
        Machine.Ball ::
          (if (Ball_Tick fuel (Paddle_Tick s i) i).isSome then [Machine.Game] else [])
      else [Machine.Game])
  else []

/-- The tick call made by lines 733-736 of `main` in the state `s1` left by the
lines before. -/
def slowCalls (s1 : Globals) : List Machine :=
  if s1.ball_ticks ≥ s1.ballspeed ∧ s1.setup = 0 then [Machine.Ball] else []

/-- The calls of lines 733-737 of one pass: slow-path `Ball_Tick`, then `LED_Tick`. -/
def tailCalls (fuel : Nat) (s : Globals) (i : Inputs) : List Machine :=
  match fastPath fuel s i with
  | none => []
  | some s1 => slowCalls s1 ++ (if (slowPath fuel s1 i).isSome then [Machine.LED] else [])

/-- The tick calls made by one pass through the body of `while(1)`, in order. -/
def iterCalls (fuel : Nat) (s : Globals) (i : Inputs) : List Machine :=
  fastCalls fuel s i ++ tailCalls fuel s i

/-- The start button is held during passes 550..650 and the shoot button during
passes 950..1050. -/
def lateShotInputs (k : Nat) : Inputs :=
  if 550 ≤ k ∧ k ≤ 650 then { quiet with PINA := 0xFD }
  else if 950 ≤ k ∧ k ≤ 1050 then { quiet with PINA := 0xFB }
  else quiet

/-- The state at the head of pass 1000 of the run driven by `lateShotInputs`. -/
def doubleBallState : Globals := (runIters 8 lateShotInputs 1000 0 initial).getD initial

/-! ## Score display unit (LCD_ScoreDisplay.c) -/

/-- The states of the display machine (`enum LCD_States`). -/
inductive LCD_States where
  | LCD_Start | LCD_Reset | LCD_Score
  deriving DecidableEq, Repr

/-- Modelled from the spec: the LCD driver io.c is absent from the sources; a call
into it is recorded with its arguments, in the order `LCD_Tick` makes the calls. -/
inductive LcdCall where
  /-- The call `LCD_DisplayString` that writes the score label at position 1. -/
  | scoreLabel
  /-- The call `LCD_DisplayString` that writes the button instructions at position 1. -/
  | instructions
  /-- The call `LCD_Cursor(pos)`. -/
  | cursor (pos : Nat)
  /-- The call `LCD_WriteData(c)`. -/
  | writeData (c : Nat)
  deriving DecidableEq, Repr

/-- The global variables of LCD_ScoreDisplay.c and the log of driver calls. -/
structure Display where
  USARTReceiver : Nat
  score : Nat
  digit : Nat
  zeroes : Nat
  cursorpos : Nat
  displayonce : Nat
  LCD_state : LCD_States
  /-- The calls made into the LCD driver, oldest first. -/
  lcd : List LcdCall
  deriving DecidableEq, Repr

/-- The state when the display unit enters its `while(1)`. -/
def displayInitial : Display :=
  { USARTReceiver := 0, score := 0, digit := 0, zeroes := 0, cursorpos := 1, displayonce := 0,
    LCD_state := .LCD_Start, lcd := [] }

/-- Modelled from the spec: `LCD_WriteData(c)` of the absent driver io.c, recorded
with its argument converted to `unsigned char`. -/
def LCD_WriteData (d : Display) (c : Nat) : Display :=
  { d with lcd := d.lcd ++ [LcdCall.writeData (c % 256)] }

/-- Modelled from the spec: `LCD_Cursor(pos)` of the absent driver io.c, recorded
with its argument. -/
def LCD_Cursor (d : Display) (pos : Nat) : Display :=
  { d with lcd := d.lcd ++ [LcdCall.cursor pos] }

/-- Lines 63-81: writes the digits of `score` (the character '0' is 48). -/
def writeScore (d : Display) : Display :=
  if d.score ≥ 100 then
    let d1 := { d with digit := d.score / 100, score := d.score % 100 }
    let d2 := LCD_WriteData d1 (d1.digit + 48)
    let d3 := if d2.score ≠ 0 then { d2 with digit := d2.score / 10 } else d2
    let d4 := { d3 with score := d3.score % 10 }
    let d5 := LCD_WriteData d4 (d4.digit + 48)
    LCD_WriteData d5 (d5.score + 48)
  else if d.score ≥ 10 then
    let d1 := { d with digit := d.score / 10, score := d.score % 10 }
    let d2 := LCD_WriteData d1 (d1.digit + 48)
    LCD_WriteData d2 (d2.score + 48)
  else LCD_WriteData d (d.score + 48)

/-- First `switch` of `LCD_Tick`; `rx` is the byte waiting in the receiver, if
any (`USART_HasReceived(0)` is `rx.isSome`). -/
def LCD_transition (d : Display) (rx : Option Nat) : Display :=
  match d.LCD_state with
  | .LCD_Start => { d with LCD_state := .LCD_Reset }
  | .LCD_Reset =>
    if rx.isSome then
      LCD_Cursor { d with LCD_state := .LCD_Score, lcd := d.lcd ++ [LcdCall.scoreLabel] } 8
    else d
  | .LCD_Score => d

/-- Second `switch` of `LCD_Tick`; `USART_Receive(0)` returns the waiting byte
(the blank character ' ' is 32). -/
def LCD_action (d : Display) (rx : Option Nat) : Display :=
  match d.LCD_state with
  | .LCD_Start => d
  | .LCD_Reset =>
    let d1 := if d.displayonce = 0 then { d with lcd := d.lcd ++ [LcdCall.instructions] } else d
    { d1 with displayonce := 1 }
  | .LCD_Score =>
    let d1 := LCD_Cursor { d with cursorpos := 36 } 36
    match rx with
    | none => d1
    | some b =>
      let d2 := { d1 with score := d1.USARTReceiver }
      let d3 := { d2 with USARTReceiver := b % 256 }
      let d4 := LCD_Cursor { d3 with cursorpos := 7 } 7
      let d5 := LCD_WriteData (LCD_WriteData (LCD_WriteData d4 32) 32) 32
      let d6 := LCD_Cursor d5 d5.cursorpos
      writeScore d6

/-- The function `LCD_Tick()` of LCD_ScoreDisplay.c. -/
def LCD_Tick (d : Display) (rx : Option Nat) : Display :=
  LCD_action (LCD_transition d rx) rx

/-- The decimal representation of `v` as character codes, most significant digit
first, no leading zero. -/
def decimalChars (v : Nat) : List Nat := (Nat.toDigits 10 v).map Char.toNat

/-- A display with nothing written yet that is about to format the value `v`. -/
def formatting (v : Nat) : Display := { displayInitial with score := v, LCD_state := .LCD_Score }

/-- The driver calls that a Score-state tick makes before it writes the digits:
`LCD_Cursor(36)`, `LCD_Cursor(7)`, three blanks, `LCD_Cursor(7)`. -/
def refreshCalls : List LcdCall :=
  [LcdCall.cursor 36, LcdCall.cursor 7, LcdCall.writeData 32, LcdCall.writeData 32,
   LcdCall.writeData 32, LcdCall.cursor 7]

/-- The digit characters that lines 63-81 write for the value `v`. -/
def digitsWritten (v : Nat) : List LcdCall := (writeScore (formatting v)).lcd

/-- The display unit after start-up and the arrival of the byte 5. -/
def afterFive : Display := LCD_Tick (LCD_Tick displayInitial none) (some 5)

/-- The display unit after start-up and the arrival of the byte 100. -/
def afterHundred : Display := LCD_Tick (LCD_Tick displayInitial none) (some 100)

/-! ## The bit indices a Cycle action tests (C19) -/

/-- The bit indices that lines 299-344 (side collision) pass to `GetBit`, in order.
The row and the direction tested do not change between the three tests. -/
def sideTests (s : Globals) (n : Nat) : List Int :=
  if s.xpos = 0x01 ∧ s.xdir = LEFT then []
  else if s.xpos = 0x80 ∧ s.xdir = RIGHT then []
  else if s.xdir = LEFT then
    (if s.ypos = 0x04 then [(n : Int) - 1] else []) ++
    (if s.ypos = 0x02 then [(n : Int) - 1] else []) ++
    (if s.ypos = 0x01 then [(n : Int) - 1] else [])
  else if s.xdir = RIGHT then
    (if s.ypos = 0x04 then [(n : Int) + 1] else []) ++
    (if s.ypos = 0x02 then [(n : Int) + 1] else []) ++
    (if s.ypos = 0x01 then [(n : Int) + 1] else [])
  else []

/-- The indices tested by `if (GetBit(l, n)) .. else if (GetBit(l, n - 1) && xdir == LEFT) ..
else if (GetBit(l, n + 1) && xdir == RIGHT) ..`: a later test is evaluated only when
the conditions before it are false, and `GetBit` is the left operand of `&&`. -/
def upwardTests (l : Nat) (xdir : Int) (n : Nat) : List Int :=
  (n : Int) ::
    (if GetBit l n then []
     else ((n : Int) - 1) ::
       (if GetBit l ((n : Int) - 1) ∧ xdir = LEFT then [] else [(n : Int) + 1]))

/-- The bit indices that lines 352-455 (layer-transition collisions) pass to
`GetBit`, in order. -/
def transitionTests (s : Globals) (n : Nat) : List Int :=
  if s.ypos = 0x01 ∧ s.ydir = DOWN then
    ((n : Int) - 1) ::
      (if GetBit s.layer2 ((n : Int) - 1) ∧ s.xdir = LEFT then [] else [(n : Int) + 1])
  else if s.ypos = 0x02 ∧ s.ydir = DOWN then
    (n : Int) ::
      (if GetBit s.layer3 n then []
       else ((n : Int) - 1) ::
         (if GetBit s.layer3 ((n : Int) - 1) ∧ s.xdir = LEFT then [(n : Int) + 1]
          else ((n : Int) + 1) ::
            (if GetBit s.layer3 ((n : Int) + 1) ∧ s.xdir = RIGHT then [(n : Int) - 1] else [])))
  else if s.ypos = 0x02 ∧ s.ydir = UP then upwardTests s.layer1 s.xdir n
  else if s.ypos = 0x04 ∧ s.ydir = UP then upwardTests s.layer2 s.xdir n
  else if s.ypos = 0x08 ∧ s.ydir = UP then upwardTests s.layer3 s.xdir n
  else []

/-- The bit indices that one Cycle action passes to `GetBit`, in order, for the
state `s` after lines 268-272 and the decoded column index `n`. -/
def cycTests (s : Globals) (n : Nat) : List Int :=
  sideTests (cycLaunch s) n ++ transitionTests (cycCeil (cycSide (cycLaunch s) n)) n

/-- The ball at the left wall column in row 0x02, moving RIGHT and DOWN, no brick
left in layer3. -/
def leftWallState : Globals := { midGame with xpos := 0x01, xdir := RIGHT, layer3 := 0x00 }

/-- The ball at the right wall column in row 0x02, moving LEFT and DOWN, no brick
left in layer3. -/
def rightWallState : Globals := { midGame with xpos := 0x80, xdir := LEFT, layer3 := 0x00 }

/-! ## Counting the bricks a tick clears (C20) -/

/-- Number of the eight bits that are set in `before` and clear in `after`. -/
def clearedCount (before after : Nat) : Nat :=
  ((List.range 8).filter (fun k => Nat.testBit before k && !Nat.testBit after k)).length

/-- Brick bits set in `s` and clear in `s'`, summed over the three layers. -/
def bricksCleared (s s' : Globals) : Nat :=
  clearedCount s.layer1 s'.layer1 + clearedCount s.layer2 s'.layer2 +
    clearedCount s.layer3 s'.layer3

/-- The hits counted by the step from `a` to `b` equal the brick bits it cleared. -/
def Tally (a b : Globals) : Prop := b.brickhits = a.brickhits + bricksCleared a b

/-- The launch step counts one hit whether or not the cell of layer3 holds a brick. -/
def launchExtra (s : Globals) (n : Nat) : Nat :=
  if s.ypos = 0x08 ∧ s.xdir = MIDDLE ∧ Nat.testBit s.layer3 n = false then 1 else 0

/-- A launch tick on a column whose layer3 cell holds a brick. -/
def launchState : Globals :=
  { midGame with xpos := 0x08, ypos := 0x08, xdir := MIDDLE, ydir := UP }

/-! ## Helper lemmas -/


theorem oneHot0_cases {x : Nat} (h : OneHot0 x) :
    x = 0 ∨ x = 1 ∨ x = 2 ∨ x = 4 ∨ x = 8 ∨ x = 16 ∨ x = 32 ∨ x = 64 ∨ x = 128 := by
  simpa [OneHot0, OneHot] using h

theorem OneHot0.half {x : Nat} (h : OneHot0 x) : OneHot0 (x / 2) := by
  rcases oneHot0_cases h with rfl | rfl | rfl | rfl | rfl | rfl | rfl | rfl | rfl <;> decide

theorem OneHot0.double {x : Nat} (h : OneHot0 x) : OneHot0 ((x * 2) % 256) := by
  rcases oneHot0_cases h with rfl | rfl | rfl | rfl | rfl | rfl | rfl | rfl | rfl <;> decide

theorem OneHot0.bits {x : Nat} (h : OneHot0 x) : x < 256 ∧ bitsSet x ≤ 1 := by
  rcases oneHot0_cases h with rfl | rfl | rfl | rfl | rfl | rfl | rfl | rfl | rfl <;> decide

theorem Inv.of_same {a b : Globals} (h : SameInvFields a b) (hb : Inv b) : Inv a := by
  obtain ⟨h1, h2, h3, h4⟩ := h
  unfold Inv; rw [h1, h2, h3, h4]; exact hb

theorem Paddle_transition_same (s : Globals) : SameInvFields (Paddle_transition s) s := by
  unfold Paddle_transition SameInvFields
  split <;> simp [apply_ite Globals.xpos, apply_ite Globals.ypos, apply_ite Globals.paddle_pos,
    apply_ite Globals.ballspeed]

theorem Paddle_Tick_inv (s : Globals) (i : Inputs) (h : Inv s) : Inv (Paddle_Tick s i) := by
  have ht : Inv (Paddle_transition s) := Inv.of_same (Paddle_transition_same s) h
  unfold Paddle_Tick
  generalize Paddle_transition s = t at ht
  obtain ⟨hx, hy, hp, hs⟩ := ht
  unfold Paddle_action Inv
  split
  · exact ⟨hx, hy, hp, hs⟩
  · exact ⟨hx, hy, (show OneHot0 0 by decide), hs⟩
  · exact ⟨hx, hy, (show OneHot0 2 by decide), hs⟩
  · simp only []
    split_ifs
    · exact ⟨hx, hy, hp.double, hs⟩
    · exact ⟨hx, hy, hp, hs⟩
    · exact ⟨hx, hy, hp.half, hs⟩
    · exact ⟨hx, hy, hp, hs⟩
    · exact ⟨hx, hy, hp, hs⟩
  · simp only []
    split_ifs
    · exact ⟨hx, hy, hp, hs⟩
    · exact ⟨hx, hy, hp, hs⟩

theorem Ball_transition_same (s : Globals) : SameInvFields (Ball_transition s) s := by
  unfold Ball_transition SameInvFields
  split <;> simp [apply_ite Globals.xpos, apply_ite Globals.ypos, apply_ite Globals.paddle_pos,
    apply_ite Globals.ballspeed]

theorem cycPre_same (s : Globals) (i : Inputs) (n : Nat) :
    SameInvFields (cycTransition (cycCeil (cycSide (cycLaunch (cycEnter s i)) n)) n).1 s := by
  simp [SameInvFields, cycTransition, cycPaddle, cycCeil, cycSide, cycSideLeft, cycSideRight,
    cycLaunch, cycEnter, setXdir, hit1, hit2, hit3,
    apply_ite Globals.xpos, apply_ite Globals.ypos, apply_ite Globals.paddle_pos,
    apply_ite Globals.ballspeed, apply_ite Prod.fst]

theorem cycMove_inv (s : Globals) (o : Nat) (h : Inv s) : Inv (cycMove s o) := by
  obtain ⟨hx, hy, hp, hs⟩ := h
  unfold cycMove Inv
  simp only []
  split_ifs
  all_goals first
    | exact ⟨hx, hy, hp, hs⟩
    | exact ⟨hx.half, hy.half, hp, hs⟩
    | exact ⟨hx.half, hy.double, hp, hs⟩
    | exact ⟨hx.double, hy.half, hp, hs⟩
    | exact ⟨hx.double, hy.double, hp, hs⟩
    | exact ⟨hx, hy.half, hp, hs⟩
    | exact ⟨hx, hy.double, hp, hs⟩

theorem cycSound_same (s : Globals) : SameInvFields (cycSound s) s := by
  simp [SameInvFields, cycSound, apply_ite Globals.xpos, apply_ite Globals.ypos,
    apply_ite Globals.paddle_pos, apply_ite Globals.ballspeed]

theorem cycBody_inv (s : Globals) (i : Inputs) (n : Nat) (h : Inv s) :
    Inv (cycBody (cycEnter s i) n) := by
  unfold cycBody
  exact Inv.of_same (cycSound_same _) (cycMove_inv _ _ (Inv.of_same (cycPre_same s i n) h))

theorem Ball_Tick_inv (fuel : Nat) (s : Globals) (i : Inputs) (s' : Globals) (h : Inv s)
    (hs' : Ball_Tick fuel s i = some s') : Inv s' := by
  have ht : Inv (Ball_transition s) := Inv.of_same (Ball_transition_same s) h
  unfold Ball_Tick at hs'
  generalize Ball_transition s = t at ht hs'
  unfold Ball_action at hs'
  obtain ⟨hx, hy, hp, hsp⟩ := ht
  split at hs'
  · cases hs'; exact ⟨hx, hy, hp, hsp⟩
  · cases hs'; exact ⟨(show OneHot0 0 by decide), (show OneHot0 0 by decide), hp, hsp⟩
  · cases hs'
    refine ⟨?_, ?_, ?_, ?_⟩ <;>
      simp [Ball_Setup_action, setXdir, apply_ite Globals.xpos, apply_ite Globals.ypos,
        apply_ite Globals.paddle_pos, apply_ite Globals.ballspeed, hp, hsp]
    decide
  · unfold Ball_Cycle_action at hs'
    simp only [Option.map_eq_some'] at hs'
    obtain ⟨n, -, rfl⟩ := hs'
    exact cycBody_inv t i n ⟨hx, hy, hp, hsp⟩
  · cases hs'; exact ⟨hx, hy, hp, hsp⟩
  · cases hs'; exact ⟨(show OneHot0 0 by decide), (show OneHot0 0 by decide), hp, hsp⟩

theorem Game_transition_same (s : Globals) : SameInvFields (Game_transition s) s := by
  unfold Game_transition SameInvFields
  split <;> simp [apply_ite Globals.xpos, apply_ite Globals.ypos, apply_ite Globals.paddle_pos,
    apply_ite Globals.ballspeed]

theorem Game_Tick_positions (s : Globals) (i : Inputs) :
    (Game_Tick s i).xpos = s.xpos ∧ (Game_Tick s i).ypos = s.ypos ∧
    (Game_Tick s i).paddle_pos = s.paddle_pos := by
  obtain ⟨h1, h2, h3, -⟩ := Game_transition_same s
  rw [← h1, ← h2, ← h3]
  unfold Game_Tick
  generalize Game_transition s = t
  unfold Game_action
  split <;> simp [Game_Status_action, sendScore, apply_ite Globals.xpos, apply_ite Globals.ypos,
    apply_ite Globals.paddle_pos]

theorem Game_Tick_speed (s : Globals) (i : Inputs)
    (h : s.ballspeed = 250 ∨ s.ballspeed = 200 ∨ s.ballspeed = 150) :
    (Game_Tick s i).ballspeed = 250 ∨ (Game_Tick s i).ballspeed = 200 ∨
    (Game_Tick s i).ballspeed = 150 := by
  obtain ⟨-, -, -, h4⟩ := Game_transition_same s
  rw [← h4] at h
  unfold Game_Tick
  generalize Game_transition s = t at h
  unfold Game_action
  split
  · exact h
  · exact h
  · exact h
  · rcases h with h | h | h <;>
      (simp [Game_Status_action, sendScore, apply_ite Globals.ballspeed, h]) <;> tauto
  · exact h
  · simp [sendScore, apply_ite Globals.ballspeed, h]
  · simp [sendScore, apply_ite Globals.ballspeed]

theorem Game_Tick_inv (s : Globals) (i : Inputs) (h : Inv s) : Inv (Game_Tick s i) := by
  obtain ⟨hx, hy, hp, hs⟩ := h
  obtain ⟨e1, e2, e3⟩ := Game_Tick_positions s i
  unfold Inv
  rw [e1, e2, e3]
  exact ⟨hx, hy, hp, Game_Tick_speed s i hs⟩

theorem LED_Tick_same (s : Globals) : SameInvFields (LED_Tick s) s := by
  unfold LED_Tick SameInvFields
  cases hl : s.l_state <;> simp

theorem counters_inv {s : Globals} (g b : Nat) (h : Inv s) :
    Inv { s with game_ticks := g, ball_ticks := b } := h

theorem fastBall_inv (fuel : Nat) (s : Globals) (i : Inputs) (s2 : Globals) (h : Inv s)
    (h2 : fastBall fuel s i = some s2) : Inv s2 := by
  unfold fastBall at h2
  simp only [] at h2
  split_ifs at h2
  · exact Ball_Tick_inv fuel _ i s2 (Paddle_Tick_inv s i h) h2
  · cases h2; exact Paddle_Tick_inv s i h

theorem fastPath_inv (fuel : Nat) (s : Globals) (i : Inputs) (s1 : Globals) (h : Inv s)
    (h1 : fastPath fuel s i = some s1) : Inv s1 := by
  unfold fastPath at h1
  split_ifs at h1
  · simp only [Option.map_eq_some'] at h1
    obtain ⟨s2, h2, rfl⟩ := h1
    exact Game_Tick_inv s2 i (fastBall_inv fuel s i s2 h h2)
  · cases h1; exact h

theorem slowPath_inv (fuel : Nat) (s : Globals) (i : Inputs) (s1 : Globals) (h : Inv s)
    (h1 : slowPath fuel s i = some s1) : Inv s1 := by
  unfold slowPath at h1
  split_ifs at h1
  · simp only [Option.map_eq_some'] at h1
    obtain ⟨s2, h2, rfl⟩ := h1
    exact Ball_Tick_inv fuel s i s2 h h2
  · cases h1; exact h

theorem main_iter_inv (fuel : Nat) (s : Globals) (i : Inputs) (s' : Globals) (h : Inv s)
    (h1 : main_iter fuel s i = some s') : Inv s' := by
  unfold main_iter at h1
  simp only [Option.bind_eq_some, Option.map_eq_some'] at h1
  obtain ⟨s1, hf, s2, hsl, rfl⟩ := h1
  exact Inv.of_same (LED_Tick_same s2) (slowPath_inv fuel s1 i s2 (fastPath_inv fuel s i s1 h hf) hsl)

theorem initial_inv : Inv initial := by
  unfold Inv initial
  decide

theorem reach_inv {s : Globals} (h : Reach s) : Inv s := by
  induction h with
  | start => exact initial_inv
  | pass fuel s i s' _ hstep ih => exact main_iter_inv fuel s i s' ih hstep

theorem observed_inv {s : Globals} (h : Observed s) : Inv s := by
  cases h with
  | paddle s i hr _ => exact Paddle_Tick_inv s i (reach_inv hr)
  | ballFast fuel s0 i _ hr _ _ hb => exact Ball_Tick_inv fuel _ i _ (Paddle_Tick_inv s0 i (reach_inv hr)) hb
  | game fuel s i s2 hr _ hf => exact Game_Tick_inv s2 i (fastBall_inv fuel s i s2 (reach_inv hr) hf)
  | ballSlow fuel s0 i s1 _ hr hf _ hb =>
    exact Ball_Tick_inv fuel s1 i _ (fastPath_inv fuel s0 i s1 (reach_inv hr) hf) hb
  | led fuel s i s1 s2 hr hf hsl =>
    exact Inv.of_same (LED_Tick_same s2)
      (slowPath_inv fuel s1 i s2 (fastPath_inv fuel s i s1 (reach_inv hr) hf) hsl)

/-! ## C1, C7: invariants of every reachable state -/

theorem runIters_reach (fuel : Nat) (inp : Nat → Inputs) (n : Nat) :
    ∀ (k0 : Nat) (s s' : Globals), Reach s → runIters fuel inp n k0 s = some s' → Reach s' := by
  induction n with
  | zero =>
    intro k0 s s' hr h
    simp only [runIters, Option.some.injEq] at h
    exact h ▸ hr
  | succ n ih =>
    intro k0 s s' hr h
    simp only [runIters, Option.bind_eq_some] at h
    obtain ⟨s1, h1, h2⟩ := h
    exact ih (k0 + 1) s1 s' (Reach.pass fuel s (inp k0) s1 hr h1) h2

theorem getD_of_isSome {o : Option Globals} (d : Globals) (h : o.isSome = true) :
    o = some (o.getD d) := by
  cases o with
  | none => cases h
  | some v => rfl

set_option maxRecDepth 1000000 in
theorem playState_spec : runIters 8 playInputs 2100 0 initial = some playState :=
  getD_of_isSome initial (by decide!)

set_option maxRecDepth 1000000 in
theorem earlyPlayState_spec : runIters 8 playInputs 1100 0 initial = some earlyPlayState :=
  getD_of_isSome initial (by decide!)

/-- C1: in every state reachable from system start (at the head of a pass of the
main loop, or right after any machine tick has returned) the ball column `xpos`
and the ball row `ypos` are bytes with at most one bit set. -/
theorem ball_position_at_most_one_bit (s : Globals) (h : Reach s ∨ Observed s) :
    (s.xpos < 256 ∧ bitsSet s.xpos ≤ 1) ∧ (s.ypos < 256 ∧ bitsSet s.ypos ≤ 1) := by
  have hi : Inv s := h.elim reach_inv observed_inv
  exact ⟨hi.1.bits, hi.2.1.bits⟩

/-- Witness for C1: the state at pass 2100 of the short game is reachable, and
the theorem applies to it. -/
theorem ball_position_at_most_one_bit_witness :
    (Reach playState ∨ Observed playState) ∧
    ((playState.xpos < 256 ∧ bitsSet playState.xpos ≤ 1) ∧
      (playState.ypos < 256 ∧ bitsSet playState.ypos ≤ 1)) :=
  ⟨Or.inl (runIters_reach 8 playInputs 2100 0 initial playState Reach.start playState_spec),
   ball_position_at_most_one_bit playState
     (Or.inl (runIters_reach 8 playInputs 2100 0 initial playState Reach.start playState_spec))⟩

/-- C7: in every state reachable from system start `ballspeed` is 250, 200 or
150, so it is never below the floor of 150. -/
theorem ballspeed_is_a_level_value (s : Globals) (h : Reach s ∨ Observed s) :
    (s.ballspeed = 250 ∨ s.ballspeed = 200 ∨ s.ballspeed = 150) ∧ 150 ≤ s.ballspeed := by
  have hi : Inv s := h.elim reach_inv observed_inv
  refine ⟨hi.2.2.2, ?_⟩
  rcases hi.2.2.2 with h | h | h <;> omega

/-- Witness for C7: the state at pass 1100 of the short game is reachable, and
the theorem applies to it. -/
theorem ballspeed_is_a_level_value_witness :
    (Reach earlyPlayState ∨ Observed earlyPlayState) ∧
    ((earlyPlayState.ballspeed = 250 ∨ earlyPlayState.ballspeed = 200 ∨
        earlyPlayState.ballspeed = 150) ∧ 150 ≤ earlyPlayState.ballspeed) :=
  ⟨Or.inl (runIters_reach 8 playInputs 1100 0 initial earlyPlayState Reach.start
      earlyPlayState_spec),
   ballspeed_is_a_level_value earlyPlayState
     (Or.inl (runIters_reach 8 playInputs 1100 0 initial earlyPlayState Reach.start
       earlyPlayState_spec))⟩

/-! ## C2: brick layers only lose bits -/

theorem bitSubset_refl (a : Nat) : bitSubset a a := fun _ h => h

theorem bitSubset_trans {a b c : Nat} (h1 : bitSubset a b) (h2 : bitSubset b c) : bitSubset a c :=
  fun k h => h2 k (h1 k h)

theorem clearBits_subset (l m : Nat) : bitSubset (clearBits l m) l := by
  intro k h
  unfold clearBits at h
  rw [Nat.testBit_and] at h
  simp only [Bool.and_eq_true] at h
  exact h.1

theorem LayersSub.refl (a : Globals) : LayersSub a a :=
  ⟨bitSubset_refl _, bitSubset_refl _, bitSubset_refl _⟩

theorem LayersSub.trans {a b c : Globals} (h1 : LayersSub a b) (h2 : LayersSub b c) :
    LayersSub a c :=
  ⟨bitSubset_trans h1.1 h2.1, bitSubset_trans h1.2.1 h2.2.1, bitSubset_trans h1.2.2 h2.2.2⟩

theorem LayersSub.of_eq {a b : Globals} (h1 : a.layer1 = b.layer1) (h2 : a.layer2 = b.layer2)
    (h3 : a.layer3 = b.layer3) : LayersSub a b := by
  unfold LayersSub; rw [h1, h2, h3]
  exact ⟨bitSubset_refl _, bitSubset_refl _, bitSubset_refl _⟩

theorem hit1_layers (s : Globals) (m : Nat) : LayersSub (hit1 s m) s :=
  ⟨clearBits_subset _ _, bitSubset_refl _, bitSubset_refl _⟩

theorem hit2_layers (s : Globals) (m : Nat) : LayersSub (hit2 s m) s :=
  ⟨bitSubset_refl _, clearBits_subset _ _, bitSubset_refl _⟩

theorem hit3_layers (s : Globals) (m : Nat) : LayersSub (hit3 s m) s :=
  ⟨bitSubset_refl _, bitSubset_refl _, clearBits_subset _ _⟩

theorem setXdir_layers (s : Globals) (v : Int) : LayersSub (setXdir s v) s := LayersSub.refl s

theorem cycLaunch_layers (s : Globals) : LayersSub (cycLaunch s) s := by
  unfold LayersSub
  refine ⟨?_, ?_, ?_⟩ <;>
    simp only [cycLaunch, setXdir, hit1, hit2, hit3, apply_ite Globals.layer1,
      apply_ite Globals.layer2, apply_ite Globals.layer3, apply_ite Globals.xpos, ite_self] <;>
    (try split_ifs) <;>
    first
      | exact bitSubset_refl _
      | exact clearBits_subset _ _

theorem cycSide_layers (s : Globals) (n : Nat) : LayersSub (cycSide s n) s := by
  unfold LayersSub
  refine ⟨?_, ?_, ?_⟩ <;>
    simp only [cycSide, cycSideLeft, cycSideRight, setXdir, hit1, hit2, hit3,
      apply_ite Globals.layer1, apply_ite Globals.layer2, apply_ite Globals.layer3,
      apply_ite Globals.xpos, apply_ite Globals.ypos, ite_self] <;>
    (try split_ifs) <;>
    first
      | exact bitSubset_refl _
      | exact clearBits_subset _ _

theorem cycCeil_layers (s : Globals) : LayersSub (cycCeil s) s := by
  unfold cycCeil
  split_ifs
  · exact LayersSub.refl s
  · exact LayersSub.refl s

theorem cycTransition_layers (s : Globals) (n : Nat) : LayersSub (cycTransition s n).1 s := by
  unfold LayersSub
  refine ⟨?_, ?_, ?_⟩ <;>
    simp only [cycTransition, cycPaddle, setXdir, hit1, hit2, hit3,
      apply_ite Globals.layer1, apply_ite Globals.layer2, apply_ite Globals.layer3,
      apply_ite Globals.xpos, apply_ite Globals.ypos, apply_ite Prod.fst, ite_self] <;>
    (try split_ifs) <;>
    first
      | exact bitSubset_refl _
      | exact clearBits_subset _ _

theorem cycMove_layers (s : Globals) (o : Nat) : LayersSub (cycMove s o) s := by
  unfold LayersSub
  refine ⟨?_, ?_, ?_⟩ <;>
    simp only [cycMove, apply_ite Globals.layer1, apply_ite Globals.layer2,
      apply_ite Globals.layer3, ite_self] <;>
    exact bitSubset_refl _

theorem cycSound_layers (s : Globals) : LayersSub (cycSound s) s := by
  unfold LayersSub
  refine ⟨?_, ?_, ?_⟩ <;>
    simp only [cycSound, apply_ite Globals.layer1, apply_ite Globals.layer2,
      apply_ite Globals.layer3, ite_self] <;>
    exact bitSubset_refl _

theorem cycBody_layers (s : Globals) (n : Nat) : LayersSub (cycBody s n) s := by
  unfold cycBody
  exact (cycSound_layers _).trans ((cycMove_layers _ _).trans ((cycTransition_layers _ n).trans
    ((cycCeil_layers _).trans ((cycSide_layers _ n).trans (cycLaunch_layers s)))))

theorem Ball_transition_layers (s : Globals) :
    (Ball_transition s).layer1 = s.layer1 ∧ (Ball_transition s).layer2 = s.layer2 ∧
    (Ball_transition s).layer3 = s.layer3 := by
  unfold Ball_transition
  split <;> simp [apply_ite Globals.layer1, apply_ite Globals.layer2, apply_ite Globals.layer3]

theorem Ball_Tick_layers (fuel : Nat) (s : Globals) (i : Inputs) (s' : Globals)
    (h : Ball_Tick fuel s i = some s') : LayersSub s' s := by
  obtain ⟨e1, e2, e3⟩ := Ball_transition_layers s
  refine LayersSub.trans ?_ (LayersSub.of_eq e1 e2 e3)
  unfold Ball_Tick at h
  generalize Ball_transition s = t at h ⊢
  unfold Ball_action at h
  split at h
  · cases h; exact LayersSub.refl _
  · cases h; exact LayersSub.refl _
  · cases h
    refine LayersSub.of_eq ?_ ?_ ?_ <;>
      simp [Ball_Setup_action, setXdir, apply_ite Globals.layer1, apply_ite Globals.layer2,
        apply_ite Globals.layer3]
  · unfold Ball_Cycle_action at h
    simp only [Option.map_eq_some'] at h
    obtain ⟨n, -, rfl⟩ := h
    exact (cycBody_layers _ n).trans (LayersSub.refl _)
  · cases h; exact LayersSub.refl _
  · cases h; exact LayersSub.refl _

theorem Paddle_Tick_layers (s : Globals) (i : Inputs) :
    (Paddle_Tick s i).layer1 = s.layer1 ∧ (Paddle_Tick s i).layer2 = s.layer2 ∧
    (Paddle_Tick s i).layer3 = s.layer3 := by
  have ht : (Paddle_transition s).layer1 = s.layer1 ∧ (Paddle_transition s).layer2 = s.layer2 ∧
      (Paddle_transition s).layer3 = s.layer3 := by
    unfold Paddle_transition
    split <;> simp [apply_ite Globals.layer1, apply_ite Globals.layer2, apply_ite Globals.layer3]
  obtain ⟨e1, e2, e3⟩ := ht
  rw [← e1, ← e2, ← e3]
  unfold Paddle_Tick
  generalize Paddle_transition s = t
  unfold Paddle_action
  split <;> simp [apply_ite Globals.layer1, apply_ite Globals.layer2, apply_ite Globals.layer3]

theorem Game_Tick_layers (s : Globals) (i : Inputs) :
    ((Game_Tick s i).layer1 = s.layer1 ∧ (Game_Tick s i).layer2 = s.layer2 ∧
      (Game_Tick s i).layer3 = s.layer3) ∨
    ((Game_Tick s i).layer1 = 0xFF ∧ (Game_Tick s i).layer2 = 0xFF ∧
      (Game_Tick s i).layer3 = 0xFF) := by
  have ht : (Game_transition s).layer1 = s.layer1 ∧ (Game_transition s).layer2 = s.layer2 ∧
      (Game_transition s).layer3 = s.layer3 := by
    unfold Game_transition
    split <;> simp [apply_ite Globals.layer1, apply_ite Globals.layer2, apply_ite Globals.layer3]
  obtain ⟨e1, e2, e3⟩ := ht
  rw [← e1, ← e2, ← e3]
  unfold Game_Tick
  generalize Game_transition s = t
  unfold Game_action
  split
  · exact Or.inl ⟨rfl, rfl, rfl⟩
  · exact Or.inl ⟨rfl, rfl, rfl⟩
  · exact Or.inr ⟨rfl, rfl, rfl⟩
  · by_cases hl : t.layer1 = 0 ∧ t.layer2 = 0 ∧ t.layer3 = 0 ∧ t.ballspeed > 150
    · right
      obtain ⟨h1, h2, h3, h4⟩ := hl
      simp [Game_Status_action, sendScore, apply_ite Globals.layer1, apply_ite Globals.layer2,
        apply_ite Globals.layer3, h1, h2, h3, h4]
    · left
      simp only [Game_Status_action, sendScore, apply_ite Globals.layer1,
        apply_ite Globals.layer2, apply_ite Globals.layer3, ite_self]
      split_ifs <;> first | exact ⟨rfl, rfl, rfl⟩ | (exfalso; apply hl; simp_all)
  · exact Or.inl ⟨rfl, rfl, rfl⟩
  · simp [sendScore, apply_ite Globals.layer1, apply_ite Globals.layer2, apply_ite Globals.layer3]
  · simp [sendScore, apply_ite Globals.layer1, apply_ite Globals.layer2, apply_ite Globals.layer3]

/-- C2: for every state and input, a Ball tick (when it returns) and a Paddle
tick leave each of layer1, layer2, layer3 a bitwise subset of its previous value,
and a Game tick either leaves all three layers unchanged or sets all three to 0xFF. -/
theorem layers_never_gain_bits (fuel : Nat) (s : Globals) (i : Inputs) :
    (∀ s' : Globals, Ball_Tick fuel s i = some s' → LayersSub s' s) ∧
    LayersSub (Paddle_Tick s i) s ∧
    (((Game_Tick s i).layer1 = s.layer1 ∧ (Game_Tick s i).layer2 = s.layer2 ∧
        (Game_Tick s i).layer3 = s.layer3) ∨
      ((Game_Tick s i).layer1 = 0xFF ∧ (Game_Tick s i).layer2 = 0xFF ∧
        (Game_Tick s i).layer3 = 0xFF)) := by
  refine ⟨fun s' h => Ball_Tick_layers fuel s i s' h, ?_, Game_Tick_layers s i⟩
  obtain ⟨e1, e2, e3⟩ := Paddle_Tick_layers s i
  exact LayersSub.of_eq e1 e2 e3

theorem midGameNext_spec : Ball_Tick 8 midGame quiet = some midGameNext :=
  getD_of_isSome midGame (by decide)

/-- Witness for C2: the Ball tick from `midGame` returns, clears bit 1 of layer2
and bit 2 of layer3, and sets no bit. -/
theorem layers_never_gain_bits_witness :
    Ball_Tick 8 midGame quiet = some midGameNext ∧
    midGameNext.layer2 = 0xFD ∧ midGameNext.layer3 = 0xFB ∧ LayersSub midGameNext midGame :=
  ⟨midGameNext_spec, by decide, by decide,
   (layers_never_gain_bits 8 midGame quiet).1 midGameNext midGameNext_spec⟩

/-! ## C3: the column-decoding loop -/

theorem decodeLoop_zero (fuel : Nat) : ∀ n : Nat, decodeLoop fuel 0 n = none := by
  induction fuel with
  | zero => intro n; rfl
  | succ f ih => intro n; simp [decodeLoop, ih]

theorem Ball_Tick_column_zero (fuel : Nat) (s : Globals) (i : Inputs) (hc : RunsCycle s)
    (hx : s.xpos = 0) : Ball_Tick fuel s i = none := by
  have hx' : (Ball_transition s).xpos = 0 := by rw [(Ball_transition_same s).1, hx]
  unfold RunsCycle at hc
  unfold Ball_Tick
  generalize Ball_transition s = t at hc hx'
  simp only [Ball_action, hc, Ball_Cycle_action, cycEnter, hx', decodeLoop_zero, Option.map_none']

theorem fastPath_without_ball (fuel : Nat) (s : Globals) (i : Inputs) (hg : s.game_ticks ≥ 100)
    (hs : (Paddle_Tick s i).setup = 0) :
    fastPath fuel s i = some { Game_Tick (Paddle_Tick s i) i with game_ticks := 0 } := by
  simp [fastPath, fastBall, hg, hs]

set_option maxRecDepth 1000000 in
theorem hangState_spec : runIters 8 hangInputs 1000 0 initial = some hangState :=
  getD_of_isSome initial (by decide!)

set_option maxRecDepth 1000000 in
theorem hangCall_facts :
    hangState.game_ticks ≥ 100 ∧ (Paddle_Tick hangState quiet).setup = 0 ∧
    (hangCall.ball_ticks ≥ hangCall.ballspeed ∧ hangCall.setup = 0) ∧
    RunsCycle hangCall ∧ hangCall.xpos = 0 := by
  decide!

/-- C3 (the code breaks the claim): after the 1000 passes driven by `hangInputs`
the program is at the head of a pass whose fast path returns `hangCall`; there the
slow-path condition holds, `Ball_Tick` executes the Cycle action with `xpos = 0`,
and with no amount of fuel does the column-decoding loop, `Ball_Tick` or the pass
return. -/
theorem ball_tick_never_returns_from_column_zero :
    runIters 8 hangInputs 1000 0 initial = some hangState ∧
    (∀ fuel : Nat, fastPath fuel hangState (hangInputs 1000) = some hangCall) ∧
    (hangCall.ball_ticks ≥ hangCall.ballspeed ∧ hangCall.setup = 0) ∧
    RunsCycle hangCall ∧ hangCall.xpos = 0 ∧
    (∀ fuel : Nat, Ball_Tick fuel hangCall (hangInputs 1000) = none) ∧
    (∀ fuel : Nat, main_iter fuel hangState (hangInputs 1000) = none) := by
  obtain ⟨h1, h2, h3, h4, h5⟩ := hangCall_facts
  have hq : hangInputs 1000 = quiet := by decide
  have hf : ∀ fuel : Nat, fastPath fuel hangState (hangInputs 1000) = some hangCall := by
    intro fuel; rw [hq]; exact fastPath_without_ball fuel hangState quiet h1 h2
  have hb : ∀ fuel : Nat, Ball_Tick fuel hangCall (hangInputs 1000) = none :=
    fun fuel => Ball_Tick_column_zero fuel hangCall _ h4 h5
  refine ⟨hangState_spec, hf, h3, h4, h5, hb, ?_⟩
  intro fuel
  simp [main_iter, hf fuel, slowPath, h3, hb fuel]

/-! ## C4: score -/

theorem Paddle_Tick_score (s : Globals) (i : Inputs) : (Paddle_Tick s i).score = s.score := by
  have ht : (Paddle_transition s).score = s.score := by
    unfold Paddle_transition
    split <;> simp [apply_ite Globals.score]
  rw [← ht]
  unfold Paddle_Tick
  generalize Paddle_transition s = t
  unfold Paddle_action
  split <;> simp [apply_ite Globals.score]

theorem LED_Tick_score (s : Globals) : (LED_Tick s).score = s.score := by
  unfold LED_Tick
  cases hl : s.l_state <;> simp

theorem Game_Tick_score (s : Globals) (i : Inputs) :
    ((Game_Tick s i).g_state = Game_States.Game_Reset → (Game_Tick s i).score = 0) ∧
    ((Game_Tick s i).g_state ≠ Game_States.Game_Reset → (Game_Tick s i).score = s.score) := by
  have ht : (Game_transition s).score = s.score := by
    unfold Game_transition
    split <;> simp [apply_ite Globals.score]
  rw [← ht]
  unfold Game_Tick
  generalize Game_transition s = t
  unfold Game_action
  split <;> rename_i hg <;>
    simp [Game_Status_action, sendScore, apply_ite Globals.score, apply_ite Globals.g_state, hg]

theorem ypos_cases (y : Nat) :
    y = 0x01 ∨ y = 0x02 ∨ y = 0x04 ∨ y = 0x08 ∨ (y ≠ 0x01 ∧ y ≠ 0x02 ∧ y ≠ 0x04 ∧ y ≠ 0x08) := by
  omega

theorem cycLaunch_hits (s : Globals) :
    (cycLaunch s).ypos = s.ypos ∧ (cycLaunch s).brickhits ≤ s.brickhits + 1 ∧
    (s.ypos ≠ 0x08 → (cycLaunch s).brickhits = s.brickhits) := by
  refine ⟨?_, ?_, ?_⟩
  · simp [cycLaunch, setXdir, hit3, apply_ite Globals.ypos]
  · simp only [cycLaunch, setXdir, hit3, apply_ite Globals.brickhits, ite_self]
    split_ifs <;> omega
  · intro h
    simp [cycLaunch, h]

theorem cycSide_hits (s : Globals) (n : Nat) :
    (cycSide s n).brickhits ≤ s.brickhits + 1 ∧
    (s.ypos = 0x08 → (cycSide s n).brickhits = s.brickhits) := by
  refine ⟨?_, ?_⟩
  · rcases ypos_cases s.ypos with h | h | h | h | ⟨h1, h2, h3, _⟩
    all_goals
      (simp [cycSide, cycSideLeft, cycSideRight, setXdir, hit1, hit2, hit3,
        apply_ite Globals.brickhits, apply_ite Globals.ypos, apply_ite Globals.layer1,
        apply_ite Globals.layer2, apply_ite Globals.layer3, *]) <;>
      (try split_ifs) <;> omega
  · intro h
    simp [cycSide, cycSideLeft, cycSideRight, setXdir, h, apply_ite Globals.brickhits,
      apply_ite Globals.ypos]

theorem cycCeil_hits (s : Globals) : (cycCeil s).brickhits = s.brickhits := by
  simp [cycCeil, apply_ite Globals.brickhits]

theorem cycTransition_hits (s : Globals) (n : Nat) :
    (cycTransition s n).1.brickhits ≤ s.brickhits + 2 := by
  simp only [cycTransition, cycPaddle, setXdir, hit1, hit2, hit3,
      apply_ite Globals.brickhits, apply_ite Globals.ypos, apply_ite Globals.layer1,
      apply_ite Globals.layer2, apply_ite Globals.layer3, apply_ite Prod.fst, ite_self]
  split_ifs <;> omega

theorem cycMove_hits (s : Globals) (o : Nat) : (cycMove s o).brickhits = s.brickhits := by
  simp [cycMove, apply_ite Globals.brickhits]

theorem cycBody_hits (s : Globals) (i : Inputs) (n : Nat) :
    (cycBody (cycEnter s i) n).brickhits ≤ 3 := by
  have e0 : (cycEnter s i).brickhits = 0 := rfl
  obtain ⟨l1, l2, l3⟩ := cycLaunch_hits (cycEnter s i)
  obtain ⟨s1, s2⟩ := cycSide_hits (cycLaunch (cycEnter s i)) n
  have c := cycCeil_hits (cycSide (cycLaunch (cycEnter s i)) n)
  have t := cycTransition_hits (cycCeil (cycSide (cycLaunch (cycEnter s i)) n)) n
  have hs : (cycBody (cycEnter s i) n).brickhits =
      (cycTransition (cycCeil (cycSide (cycLaunch (cycEnter s i)) n)) n).1.brickhits := by
    simp [cycBody, cycSound, cycMove_hits, apply_ite Globals.brickhits]
  rw [hs]
  by_cases h8 : (cycEnter s i).ypos = 0x08
  · have := s2 (by rw [l1]; exact h8)
    omega
  · have := l3 h8
    omega

theorem cycBody_score (s : Globals) (n : Nat) :
    (cycBody s n).score = s.score ∨
    (cycBody s n).score = (s.score + (cycBody s n).brickhits) % 256 := by
  have hpre : (cycTransition (cycCeil (cycSide (cycLaunch s) n)) n).1.score = s.score := by
    simp [cycTransition, cycPaddle, cycCeil, cycSide, cycSideLeft, cycSideRight, cycLaunch,
      setXdir, hit1, hit2, hit3, apply_ite Globals.score, apply_ite Prod.fst]
  unfold cycBody
  simp only []
  generalize (cycTransition (cycCeil (cycSide (cycLaunch s) n)) n) = p at hpre
  have hm : (cycMove p.1 p.2).score = s.score := by
    rw [← hpre]; simp [cycMove, apply_ite Globals.score]
  have hb := cycMove_hits p.1 p.2
  generalize cycMove p.1 p.2 = m at hm hb
  by_cases hge : m.brickhits ≥ 1
  · right; simp [cycSound, hge, hm, apply_ite Globals.score, apply_ite Globals.brickhits]
  · left; simp [cycSound, hge, hm, apply_ite Globals.score, apply_ite Globals.brickhits]

theorem Ball_Tick_score (fuel : Nat) (s : Globals) (i : Inputs) (s' : Globals)
    (h : Ball_Tick fuel s i = some s') :
    s'.score = s.score ∨ (s'.brickhits ≤ 3 ∧ s'.score = (s.score + s'.brickhits) % 256) := by
  have ht : (Ball_transition s).score = s.score := by
    unfold Ball_transition
    split <;> simp [apply_ite Globals.score]
  rw [← ht]
  unfold Ball_Tick at h
  generalize Ball_transition s = t at h
  unfold Ball_action at h
  split at h
  · cases h; exact Or.inl rfl
  · cases h; exact Or.inl rfl
  · cases h
    left
    simp [Ball_Setup_action, setXdir, apply_ite Globals.score]
  · unfold Ball_Cycle_action at h
    simp only [Option.map_eq_some'] at h
    obtain ⟨n, -, rfl⟩ := h
    rcases cycBody_score (cycEnter t i) n with h1 | h1
    · exact Or.inl h1
    · exact Or.inr ⟨cycBody_hits t i n, h1⟩
  · cases h; exact Or.inl rfl
  · cases h; exact Or.inl rfl

/-- Score under one tick: a Paddle tick and an LED tick leave `score` unchanged; a Game
tick sets it to 0 when its resulting state is `Game_Reset` and leaves it unchanged
otherwise; a Ball tick leaves it unchanged or adds the brick-hit count of the
tick, at most 3, modulo 256, so `score` does not decrease as long as
`score + brickhits ≤ 255`, in particular whenever `score ≤ 252`. -/
theorem score_non_decreasing_below_wrap (fuel : Nat) (s : Globals) (i : Inputs) :
    (Paddle_Tick s i).score = s.score ∧ (LED_Tick s).score = s.score ∧
    ((Game_Tick s i).g_state = Game_States.Game_Reset → (Game_Tick s i).score = 0) ∧
    ((Game_Tick s i).g_state ≠ Game_States.Game_Reset → (Game_Tick s i).score = s.score) ∧
    (∀ s' : Globals, Ball_Tick fuel s i = some s' →
      (s'.score = s.score ∨ (s'.brickhits ≤ 3 ∧ s'.score = (s.score + s'.brickhits) % 256)) ∧
      (s.score + s'.brickhits ≤ 255 → s.score ≤ s'.score) ∧
      (s.score ≤ 252 → s.score ≤ s'.score)) := by
  refine ⟨Paddle_Tick_score s i, LED_Tick_score s, (Game_Tick_score s i).1,
    (Game_Tick_score s i).2, ?_⟩
  intro s' h
  have hb := Ball_Tick_score fuel s i s' h
  refine ⟨hb, ?_, ?_⟩
  · intro hle
    rcases hb with h1 | ⟨_, h2⟩
    · omega
    · rw [h2]; omega
  · intro hle
    rcases hb with h1 | ⟨h3, h2⟩
    · omega
    · rw [h2]; omega

/-- Example of the score step: the Ball tick from `midGame` (score 5) returns with two
brick hits and score 7. -/
theorem score_non_decreasing_below_wrap_witness :
    Ball_Tick 8 midGame quiet = some midGameNext ∧ midGameNext.score = 7 ∧
    midGame.score ≤ midGameNext.score :=
  ⟨midGameNext_spec, by decide,
   ((score_non_decreasing_below_wrap 8 midGame quiet).2.2.2.2 midGameNext midGameNext_spec).2.2
     (by decide)⟩


/-! ## C5, C6: level advance and victory -/

theorem Game_transition_stays (s : Globals) (h : StaysInStatus s) : Game_transition s = s := by
  obtain ⟨hg, hr, hl, hv⟩ := h
  simp [Game_transition, hg, hr, hl, hv]

/-- C5: a Game tick that starts and stays in `Game_Status` with all three layers
empty and `ballspeed` above 150 lowers `ballspeed` by 50, refills the three layers
to 0xFF, sets `setup`, and appends the current score to the transmit log when the
transmitter is ready (and once more when `brickhits` is set and the second poll
is ready). -/
theorem level_advance (s : Globals) (i : Inputs) (h : StaysInStatus s)
    (h1 : s.layer1 = 0) (h2 : s.layer2 = 0) (h3 : s.layer3 = 0)
    (hs : s.ballspeed > 150) (hw : s.ballspeed < 65536) :
    (Game_Tick s i).g_state = Game_States.Game_Status ∧
    (Game_Tick s i).ballspeed = s.ballspeed - 50 ∧
    (Game_Tick s i).layer1 = 0xFF ∧ (Game_Tick s i).layer2 = 0xFF ∧
    (Game_Tick s i).layer3 = 0xFF ∧ (Game_Tick s i).setup = 1 ∧
    (Game_Tick s i).score = s.score ∧
    (Game_Tick s i).sent =
      s.sent ++ (if i.tx_ready then [s.score] else []) ++
        (if s.brickhits ≠ 0 ∧ i.tx_ready2 then [s.score] else []) := by
  have hmod : (s.ballspeed - 50) % 65536 = s.ballspeed - 50 := Nat.mod_eq_of_lt (by omega)
  rw [Game_Tick, Game_transition_stays s h]
  obtain ⟨hg, -, -, -⟩ := h
  simp only [Game_action, hg, Game_Status_action, h1, h2, h3, hs, sendScore, and_self, if_true,
    decide_True, hmod]
  cases i.tx_ready <;> cases i.tx_ready2 <;> by_cases hb : s.brickhits = 0 <;> simp [hb, hg]

/-- C6: a Game tick that starts and stays in `Game_Status` with all three layers
empty and `ballspeed` equal to 150 sets `victory` and `finalsend` to 1 and leaves
`ballspeed` at 150 and the three layers empty. -/
theorem victory_at_speed_floor (s : Globals) (i : Inputs) (h : StaysInStatus s)
    (h1 : s.layer1 = 0) (h2 : s.layer2 = 0) (h3 : s.layer3 = 0) (hs : s.ballspeed = 150) :
    (Game_Tick s i).victory = 1 ∧ (Game_Tick s i).finalsend = 1 ∧
    (Game_Tick s i).ballspeed = 150 ∧
    (Game_Tick s i).layer1 = 0 ∧ (Game_Tick s i).layer2 = 0 ∧ (Game_Tick s i).layer3 = 0 := by
  rw [Game_Tick, Game_transition_stays s h]
  obtain ⟨hg, -, -, -⟩ := h
  simp only [Game_action, hg, Game_Status_action, h1, h2, h3, hs, sendScore]
  cases i.tx_ready <;> by_cases hb : s.brickhits = 0 <;> simp [hb]

/-- Witness for C5: `levelClearedState` (speed 200, score 48, one hit reported)
with the transmitter ready. -/
theorem level_advance_witness :
    StaysInStatus levelClearedState ∧
    (Game_Tick levelClearedState quiet).ballspeed = 150 ∧
    (Game_Tick levelClearedState quiet).setup = 1 ∧
    (Game_Tick levelClearedState quiet).sent = [48, 48] := by
  have h := level_advance levelClearedState quiet (by decide) (by decide) (by decide)
    (by decide) (by decide) (by decide)
  exact ⟨by decide, h.2.1, h.2.2.2.2.2.1, h.2.2.2.2.2.2.2⟩

/-- Witness for C6: `lastLevelClearedState` (speed 150). -/
theorem victory_at_speed_floor_witness :
    StaysInStatus lastLevelClearedState ∧
    (Game_Tick lastLevelClearedState quiet).victory = 1 ∧
    (Game_Tick lastLevelClearedState quiet).finalsend = 1 ∧
    (Game_Tick lastLevelClearedState quiet).ballspeed = 150 := by
  have h := victory_at_speed_floor lastLevelClearedState quiet (by decide) (by decide)
    (by decide) (by decide) (by decide)
  exact ⟨by decide, h.1, h.2.1, h.2.2.1⟩

/-! ## The Cycle action on a one-hot column -/

theorem oneHot_cases {x : Nat} (h : OneHot x) :
    x = 1 ∨ x = 2 ∨ x = 4 ∨ x = 8 ∨ x = 16 ∨ x = 32 ∨ x = 64 ∨ x = 128 := by
  simpa [OneHot] using h

theorem decodeLoop_onehot (fuel x : Nat) (hx : OneHot x) (hf : 8 ≤ fuel) :
    ∃ n : Nat, n < 8 ∧ x = 2 ^ n ∧ decodeLoop fuel x 0 = some n := by
  obtain ⟨m, rfl⟩ : ∃ m, fuel = m + 8 := ⟨fuel - 8, by omega⟩
  rcases oneHot_cases hx with rfl | rfl | rfl | rfl | rfl | rfl | rfl | rfl
  · exact ⟨0, by decide, by decide, by simp [decodeLoop]⟩
  · exact ⟨1, by decide, by decide, by simp [decodeLoop]⟩
  · exact ⟨2, by decide, by decide, by simp [decodeLoop]⟩
  · exact ⟨3, by decide, by decide, by simp [decodeLoop]⟩
  · exact ⟨4, by decide, by decide, by simp [decodeLoop]⟩
  · exact ⟨5, by decide, by decide, by simp [decodeLoop]⟩
  · exact ⟨6, by decide, by decide, by simp [decodeLoop]⟩
  · exact ⟨7, by decide, by decide, by simp [decodeLoop]⟩

theorem Ball_transition_eq (s : Globals) :
    Ball_transition s = { s with b_state := (Ball_transition s).b_state } := by
  unfold Ball_transition
  split <;> rename_i hb
  · rfl
  · split_ifs <;> simp [← hb]
  · simp only []; split_ifs <;> simp [← hb]
  · simp only []; split_ifs <;> simp [← hb]
  · split_ifs <;> simp [← hb]
  · split_ifs <;> simp [← hb]

theorem Ball_Tick_decoded (fuel : Nat) (s : Globals) (i : Inputs) (hc : RunsCycle s)
    (n : Nat) (hd : decodeLoop fuel s.xpos 0 = some n) :
    Ball_Tick fuel s i =
      some (cycBody (cycEnter { s with b_state := Ball_States.Ball_Cycle } i) n) := by
  unfold RunsCycle at hc
  have ht := Ball_transition_eq s
  rw [hc] at ht
  unfold Ball_Tick
  rw [ht]
  simp only [Ball_action, Ball_Cycle_action]
  have : (cycEnter { s with b_state := Ball_States.Ball_Cycle } i).xpos = s.xpos := rfl
  rw [this, hd]
  rfl

theorem Ball_Tick_cycle (fuel : Nat) (s : Globals) (i : Inputs) (hc : RunsCycle s)
    (hx : OneHot s.xpos) (hf : 8 ≤ fuel) :
    ∃ n : Nat, n < 8 ∧ s.xpos = 2 ^ n ∧
      Ball_Tick fuel s i =
        some (cycBody (cycEnter { s with b_state := Ball_States.Ball_Cycle } i) n) := by
  obtain ⟨n, hn, hxn, hd⟩ := decodeLoop_onehot fuel s.xpos hx hf
  exact ⟨n, hn, hxn, Ball_Tick_decoded fuel s i hc n hd⟩

theorem testBit_255 (k : Nat) (hk : k < 8) : Nat.testBit 255 k = true := by
  interval_cases k <;> decide

theorem clearBits_testBit (l m k : Nat) (hk : k < 8) :
    Nat.testBit (clearBits l m) k = (Nat.testBit l k && !Nat.testBit m k) := by
  unfold clearBits
  have h256 : (256 : Nat) = 2 ^ 8 := by norm_num
  rw [Nat.testBit_and, Nat.testBit_xor, testBit_255 k hk, h256, Nat.testBit_mod_two_pow]
  simp [hk]

theorem GetBit_nat (x n : Nat) (hn : n < 8) : GetBit x (n : Int) = Nat.testBit x n := by
  simp [GetBit, hn]

/-! ## C8: reversals of the x-direction within one tick -/

theorem cycLaunch_flips (s : Globals) : (cycLaunch s).xflips = s.xflips := by
  simp only [cycLaunch, setXdir, hit3, apply_ite Globals.xflips]
  split_ifs <;> simp_all [LEFT, RIGHT, MIDDLE]

theorem cycSide_flips (s : Globals) (n : Nat) :
    s.xflips ≤ (cycSide s n).xflips ∧ (cycSide s n).xflips ≤ s.xflips + 1 := by
  rcases ypos_cases s.ypos with h | h | h | h | ⟨h1, h2, h3, _⟩
  all_goals
    constructor <;>
    (simp [cycSide, cycSideLeft, cycSideRight, setXdir, hit1, hit2, hit3,
      apply_ite Globals.xflips, apply_ite Globals.ypos, apply_ite Globals.layer1,
      apply_ite Globals.layer2, apply_ite Globals.layer3, apply_ite Globals.xdir,
      LEFT, RIGHT, *]) <;>
    (try split_ifs) <;> omega

theorem cycCeil_flips (s : Globals) : (cycCeil s).xflips = s.xflips := by
  simp [cycCeil, apply_ite Globals.xflips]

theorem cycPaddle_flips (s : Globals) :
    s.xflips ≤ (cycPaddle s).xflips ∧ (cycPaddle s).xflips ≤ s.xflips + 2 := by
  constructor <;>
  (simp [cycPaddle, setXdir, apply_ite Globals.xflips, apply_ite Globals.xdir,
    apply_ite Globals.xpos, apply_ite Globals.paddle_pos, apply_ite Globals.lost,
    LEFT, RIGHT]) <;>
  (try split_ifs) <;> omega

theorem cycTransition_flips (s : Globals) (n : Nat) :
    s.xflips ≤ (cycTransition s n).1.xflips ∧ (cycTransition s n).1.xflips ≤ s.xflips + 2 := by
  by_cases hp : s.ypos = 0x40
  · by_cases hd : s.ydir = DOWN
    · have e : (cycTransition s n).1 = cycPaddle s := by
        simp [cycTransition, hp, hd, DOWN, UP]
      rw [e]; exact cycPaddle_flips s
    · have e : (cycTransition s n).1 = s := by
        simp [cycTransition, hp, hd, DOWN, UP]
      rw [e]; omega
  · rcases ypos_cases s.ypos with h | h | h | h | ⟨h1, h2, h3, h4⟩
    all_goals
      constructor <;>
      (simp [cycTransition, setXdir, hit1, hit2, hit3,
        apply_ite Globals.xflips, apply_ite Globals.ypos, apply_ite Globals.layer1,
        apply_ite Globals.layer2, apply_ite Globals.layer3, apply_ite Globals.xdir,
        apply_ite Prod.fst, LEFT, RIGHT, *]) <;>
      (try split_ifs) <;> omega

theorem cycTail_flips (s : Globals) (o : Nat) : (cycSound (cycMove s o)).xflips = s.xflips := by
  simp [cycSound, cycMove, apply_ite Globals.xflips]

/-- C8 (amended): in a Cycle tick with a one-hot ball column the wall-bounce or
side-collision step reverses `xdir` at most once, the later steps (layer-transition
collision and its chain reaction, or the paddle edge checks) reverse it at most
twice more, and so the tick reverses it at most three times. -/
theorem xdir_reversals_per_tick (fuel : Nat) (s : Globals) (i : Inputs) (hf : 8 ≤ fuel)
    (hc : RunsCycle s) (hx : OneHot s.xpos) :
    ∃ (n : Nat) (s' : Globals), decodeLoop fuel s.xpos 0 = some n ∧
      Ball_Tick fuel s i = some s' ∧
      s.xflips ≤ (afterSide s i n).xflips ∧ (afterSide s i n).xflips ≤ s.xflips + 1 ∧
      (afterSide s i n).xflips ≤ s'.xflips ∧ s'.xflips ≤ (afterSide s i n).xflips + 2 ∧
      s'.xflips ≤ s.xflips + 3 := by
  obtain ⟨n, -, -, hd⟩ := decodeLoop_onehot fuel s.xpos hx hf
  refine ⟨n, _, hd, Ball_Tick_decoded fuel s i hc n hd, ?_⟩
  have h0 : (cycLaunch (cycEnter { s with b_state := Ball_States.Ball_Cycle } i)).xflips =
      s.xflips := cycLaunch_flips _
  have h12 : s.xflips ≤ (afterSide s i n).xflips ∧
      (afterSide s i n).xflips ≤ s.xflips + 1 := by
    have h := cycSide_flips (cycLaunch (cycEnter { s with b_state := Ball_States.Ball_Cycle } i)) n
    rw [h0] at h
    exact h
  have h3 := cycCeil_flips (afterSide s i n)
  obtain ⟨h4, h5⟩ := cycTransition_flips (cycCeil (afterSide s i n)) n
  have h6 : (cycBody (cycEnter { s with b_state := Ball_States.Ball_Cycle } i) n).xflips =
      (cycTransition (cycCeil (afterSide s i n)) n).1.xflips := cycTail_flips _ _
  rw [h3] at h4 h5
  rw [h6]
  exact ⟨h12.1, h12.2, h4, h5, by omega⟩

theorem doubleFlip_tick :
    (decodeLoop 8 doubleFlipState.xpos 0, (afterSide doubleFlipState quiet 2).xflips,
      (afterSide doubleFlipState quiet 2).xdir,
      (Ball_Tick 8 doubleFlipState quiet).map (fun s => (s.xflips, s.xdir))) =
      (some 2, 1, RIGHT, some (2, LEFT)) := by
  decide!

/-- C8 (counterexample): in `doubleFlipState` (one-hot column 0x04, row 0x02,
moving LEFT and DOWN, brick at bit 1 of layer2 and bit 3 of layer3) the
side-collision step reverses `xdir` to RIGHT and the layer-transition collision of
the same tick reverses it again to LEFT: two reversals in one tick. -/
theorem xdir_reversed_twice_in_one_tick :
    RunsCycle doubleFlipState ∧ OneHot doubleFlipState.xpos ∧
    doubleFlipState.xflips = 0 ∧ doubleFlipState.xdir = LEFT ∧
    decodeLoop 8 doubleFlipState.xpos 0 = some 2 ∧
    (afterSide doubleFlipState quiet 2).xflips = 1 ∧
    (afterSide doubleFlipState quiet 2).xdir = RIGHT ∧
    ∃ s' : Globals, Ball_Tick 8 doubleFlipState quiet = some s' ∧
      s'.xflips = 2 ∧ s'.xdir = LEFT := by
  have h := doubleFlip_tick
  simp only [Prod.mk.injEq, Option.map_eq_some'] at h
  obtain ⟨h1, h2, h3, s', hs', h4, h5⟩ := h
  exact ⟨by decide, by decide, by decide, by decide, h1, h2, h3, s', hs', h4, h5⟩

theorem tripleFlip_tick :
    (Ball_Tick 8 tripleFlipState quiet).map (fun s => s.xflips) = some 3 := by
  decide!

/-- Witness for C8: in `tripleFlipState` the side collision, the layer-transition
collision and its chain reaction each reverse `xdir`, so the bound 3 is attained. -/
theorem xdir_reversals_per_tick_witness :
    RunsCycle tripleFlipState ∧ OneHot tripleFlipState.xpos ∧ tripleFlipState.xflips = 0 ∧
    (Ball_Tick 8 tripleFlipState quiet).map (fun s => s.xflips) = some 3 ∧
    ∃ (n : Nat) (s' : Globals), decodeLoop 8 tripleFlipState.xpos 0 = some n ∧
      Ball_Tick 8 tripleFlipState quiet = some s' ∧
      tripleFlipState.xflips ≤ (afterSide tripleFlipState quiet n).xflips ∧
      (afterSide tripleFlipState quiet n).xflips ≤ tripleFlipState.xflips + 1 ∧
      (afterSide tripleFlipState quiet n).xflips ≤ s'.xflips ∧
      s'.xflips ≤ (afterSide tripleFlipState quiet n).xflips + 2 ∧
      s'.xflips ≤ tripleFlipState.xflips + 3 :=
  ⟨by decide, by decide, by decide, tripleFlip_tick,
   xdir_reversals_per_tick 8 tripleFlipState quiet (by decide) (by decide) (by decide)⟩


/-! ## C9: the side-hit scenario -/

/-- C9 (amended): a Cycle tick with the ball at column 0x04, row 0x02, moving LEFT
and DOWN, bit 1 of layer2 set and bits 2 and 3 of layer3 clear, returns with bit 1
of layer2 cleared, x-direction RIGHT, brick-hit count 1 and tone 220. -/
theorem side_hit_scenario (fuel : Nat) (s : Globals) (i : Inputs) (hf : 8 ≤ fuel)
    (hc : RunsCycle s) (hx : s.xpos = 0x04) (hy : s.ypos = 0x02)
    (hxd : s.xdir = LEFT) (hyd : s.ydir = DOWN)
    (h2 : Nat.testBit s.layer2 1 = true)
    (h32 : Nat.testBit s.layer3 2 = false) (h33 : Nat.testBit s.layer3 3 = false) :
    ∃ s' : Globals, Ball_Tick fuel s i = some s' ∧
      Nat.testBit s'.layer2 1 = false ∧ s'.xdir = RIGHT ∧ s'.brickhits = 1 ∧
      s'.PWM_freq = 220 := by
  obtain ⟨n, hn, hxn, ht⟩ := Ball_Tick_cycle fuel s i hc (by rw [hx]; decide) hf
  have hn2 : n = 2 := by
    rw [hx] at hxn
    interval_cases n <;> first | rfl | (norm_num at hxn)
  subst hn2
  refine ⟨_, ht, ?_⟩
  have g1 : GetBit s.layer2 1 = true := by simpa [GetBit] using h2
  have g2 : GetBit s.layer3 2 = false := by simpa [GetBit] using h32
  have g3 : GetBit s.layer3 3 = false := by simpa [GetBit] using h33
  have c1 : Nat.testBit (clearBits s.layer2 2) 1 = false := by
    have hb : Nat.testBit 2 1 = true := by decide
    rw [clearBits_testBit _ _ _ (by decide), hb]; simp
  simp [cycBody, cycSound, cycMove, cycTransition, cycCeil, cycSide, cycSideLeft, cycLaunch,
    cycEnter, setXdir, hit2, hx, hy, hxd, hyd, g1, g2, g3, c1, UP, DOWN, LEFT, RIGHT, MIDDLE]

theorem midGame_tick :
    (Ball_Tick 8 midGame quiet).map
        (fun s => (Nat.testBit s.layer2 1, s.xdir, s.ydir, s.brickhits, s.PWM_freq, s.layer3)) =
      some (false, RIGHT, UP, 2, 440, 0xFB) := by
  decide!

/-- C9 (counterexample): `midGame` satisfies every condition of the scenario
(column 0x04, row 0x02, LEFT, DOWN, bit 1 of layer2 set) with layer3 full; the
tick also hits the brick straight below in layer3, so the brick-hit count is 2 and
the tone is 440, not 1 and 220. -/
theorem side_hit_scenario_fails_with_brick_below :
    RunsCycle midGame ∧ midGame.xpos = 0x04 ∧ midGame.ypos = 0x02 ∧
    midGame.xdir = LEFT ∧ midGame.ydir = DOWN ∧ Nat.testBit midGame.layer2 1 = true ∧
    ∃ s' : Globals, Ball_Tick 8 midGame quiet = some s' ∧
      s'.brickhits = 2 ∧ s'.PWM_freq = 440 := by
  have h := midGame_tick
  simp only [Prod.mk.injEq, Option.map_eq_some'] at h
  obtain ⟨s', hs', -, -, -, h4, h5, -⟩ := h
  exact ⟨by decide, by decide, by decide, by decide, by decide, by decide, s', hs', h4, h5⟩

/-- Witness for C9: `sideHitState` (layer3 = 0xF3). -/
theorem side_hit_scenario_witness :
    RunsCycle sideHitState ∧
    ∃ s' : Globals, Ball_Tick 8 sideHitState quiet = some s' ∧
      Nat.testBit s'.layer2 1 = false ∧ s'.xdir = RIGHT ∧ s'.brickhits = 1 ∧
      s'.PWM_freq = 220 :=
  ⟨by decide,
   side_hit_scenario 8 sideHitState quiet (by decide) (by decide) (by decide) (by decide)
     (by decide) (by decide) (by decide) (by decide) (by decide)⟩


/-! ## C10: the ball passes the paddle on the right -/

/-- C10 (amended): a Cycle tick with the ball in row 0x40 moving RIGHT and DOWN, a
one-hot column to the right of the paddle (`xpos > 2 * paddle_pos`, `paddle_pos`
zero or one-hot), other than the ball at the wall column 0x80 with the paddle at
0x20, sets `lost` to 1. -/
theorem miss_right_of_paddle (fuel : Nat) (s : Globals) (i : Inputs) (hf : 8 ≤ fuel)
    (hc : RunsCycle s) (hy : s.ypos = 0x40) (hyd : s.ydir = DOWN) (hxd : s.xdir = RIGHT)
    (hx : OneHot s.xpos) (hp : OneHot0 s.paddle_pos) (hgt : s.xpos > 2 * s.paddle_pos)
    (hw : ¬ (s.xpos = 0x80 ∧ s.paddle_pos = 0x20)) :
    ∃ s' : Globals, Ball_Tick fuel s i = some s' ∧ s'.lost = 1 := by
  obtain ⟨n, -, -, ht⟩ := Ball_Tick_cycle fuel s i hc hx hf
  refine ⟨_, ht, ?_⟩
  have h4 : 4 * s.paddle_pos ≤ s.xpos := by
    rcases oneHot0_cases hp with h | h | h | h | h | h | h | h | h <;>
      rcases oneHot_cases hx with h' | h' | h' | h' | h' | h' | h' | h' <;> omega
  by_cases h80 : s.xpos = 0x80
  · have hne : ¬ (128 = s.paddle_pos * 4) := by omega
    have hne2 : ¬ (128 = s.paddle_pos / 4) := by omega
    have hgt2 : ¬ (128 ≤ s.paddle_pos * 4) := by omega
    simp [cycBody, cycSound, cycMove, cycTransition, cycPaddle, cycCeil, cycSide, cycLaunch,
      cycEnter, setXdir, hy, hyd, hxd, h80, hne, hne2, hgt2, UP, DOWN, LEFT, RIGHT, MIDDLE,
      apply_ite Globals.lost]
  · have hne2 : ¬ (s.xpos = s.paddle_pos / 4) := by omega
    by_cases he : s.xpos = s.paddle_pos * 4
    · simp [cycBody, cycSound, cycMove, cycTransition, cycPaddle, cycCeil, cycSide, cycSideRight,
        cycLaunch, cycEnter, setXdir, hy, hyd, hxd, h80, hne2, ← he, UP, DOWN, LEFT, RIGHT,
        MIDDLE, apply_ite Globals.lost]
    · have hgt2 : ¬ (s.xpos ≤ s.paddle_pos * 4) := by omega
      simp [cycBody, cycSound, cycMove, cycTransition, cycPaddle, cycCeil, cycSide, cycSideRight,
        cycLaunch, cycEnter, setXdir, hy, hyd, hxd, h80, hne2, he, hgt2, UP, DOWN, LEFT, RIGHT,
        MIDDLE, apply_ite Globals.lost]

theorem wallPaddle_tick :
    (Ball_Tick 8 wallPaddleState quiet).map
        (fun s => (s.lost, s.ydir, s.paddle_hit, s.xdir, s.xpos, s.ypos)) =
      some (0, UP, 1, RIGHT, 0x80, 0x20) := by
  decide!

/-- C10 (counterexample): in `wallPaddleState` the ball is in row 0x40 at the
one-hot column 0x80, moving RIGHT and DOWN, and `xpos > 2 * paddle_pos` (0x80 > 0x40);
the wall bounce turns it LEFT first, the right-edge check treats it as a hit, and
the tick leaves `lost` at 0 with the ball turned UP. -/
theorem wall_bounce_onto_paddle_is_no_miss :
    RunsCycle wallPaddleState ∧ wallPaddleState.ypos = 0x40 ∧
    wallPaddleState.ydir = DOWN ∧ wallPaddleState.xdir = RIGHT ∧
    OneHot wallPaddleState.xpos ∧ wallPaddleState.xpos > 2 * wallPaddleState.paddle_pos ∧
    ∃ s' : Globals, Ball_Tick 8 wallPaddleState quiet = some s' ∧
      s'.lost = 0 ∧ s'.ydir = UP ∧ s'.paddle_hit = 1 := by
  have h := wallPaddle_tick
  simp only [Prod.mk.injEq, Option.map_eq_some'] at h
  obtain ⟨s', hs', h1, h2, h3, -, -, -⟩ := h
  exact ⟨by decide, by decide, by decide, by decide, by decide, by decide, s', hs', h1, h2, h3⟩

/-- Witness for C10: `missState` (ball at column 0x40, paddle at 0x08). -/
theorem miss_right_of_paddle_witness :
    RunsCycle missState ∧ missState.xpos > 2 * missState.paddle_pos ∧
    ∃ s' : Globals, Ball_Tick 8 missState quiet = some s' ∧ s'.lost = 1 :=
  ⟨by decide, by decide,
   miss_right_of_paddle 8 missState quiet (by decide) (by decide) (by decide) (by decide)
     (by decide) (by decide) (by decide) (by decide) (by decide)⟩


/-! ## C11, C12: the paddle collision -/

theorem oneHot_pos {x : Nat} (h : OneHot x) : 1 ≤ x := by
  rcases oneHot_cases h with h | h | h | h | h | h | h | h <;> omega

theorem cycTail_lost_ydir (s : Globals) (o : Nat) :
    (cycSound (cycMove s o)).lost = s.lost ∧ (cycSound (cycMove s o)).ydir = s.ydir := by
  constructor <;> simp [cycSound, cycMove, apply_ite Globals.lost, apply_ite Globals.ydir]

theorem cycBody_paddle_row (s : Globals) (n : Nat) (hy : s.ypos = 0x40) (hyd : s.ydir = DOWN) :
    cycBody s n = cycSound (cycMove (cycPaddle (cycSide s n)) 0) := by
  have hl : cycLaunch s = s := by simp [cycLaunch, hy]
  have hsy : (cycSide s n).ypos = 0x40 ∧ (cycSide s n).ydir = DOWN := by
    constructor <;>
      simp [cycSide, cycSideLeft, cycSideRight, setXdir, hy, hyd, apply_ite Globals.ypos,
        apply_ite Globals.ydir]
  unfold cycBody
  rw [hl]
  generalize cycSide s n = t at hsy
  have hc : cycCeil t = t := by simp [cycCeil, hsy.1]
  rw [hc]
  simp [cycTransition, hsy.1, hsy.2, UP, DOWN]

theorem cycSide_paddle_row (s : Globals) (n : Nat) (hy : s.ypos = 0x40) :
    cycSide s n =
      if s.xpos = 0x01 ∧ s.xdir = LEFT then setXdir s RIGHT
      else if s.xpos = 0x80 ∧ s.xdir = RIGHT then setXdir s LEFT else s := by
  unfold cycSide
  split_ifs <;> simp [cycSideLeft, cycSideRight, hy]

/-- C11 (amended): for every state in which the Ball Machine executes the Cycle action with
a one-hot ball column at row 0x40 moving DOWN, the ball one column beyond the paddle's
rightmost occupied column (xpos = 4 * paddle_pos) with x-direction RIGHT and not at the right
wall, or one column beyond its leftmost occupied column (xpos = paddle_pos / 4) with
x-direction LEFT and not at the left wall, the tick returns, sets lost to 1 and leaves the
y-direction DOWN. -/
theorem miss_at_paddle_corner (fuel : Nat) (s : Globals) (i : Inputs) (hf : 8 ≤ fuel)
    (hc : RunsCycle s) (hy : s.ypos = 0x40) (hyd : s.ydir = DOWN) (hx : OneHot s.xpos)
    (h : (s.xpos = 4 * s.paddle_pos ∧ s.xdir = RIGHT ∧ s.xpos ≠ 0x80) ∨
         (s.xpos = s.paddle_pos / 4 ∧ s.xdir = LEFT ∧ s.xpos ≠ 0x01)) :
    ∃ s' : Globals, Ball_Tick fuel s i = some s' ∧ s'.lost = 1 ∧ s'.ydir = DOWN := by
  obtain ⟨n, -, -, ht⟩ := Ball_Tick_cycle fuel s i hc hx hf
  refine ⟨_, ht, ?_⟩
  have h1 := oneHot_pos hx
  rw [cycBody_paddle_row _ n (by simpa [cycEnter] using hy) (by simpa [cycEnter] using hyd),
    (cycTail_lost_ydir _ 0).1, (cycTail_lost_ydir _ 0).2,
    cycSide_paddle_row _ n (by simpa [cycEnter] using hy)]
  rcases h with ⟨he, hxd, h80⟩ | ⟨he, hxd, h01⟩
  · have hne : ¬ (s.xpos = s.paddle_pos / 4) := by omega
    have c1 : (s.xpos = s.paddle_pos * 4) = True := eq_true (by omega)
    constructor <;>
      simp [cycPaddle, cycEnter, setXdir, hyd, hxd, h80, hne, c1, UP, DOWN, LEFT, RIGHT,
        apply_ite Globals.lost, apply_ite Globals.ydir]
  · have hne : ¬ (s.xpos = s.paddle_pos * 4) := by omega
    have c1 : (s.xpos = s.paddle_pos / 4) = True := eq_true he
    constructor <;>
      simp [cycPaddle, cycEnter, setXdir, hyd, hxd, h01, hne, c1, UP, DOWN, LEFT, RIGHT,
        apply_ite Globals.lost, apply_ite Globals.ydir]

theorem cycPaddle_hit (t : Globals) (h1 : ¬ t.xpos = t.paddle_pos / 4)
    (h2 : ¬ t.xpos = t.paddle_pos * 4) (h3 : t.paddle_pos / 4 ≤ t.xpos)
    (h4 : t.xpos ≤ t.paddle_pos * 4) (h5 : t.lost = 0) :
    cycPaddle t = { t with ydir := UP, paddle_hit := 1 } := by
  simp [cycPaddle, h1, h2, h3, h4, h5]

theorem wall_step_frame (s : Globals) (n : Nat) :
    (cycSide s n).xpos = s.xpos ∧ (cycSide s n).paddle_pos = s.paddle_pos ∧
    (cycSide s n).lost = s.lost ∧ (cycSide s n).ypos = s.ypos := by
  refine ⟨?_, ?_, ?_, ?_⟩ <;>
    simp [cycSide, cycSideLeft, cycSideRight, setXdir, hit1, hit2, hit3,
      apply_ite Globals.xpos, apply_ite Globals.paddle_pos, apply_ite Globals.lost,
      apply_ite Globals.ypos]

theorem paddle_overlap_hit (fuel : Nat) (s : Globals) (i : Inputs) (hf : 8 ≤ fuel)
    (hc : RunsCycle s) (hl : s.lost = 0) (hp : OneHot s.paddle_pos)
    (hp2 : 0x02 ≤ s.paddle_pos ∧ s.paddle_pos ≤ 0x40)
    (hy : s.ypos = 0x40) (hyd : s.ydir = DOWN)
    (hx : s.xpos = s.paddle_pos / 2 ∨ s.xpos = s.paddle_pos ∨ s.xpos = 2 * s.paddle_pos) :
    ∃ s' : Globals, Ball_Tick fuel s i = some s' ∧
      s'.lost = 0 ∧ s'.ydir = UP ∧ s'.paddle_hit = 1 ∧ s'.PWM_freq = 110 ∧ s'.ypos = 0x20 := by
  have hxo : OneHot s.xpos := by
    rcases oneHot_cases hp with h | h | h | h | h | h | h | h <;>
      rcases hx with h' | h' | h' <;> rw [h', h] <;> first | decide | omega
  obtain ⟨n, -, -, ht⟩ := Ball_Tick_cycle fuel s i hc hxo hf
  refine ⟨_, ht, ?_⟩
  have hne1 : ¬ (s.xpos = s.paddle_pos / 4) := by
    rcases oneHot_cases hp with h | h | h | h | h | h | h | h <;>
      rcases hx with h' | h' | h' <;> omega
  have hne2 : ¬ (s.xpos = s.paddle_pos * 4) := by omega
  have hge : s.paddle_pos / 4 ≤ s.xpos := by omega
  have hle : s.xpos ≤ s.paddle_pos * 4 := by omega
  rw [cycBody_paddle_row _ n (by simpa [cycEnter] using hy) (by simpa [cycEnter] using hyd)]
  obtain ⟨w1, w2, w3, w4⟩ :=
    wall_step_frame (cycEnter { s with b_state := Ball_States.Ball_Cycle } i) n
  have wb : (cycSide (cycEnter { s with b_state := Ball_States.Ball_Cycle } i) n).brickhits = 0 := by
    simp [cycSide, cycSideLeft, cycSideRight, cycEnter, setXdir, hy, apply_ite Globals.brickhits]
  generalize cycSide (cycEnter { s with b_state := Ball_States.Ball_Cycle } i) n = t at w1 w2 w3 w4 wb
  simp only [cycEnter] at w1 w2 w3 w4
  rw [cycPaddle_hit t (by rw [w1, w2]; exact hne1) (by rw [w1, w2]; exact hne2)
    (by rw [w1, w2]; exact hge) (by rw [w1, w2]; exact hle) (by rw [w3]; exact hl)]
  refine ⟨?_, ?_, ?_, ?_, ?_⟩ <;>
    simp [cycSound, cycMove, w3, w4, wb, hl, hy, UP, DOWN, apply_ite Globals.lost,
      apply_ite Globals.ydir, apply_ite Globals.paddle_hit, apply_ite Globals.PWM_freq,
      apply_ite Globals.ypos, apply_ite Globals.brickhits]

theorem rightColumn_tick :
    (Ball_Tick 8 rightColumnState quiet).map (fun s => (s.lost, s.ydir, s.paddle_hit)) =
      some (0, UP, 1) := by
  decide!

/-- C11 (counterexample): in `rightColumnState` the ball is at row 0x40 moving DOWN and
RIGHT on the paddle's rightmost occupied column (0x10 = 2 * 0x08); the tick is a paddle hit:
lost stays 0 and the ball turns UP. -/
theorem rightmost_column_moving_right_is_a_hit :
    RunsCycle rightColumnState ∧ rightColumnState.ypos = 0x40 ∧
    rightColumnState.ydir = DOWN ∧ rightColumnState.xdir = RIGHT ∧
    rightColumnState.xpos = 2 * rightColumnState.paddle_pos ∧
    ∃ s' : Globals, Ball_Tick 8 rightColumnState quiet = some s' ∧
      s'.lost = 0 ∧ s'.ydir = UP := by
  have h := rightColumn_tick
  simp only [Prod.mk.injEq, Option.map_eq_some'] at h
  obtain ⟨s', hs', h1, h2, -⟩ := h
  exact ⟨by decide, by decide, by decide, by decide, by decide, s', hs', h1, h2⟩

/-- Witness for C11: `rightCornerState` (ball at 0x20 = 4 * 0x08, moving RIGHT). -/
theorem miss_at_paddle_corner_witness :
    RunsCycle rightCornerState ∧ rightCornerState.xpos = 4 * rightCornerState.paddle_pos ∧
    ∃ s' : Globals, Ball_Tick 8 rightCornerState quiet = some s' ∧
      s'.lost = 1 ∧ s'.ydir = DOWN :=
  ⟨by decide, by decide,
   miss_at_paddle_corner 8 rightCornerState quiet (by decide) (by decide) (by decide)
     (by decide) (by decide) (Or.inl ⟨by decide, by decide, by decide⟩)⟩

/-- C12: for every state in which the Ball Machine executes the Cycle action with lost
clear, paddle_pos one-hot in 0x02..0x40, the ball at row 0x40 moving DOWN and the ball column
one of the three paddle columns (paddle_pos / 2, paddle_pos, 2 * paddle_pos), not the
leftmost one while moving LEFT nor the rightmost one while moving RIGHT, the tick returns,
leaves lost clear, sets the y-direction to UP, sets paddle_hit, selects the 110 Hz tone and
moves the ball to row 0x20. -/
theorem paddle_columns_hit (fuel : Nat) (s : Globals) (i : Inputs) (hf : 8 ≤ fuel)
    (hc : RunsCycle s) (hl : s.lost = 0) (hp : OneHot s.paddle_pos)
    (hp2 : 0x02 ≤ s.paddle_pos ∧ s.paddle_pos ≤ 0x40)
    (hy : s.ypos = 0x40) (hyd : s.ydir = DOWN)
    (hx : s.xpos = s.paddle_pos / 2 ∨ s.xpos = s.paddle_pos ∨ s.xpos = 2 * s.paddle_pos)
    (_ : ¬(s.xpos = s.paddle_pos / 2 ∧ s.xdir = LEFT) ∧
      ¬(s.xpos = 2 * s.paddle_pos ∧ s.xdir = RIGHT)) :
    ∃ s' : Globals, Ball_Tick fuel s i = some s' ∧
      s'.lost = 0 ∧ s'.ydir = UP ∧ s'.paddle_hit = 1 ∧ s'.PWM_freq = 110 ∧ s'.ypos = 0x20 :=
  paddle_overlap_hit fuel s i hf hc hl hp hp2 hy hyd hx

/-- Witness for C12: `centreHitState` (ball above the paddle's centre column). -/
theorem paddle_columns_hit_witness :
    RunsCycle centreHitState ∧ centreHitState.xpos = centreHitState.paddle_pos ∧
    ∃ s' : Globals, Ball_Tick 8 centreHitState quiet = some s' ∧
      s'.lost = 0 ∧ s'.ydir = UP ∧ s'.paddle_hit = 1 ∧ s'.PWM_freq = 110 ∧ s'.ypos = 0x20 :=
  ⟨by decide, by decide,
   paddle_columns_hit 8 centreHitState quiet (by decide) (by decide) (by decide) (by decide)
     (by decide) (by decide) (by decide) (Or.inr (Or.inl (by decide)))
     ⟨by decide, by decide⟩⟩

/-! ## The paddle keeps its shape -/

theorem paddleShape_values {s : Globals} (h : PaddleShape s) :
    (s.paddle_pos = 2 ∧ s.paddle_data = 0x07) ∨ (s.paddle_pos = 4 ∧ s.paddle_data = 0x0E) ∨
    (s.paddle_pos = 8 ∧ s.paddle_data = 0x1C) ∨ (s.paddle_pos = 16 ∧ s.paddle_data = 0x38) ∨
    (s.paddle_pos = 32 ∧ s.paddle_data = 0x70) ∨ (s.paddle_pos = 64 ∧ s.paddle_data = 0xE0) := by
  obtain ⟨⟨ho, h2, h64⟩, hd⟩ := h
  rcases oneHot_cases ho with h | h | h | h | h | h | h | h <;> rw [h] at hd h2 h64 <;>
    simp_all

theorem paddleShape_of_values {s : Globals}
    (h : (s.paddle_pos = 2 ∧ s.paddle_data = 0x07) ∨ (s.paddle_pos = 4 ∧ s.paddle_data = 0x0E) ∨
    (s.paddle_pos = 8 ∧ s.paddle_data = 0x1C) ∨ (s.paddle_pos = 16 ∧ s.paddle_data = 0x38) ∨
    (s.paddle_pos = 32 ∧ s.paddle_data = 0x70) ∨ (s.paddle_pos = 64 ∧ s.paddle_data = 0xE0)) :
    PaddleShape s := by
  unfold PaddleShape
  rcases h with ⟨h1, h2⟩ | ⟨h1, h2⟩ | ⟨h1, h2⟩ | ⟨h1, h2⟩ | ⟨h1, h2⟩ | ⟨h1, h2⟩ <;>
    rw [h1, h2] <;> decide

theorem paddleInv_of_same {a b : Globals} (h : SamePaddle a b) (hb : PaddleInv b) :
    PaddleInv a := by
  obtain ⟨h1, h2, h3⟩ := h
  unfold PaddleInv PaddleShape at *
  rw [h1, h2, h3]; exact hb

theorem Paddle_transition_paddle (s : Globals) :
    (Paddle_transition s).paddle_pos = s.paddle_pos ∧
    (Paddle_transition s).paddle_data = s.paddle_data := by
  unfold Paddle_transition
  split <;> simp [apply_ite Globals.paddle_pos, apply_ite Globals.paddle_data]

theorem Paddle_transition_control (s : Globals)
    (h : (Paddle_transition s).p_state = Paddle_States.Pad_Control) :
    s.p_state = Paddle_States.Pad_Setup ∨ s.p_state = Paddle_States.Pad_Control := by
  unfold Paddle_transition at h
  cases hp : s.p_state <;> simp [hp, apply_ite Globals.p_state] at h ⊢
  all_goals (split_ifs at h)

theorem Paddle_action_state (t : Globals) (i : Inputs) :
    (Paddle_action t i).p_state = t.p_state := by
  unfold Paddle_action
  split <;> simp [apply_ite Globals.p_state]

theorem Paddle_action_control (t : Globals) (i : Inputs)
    (h : t.p_state = Paddle_States.Pad_Control) :
    (Paddle_action t i).paddle_data =
      (if i.ADC % 65536 > mid + 100 then
        (if t.paddle_data < 0xE0 then (t.paddle_data * 2) % 256 else t.paddle_data)
      else if i.ADC % 65536 < mid - 100 then
        (if t.paddle_data > 0x07 then t.paddle_data / 2 else t.paddle_data)
      else t.paddle_data) ∧
    (Paddle_action t i).paddle_pos =
      (if i.ADC % 65536 > mid + 100 then
        (if t.paddle_data < 0xE0 then (t.paddle_pos * 2) % 256 else t.paddle_pos)
      else if i.ADC % 65536 < mid - 100 then
        (if t.paddle_data > 0x07 then t.paddle_pos / 2 else t.paddle_pos)
      else t.paddle_pos) := by
  constructor <;>
    simp [Paddle_action, h, apply_ite Globals.paddle_data, apply_ite Globals.paddle_pos]

theorem Paddle_Tick_paddleInv (s : Globals) (i : Inputs) (h : PaddleInv s) :
    PaddleInv (Paddle_Tick s i) := by
  intro hend
  unfold Paddle_Tick at hend ⊢
  rw [Paddle_action_state] at hend
  have hpd := Paddle_transition_paddle s
  rcases hend with hend | hend
  · apply paddleShape_of_values
    simp [Paddle_action, hend]
  · have hshape : PaddleShape s := h (Paddle_transition_control s hend)
    have hv := paddleShape_values hshape
    rw [← hpd.1, ← hpd.2] at hv
    generalize Paddle_transition s = t at hend hv
    apply paddleShape_of_values
    obtain ⟨e1, e2⟩ := Paddle_action_control t i hend
    rw [e1, e2]
    rcases hv with ⟨h1, h2⟩ | ⟨h1, h2⟩ | ⟨h1, h2⟩ | ⟨h1, h2⟩ | ⟨h1, h2⟩ | ⟨h1, h2⟩ <;>
      rw [h1, h2] <;> split_ifs <;> simp_all

theorem cycBody_samePaddle (t : Globals) (i : Inputs) (n : Nat) :
    SamePaddle (cycBody (cycEnter t i) n) t := by
  have hpre : SamePaddle (cycTransition (cycCeil (cycSide (cycLaunch (cycEnter t i)) n)) n).1 t := by
    simp [SamePaddle, cycTransition, cycPaddle, cycCeil, cycSide, cycSideLeft, cycSideRight,
      cycLaunch, cycEnter, setXdir, hit1, hit2, hit3,
      apply_ite Globals.p_state, apply_ite Globals.paddle_pos, apply_ite Globals.paddle_data,
      apply_ite Prod.fst]
  unfold cycBody
  simp only []
  generalize cycTransition (cycCeil (cycSide (cycLaunch (cycEnter t i)) n)) n = p at hpre
  obtain ⟨e1, e2, e3⟩ := hpre
  unfold SamePaddle
  rw [← e1, ← e2, ← e3]
  simp [cycSound, cycMove, apply_ite Globals.p_state, apply_ite Globals.paddle_pos,
    apply_ite Globals.paddle_data]

theorem Ball_Tick_samePaddle (fuel : Nat) (s : Globals) (i : Inputs) (s' : Globals)
    (h : Ball_Tick fuel s i = some s') : SamePaddle s' s := by
  have ht : SamePaddle (Ball_transition s) s := by
    rw [Ball_transition_eq s]; exact ⟨rfl, rfl, rfl⟩
  obtain ⟨e1, e2, e3⟩ := ht
  unfold SamePaddle
  rw [← e1, ← e2, ← e3]
  unfold Ball_Tick at h
  generalize Ball_transition s = t at h
  unfold Ball_action at h
  split at h
  · cases h; exact ⟨rfl, rfl, rfl⟩
  · cases h; exact ⟨rfl, rfl, rfl⟩
  · cases h
    refine ⟨?_, ?_, ?_⟩ <;>
      simp [Ball_Setup_action, setXdir, apply_ite Globals.p_state,
        apply_ite Globals.paddle_pos, apply_ite Globals.paddle_data]
  · unfold Ball_Cycle_action at h
    simp only [Option.map_eq_some'] at h
    obtain ⟨n, -, rfl⟩ := h
    exact cycBody_samePaddle t i n
  · cases h; exact ⟨rfl, rfl, rfl⟩
  · cases h; exact ⟨rfl, rfl, rfl⟩

theorem Game_Tick_samePaddle (s : Globals) (i : Inputs) : SamePaddle (Game_Tick s i) s := by
  have ht : SamePaddle (Game_transition s) s := by
    unfold Game_transition SamePaddle
    split <;> simp [apply_ite Globals.p_state, apply_ite Globals.paddle_pos,
      apply_ite Globals.paddle_data]
  obtain ⟨e1, e2, e3⟩ := ht
  unfold SamePaddle
  rw [← e1, ← e2, ← e3]
  unfold Game_Tick
  generalize Game_transition s = t
  unfold Game_action
  split <;> simp [Game_Status_action, sendScore, apply_ite Globals.p_state,
    apply_ite Globals.paddle_pos, apply_ite Globals.paddle_data]

theorem LED_Tick_samePaddle (s : Globals) : SamePaddle (LED_Tick s) s := by
  unfold LED_Tick SamePaddle
  cases hl : s.l_state <;> simp

theorem main_iter_paddleInv (fuel : Nat) (s : Globals) (i : Inputs) (s' : Globals)
    (h : PaddleInv s) (h1 : main_iter fuel s i = some s') : PaddleInv s' := by
  unfold main_iter at h1
  simp only [Option.bind_eq_some, Option.map_eq_some'] at h1
  obtain ⟨s1, hf, s2, hsl, rfl⟩ := h1
  have hs1 : PaddleInv s1 := by
    unfold fastPath at hf
    split_ifs at hf
    · simp only [Option.map_eq_some'] at hf
      obtain ⟨b, hb, rfl⟩ := hf
      have hbi : PaddleInv b := by
        unfold fastBall at hb
        simp only [] at hb
        split_ifs at hb
        · exact paddleInv_of_same (Ball_Tick_samePaddle fuel _ i b hb) (Paddle_Tick_paddleInv s i h)
        · cases hb; exact Paddle_Tick_paddleInv s i h
      exact paddleInv_of_same (Game_Tick_samePaddle b i) hbi
    · cases hf; exact h
  have hs2 : PaddleInv s2 := by
    unfold slowPath at hsl
    split_ifs at hsl
    · simp only [Option.map_eq_some'] at hsl
      obtain ⟨b, hb, rfl⟩ := hsl
      exact paddleInv_of_same (Ball_Tick_samePaddle fuel s1 i b hb) hs1
    · cases hsl; exact hs1
  exact paddleInv_of_same (LED_Tick_samePaddle s2) hs2

theorem reach_paddleInv {s : Globals} (h : Reach s) : PaddleInv s := by
  induction h with
  | start => intro h; rcases h with h | h <;> cases h
  | pass fuel s i s' _ hstep ih => exact main_iter_paddleInv fuel s i s' ih hstep

theorem Paddle_Tick_clamped (s : Globals) (i : Inputs)
    (hc : s.p_state = Paddle_States.Pad_Control)
    (hend : (Paddle_Tick s i).p_state = Paddle_States.Pad_Setup ∨
      (Paddle_Tick s i).p_state = Paddle_States.Pad_Control)
    (hclamp : (s.paddle_data = 0xE0 ∧ i.ADC % 65536 > mid + 100) ∨
      (s.paddle_data = 0x07 ∧ i.ADC % 65536 < mid - 100)) :
    (Paddle_Tick s i).paddle_data = s.paddle_data ∧
    (Paddle_Tick s i).paddle_pos = s.paddle_pos := by
  unfold Paddle_Tick at hend ⊢
  rw [Paddle_action_state] at hend
  have hns : (Paddle_transition s).p_state ≠ Paddle_States.Pad_Setup := by
    simp only [Paddle_transition, hc, apply_ite Globals.p_state]
    split_ifs <;> simp
  have hctl : (Paddle_transition s).p_state = Paddle_States.Pad_Control := by
    rcases hend with h | h
    · exact absurd h hns
    · exact h
  obtain ⟨p1, p2⟩ := Paddle_transition_paddle s
  obtain ⟨e1, e2⟩ := Paddle_action_control (Paddle_transition s) i hctl
  rw [e1, e2, p1, p2]
  rcases hclamp with ⟨hd, hr⟩ | ⟨hd, hr⟩
  · simp [hd, hr]
  · have hnr : ¬ (i.ADC % 65536 > mid + 100) := by
      have : mid = 512 := rfl
      omega
    simp [hd, hr, hnr]

/-! ## C13: three steps right, three steps left -/

theorem Paddle_Tick_in_control (s : Globals) (j : Inputs) (hc : StaysInControl s)
    (hj : btn j.PINA 0x02 = 0) :
    StaysInControl (Paddle_Tick s j) ∧
    (Paddle_Tick s j).paddle_data =
      (if j.ADC % 65536 > mid + 100 then
        (if s.paddle_data < 0xE0 then (s.paddle_data * 2) % 256 else s.paddle_data)
      else if j.ADC % 65536 < mid - 100 then
        (if s.paddle_data > 0x07 then s.paddle_data / 2 else s.paddle_data)
      else s.paddle_data) ∧
    (Paddle_Tick s j).paddle_pos =
      (if j.ADC % 65536 > mid + 100 then
        (if s.paddle_data < 0xE0 then (s.paddle_pos * 2) % 256 else s.paddle_pos)
      else if j.ADC % 65536 < mid - 100 then
        (if s.paddle_data > 0x07 then s.paddle_pos / 2 else s.paddle_pos)
      else s.paddle_pos) := by
  obtain ⟨h1, h2, h3, h4⟩ := hc
  have ht : Paddle_transition s = s := by simp [Paddle_transition, h1, h2, h3, h4]
  unfold Paddle_Tick
  rw [ht]
  refine ⟨?_, Paddle_action_control s j h1⟩
  unfold StaysInControl
  refine ⟨?_, ?_, ?_, ?_⟩ <;>
    simp [Paddle_action, h1, h3, h4, hj, apply_ite Globals.p_state, apply_ite Globals.reset,
      apply_ite Globals.lost, apply_ite Globals.victory]

theorem Paddle_Tick_control_step (s : Globals) (j : Inputs) (hc : StaysInControl s)
    (hj : btn j.PINA 0x02 = 0) :
    ∃ t : Globals, Paddle_Tick s j = t ∧ StaysInControl t ∧
      t.paddle_data =
        (if j.ADC % 65536 > mid + 100 then
          (if s.paddle_data < 0xE0 then (s.paddle_data * 2) % 256 else s.paddle_data)
        else if j.ADC % 65536 < mid - 100 then
          (if s.paddle_data > 0x07 then s.paddle_data / 2 else s.paddle_data)
        else s.paddle_data) ∧
      t.paddle_pos =
        (if j.ADC % 65536 > mid + 100 then
          (if s.paddle_data < 0xE0 then (s.paddle_pos * 2) % 256 else s.paddle_pos)
        else if j.ADC % 65536 < mid - 100 then
          (if s.paddle_data > 0x07 then s.paddle_pos / 2 else s.paddle_pos)
        else s.paddle_pos) :=
  ⟨_, rfl, Paddle_Tick_in_control s j hc hj⟩

theorem round_trip_arith (x0 y0 x1 y1 x2 y2 x3 y3 x4 y4 x5 y5 x6 y6 : Nat)
    (hv : (y0 = 2 ∧ x0 = 0x07) ∨ (y0 = 4 ∧ x0 = 0x0E) ∨ (y0 = 8 ∧ x0 = 0x1C) ∨
      (y0 = 16 ∧ x0 = 0x38) ∨ (y0 = 32 ∧ x0 = 0x70) ∨ (y0 = 64 ∧ x0 = 0xE0))
    (hu1 : x0 < 0xE0) (hu2 : x1 < 0xE0) (hu3 : x2 < 0xE0)
    (d1 : x1 = (x0 * 2) % 256) (p1 : y1 = (y0 * 2) % 256)
    (d2 : x2 = (x1 * 2) % 256) (p2 : y2 = (y1 * 2) % 256)
    (d3 : x3 = (x2 * 2) % 256) (p3 : y3 = (y2 * 2) % 256)
    (d4 : x4 = if x3 > 0x07 then x3 / 2 else x3) (p4 : y4 = if x3 > 0x07 then y3 / 2 else y3)
    (d5 : x5 = if x4 > 0x07 then x4 / 2 else x4) (p5 : y5 = if x4 > 0x07 then y4 / 2 else y4)
    (d6 : x6 = if x5 > 0x07 then x5 / 2 else x5) (p6 : y6 = if x5 > 0x07 then y5 / 2 else y5) :
    y6 = y0 ∧ x6 = x0 := by
  subst d1 p1 d2 p2 d3 p3
  rcases hv with ⟨h1, h2⟩ | ⟨h1, h2⟩ | ⟨h1, h2⟩ | ⟨h1, h2⟩ | ⟨h1, h2⟩ | ⟨h1, h2⟩ <;>
    subst h1 h2 <;> norm_num at hu1 hu2 hu3 d4 p4 <;> subst d4 p4 <;>
    norm_num at d5 p5 <;> subst d5 p5 <;> norm_num at d6 p6 <;> subst d6 p6 <;> exact ⟨rfl, rfl⟩

/-- Three steps right and three steps left of a paddle that has its shape: with the paddle
machine in Control (reset, lost and victory clear), three unclamped move-right ticks followed
by three move-left ticks return paddle_pos and paddle_data to their original values. -/
theorem round_trip_of_shape (s : Globals) (r1 r2 r3 l1 l2 l3 : Inputs)
    (hc : StaysInControl s) (hshape : PaddleShape s)
    (hr1 : MovesRight r1) (hr2 : MovesRight r2) (hr3 : MovesRight r3)
    (hl1 : MovesLeft l1) (hl2 : MovesLeft l2) (hl3 : MovesLeft l3)
    (hu1 : s.paddle_data < 0xE0) (hu2 : (paddleTicks s [r1]).paddle_data < 0xE0)
    (hu3 : (paddleTicks s [r1, r2]).paddle_data < 0xE0) :
    (paddleTicks s [r1, r2, r3, l1, l2, l3]).paddle_pos = s.paddle_pos ∧
    (paddleTicks s [r1, r2, r3, l1, l2, l3]).paddle_data = s.paddle_data := by
  have hmid : mid = 512 := rfl
  have a1 := hr1.2
  have a2 := hr2.2
  have a3 := hr3.2
  have b1 := hl1.2
  have b2 := hl2.2
  have b3 := hl3.2
  have n1 : ¬ (l1.ADC % 65536 > mid + 100) := by omega
  have n2 : ¬ (l2.ADC % 65536 > mid + 100) := by omega
  have n3 : ¬ (l3.ADC % 65536 > mid + 100) := by omega
  simp only [paddleTicks, List.foldl] at hu2 hu3 ⊢
  obtain ⟨t1, e1, c1, d1, p1⟩ := Paddle_Tick_control_step s r1 hc hr1.1
  rw [e1] at hu2 hu3 ⊢
  obtain ⟨t2, e2, c2, d2, p2⟩ := Paddle_Tick_control_step t1 r2 c1 hr2.1
  rw [e2] at hu3 ⊢
  obtain ⟨t3, e3, c3, d3, p3⟩ := Paddle_Tick_control_step t2 r3 c2 hr3.1
  rw [e3]
  obtain ⟨t4, e4, c4, d4, p4⟩ := Paddle_Tick_control_step t3 l1 c3 hl1.1
  rw [e4]
  obtain ⟨t5, e5, c5, d5, p5⟩ := Paddle_Tick_control_step t4 l2 c4 hl2.1
  rw [e5]
  obtain ⟨t6, e6, -, d6, p6⟩ := Paddle_Tick_control_step t5 l3 c5 hl3.1
  rw [e6]
  rw [if_pos a1, if_pos hu1] at d1 p1
  rw [if_pos a2, if_pos hu2] at d2 p2
  rw [if_pos a3, if_pos hu3] at d3 p3
  rw [if_neg n1, if_pos b1] at d4 p4
  rw [if_neg n2, if_pos b2] at d5 p5
  rw [if_neg n3, if_pos b3] at d6 p6
  exact round_trip_arith _ _ _ _ _ _ _ _ _ _ _ _ _ _ (paddleShape_values hshape) hu1 hu2 hu3
    d1 p1 d2 p2 d3 p3 d4 p4 d5 p5 d6 p6

set_option maxRecDepth 1000000 in
theorem earlyPlayState_control :
    (runIters 8 playInputs 1100 0 initial).map
        (fun s => (decide (StaysInControl s), s.paddle_pos, s.paddle_data,
          (paddleTicks s [pushRight]).paddle_data,
          (paddleTicks s [pushRight, pushRight]).paddle_data,
          (Paddle_Tick s quiet).p_state)) =
      some (true, 2, 7, 14, 28, Paddle_States.Pad_Control) := by
  decide!

theorem earlyPlayState_facts :
    StaysInControl earlyPlayState ∧ earlyPlayState.paddle_data = 7 ∧
    (paddleTicks earlyPlayState [pushRight]).paddle_data = 14 ∧
    (paddleTicks earlyPlayState [pushRight, pushRight]).paddle_data = 28 ∧
    (Paddle_Tick earlyPlayState quiet).p_state = Paddle_States.Pad_Control := by
  have h := earlyPlayState_control
  rw [earlyPlayState_spec] at h
  simp only [Option.map_some', Option.some.injEq, Prod.mk.injEq, decide_eq_true_eq] at h
  obtain ⟨h1, -, h3, h4, h5, h6⟩ := h
  exact ⟨h1, h3, h4, h5, h6⟩

/-- C13: for every state reachable from system start in which the Paddle Machine is in
Control with reset, lost and victory clear, and for three move-right readings followed by
three move-left readings with the reset button not pressed, where each of the three
move-right ticks is unclamped, the six ticks return paddle_pos and paddle_data to their
original values. -/
theorem paddle_round_trip (s : Globals) (r1 r2 r3 l1 l2 l3 : Inputs)
    (h : Reach s) (hc : StaysInControl s)
    (hr1 : MovesRight r1) (hr2 : MovesRight r2) (hr3 : MovesRight r3)
    (hl1 : MovesLeft l1) (hl2 : MovesLeft l2) (hl3 : MovesLeft l3)
    (hu1 : s.paddle_data < 0xE0) (hu2 : (paddleTicks s [r1]).paddle_data < 0xE0)
    (hu3 : (paddleTicks s [r1, r2]).paddle_data < 0xE0) :
    (paddleTicks s [r1, r2, r3, l1, l2, l3]).paddle_pos = s.paddle_pos ∧
    (paddleTicks s [r1, r2, r3, l1, l2, l3]).paddle_data = s.paddle_data :=
  round_trip_of_shape s r1 r2 r3 l1 l2 l3 hc (reach_paddleInv h (Or.inr hc.1))
    hr1 hr2 hr3 hl1 hl2 hl3 hu1 hu2 hu3

/-- Witness for C13: `earlyPlayState`, the state at the head of pass 1100 of the short game
(paddle machine in Control, paddle_pos 0x02, paddle_data 0x07). -/
theorem paddle_round_trip_witness :
    Reach earlyPlayState ∧ StaysInControl earlyPlayState ∧
    (paddleTicks earlyPlayState
      [pushRight, pushRight, pushRight, pushLeft, pushLeft, pushLeft]).paddle_pos =
        earlyPlayState.paddle_pos ∧
    (paddleTicks earlyPlayState
      [pushRight, pushRight, pushRight, pushLeft, pushLeft, pushLeft]).paddle_data =
        earlyPlayState.paddle_data :=
  ⟨runIters_reach 8 playInputs 1100 0 initial earlyPlayState Reach.start earlyPlayState_spec,
   earlyPlayState_facts.1,
   paddle_round_trip earlyPlayState pushRight pushRight pushRight pushLeft pushLeft pushLeft
     (runIters_reach 8 playInputs 1100 0 initial earlyPlayState Reach.start earlyPlayState_spec)
     earlyPlayState_facts.1 (by decide) (by decide) (by decide) (by decide) (by decide)
     (by decide) (by rw [earlyPlayState_facts.2.1]; decide)
     (by rw [earlyPlayState_facts.2.2.1]; decide)
     (by rw [earlyPlayState_facts.2.2.2.1]; decide)⟩

/-! ## C18: the paddle after a Paddle tick -/

/-- C18: after every Paddle tick that ends in Setup or Control, started in any state
reachable from system start, paddle_pos is one-hot with value in 0x02..0x40 and paddle_data
is exactly the three adjacent columns (paddle_pos / 2) | paddle_pos | (2 * paddle_pos); a
move-right reading at paddle_data 0xE0 and a move-left reading at paddle_data 0x07 leave both
variables unchanged. -/
theorem paddle_shape_after_tick (s : Globals) (i : Inputs) (h : Reach s)
    (hend : (Paddle_Tick s i).p_state = Paddle_States.Pad_Setup ∨
      (Paddle_Tick s i).p_state = Paddle_States.Pad_Control) :
    PaddleShape (Paddle_Tick s i) ∧
    (s.p_state = Paddle_States.Pad_Control → s.paddle_data = 0xE0 → i.ADC % 65536 > mid + 100 →
      (Paddle_Tick s i).paddle_data = s.paddle_data ∧
      (Paddle_Tick s i).paddle_pos = s.paddle_pos) ∧
    (s.p_state = Paddle_States.Pad_Control → s.paddle_data = 0x07 → i.ADC % 65536 < mid - 100 →
      (Paddle_Tick s i).paddle_data = s.paddle_data ∧
      (Paddle_Tick s i).paddle_pos = s.paddle_pos) :=
  ⟨Paddle_Tick_paddleInv s i (reach_paddleInv h) hend,
   fun hc hd hr => Paddle_Tick_clamped s i hc hend (Or.inl ⟨hd, hr⟩),
   fun hc hd hr => Paddle_Tick_clamped s i hc hend (Or.inr ⟨hd, hr⟩)⟩

/-- Witness for C18: the Paddle tick of `earlyPlayState` (pass 1100 of the short game)
with the joystick centred. -/
theorem paddle_shape_after_tick_witness :
    Reach earlyPlayState ∧ PaddleShape (Paddle_Tick earlyPlayState quiet) :=
  ⟨runIters_reach 8 playInputs 1100 0 initial earlyPlayState Reach.start earlyPlayState_spec,
   (paddle_shape_after_tick earlyPlayState quiet
     (runIters_reach 8 playInputs 1100 0 initial earlyPlayState Reach.start earlyPlayState_spec)
     (Or.inr earlyPlayState_facts.2.2.2.2)).1⟩

/-! ## C14: the order of the tick calls in one pass -/

theorem fastCalls_cases (fuel : Nat) (s : Globals) (i : Inputs) :
    fastCalls fuel s i = [] ∨ fastCalls fuel s i = [Machine.Paddle, Machine.Game] ∨
    fastCalls fuel s i = [Machine.Paddle, Machine.Ball] ∨
    fastCalls fuel s i = [Machine.Paddle, Machine.Ball, Machine.Game] := by
  unfold fastCalls
  split_ifs <;> simp

theorem tailCalls_cases (fuel : Nat) (s : Globals) (i : Inputs) :
    tailCalls fuel s i = [] ∨ tailCalls fuel s i = [Machine.Ball] ∨
    tailCalls fuel s i = [Machine.LED] ∨ tailCalls fuel s i = [Machine.Ball, Machine.LED] := by
  unfold tailCalls slowCalls
  split
  · simp
  · split_ifs <;> simp

theorem iterCalls_eq (fuel : Nat) (s : Globals) (i : Inputs) :
    iterCalls fuel s i = fastCalls fuel s i ++ tailCalls fuel s i := rfl

/-- C14 (amended): in every scheduler iteration the tick calls are, in this order, a
sublist of Paddle, Ball (fast cadence, when setup is set), Game, Ball (slow cadence), LED, so
Ball Tick runs at most twice per iteration; the slow-cadence test is a separate `if` made
after the fast block, so in an iteration in which the fast counter has reached 100 and, after
the fast block, the slow counter has reached ballspeed with setup clear, the slow-cadence
Ball Tick is invoked right after Game Tick. -/
theorem scheduler_calls (fuel : Nat) (s : Globals) (i : Inputs) :
    List.Sublist (iterCalls fuel s i)
      [Machine.Paddle, Machine.Ball, Machine.Game, Machine.Ball, Machine.LED] ∧
    (iterCalls fuel s i).count Machine.Ball ≤ 2 ∧
    (∀ s1 : Globals, s.game_ticks ≥ 100 → fastPath fuel s i = some s1 →
      s1.ball_ticks ≥ s1.ballspeed → s1.setup = 0 →
      ∃ l r : List Machine, iterCalls fuel s i = l ++ [Machine.Game, Machine.Ball] ++ r) := by
  have hsub : List.Sublist (iterCalls fuel s i)
      [Machine.Paddle, Machine.Ball, Machine.Game, Machine.Ball, Machine.LED] := by
    rw [iterCalls_eq]
    rcases fastCalls_cases fuel s i with h | h | h | h <;>
      rcases tailCalls_cases fuel s i with h' | h' | h' | h' <;> rw [h, h'] <;> decide
  refine ⟨hsub, ?_, ?_⟩
  · have := hsub.count_le Machine.Ball
    simpa using this
  · intro s1 hg hf hb hs
    have ht : ∃ r, tailCalls fuel s i = Machine.Ball :: r := by
      unfold tailCalls slowCalls
      rw [hf]
      simp [hb, hs]
    have hfc : ∃ l, fastCalls fuel s i = l ++ [Machine.Game] := by
      unfold fastCalls
      unfold fastPath fastBall at hf
      simp only [hg, if_true] at hf ⊢
      split_ifs at hf ⊢ with h1 h2
      · exact ⟨[Machine.Paddle, Machine.Ball], rfl⟩
      · simp only [Option.not_isSome_iff_eq_none] at h2
        simp [h2] at hf
      · exact ⟨[Machine.Paddle], rfl⟩
    obtain ⟨r, hr⟩ := ht
    obtain ⟨l, hl⟩ := hfc
    exact ⟨l, r, by rw [iterCalls_eq, hr, hl]; simp⟩

set_option maxRecDepth 1000000 in
theorem doubleBallState_spec : runIters 8 lateShotInputs 1000 0 initial = some doubleBallState :=
  getD_of_isSome initial (by decide!)

set_option maxRecDepth 1000000 in
theorem doubleBallState_calls :
    doubleBallState.game_ticks = 100 ∧ doubleBallState.ball_ticks = 250 ∧
    doubleBallState.setup = 1 ∧
    iterCalls 8 doubleBallState (lateShotInputs 1000) =
      [Machine.Paddle, Machine.Ball, Machine.Game, Machine.Ball, Machine.LED] := by
  decide!

/-- C14 (counterexample): `doubleBallState` is the state at the head of pass 1000 of a run
from system start (start button held during passes 550..650, shoot button from pass 950).
The fast counter is 100, so Paddle Tick and Game Tick run; the fast-cadence Ball Tick reads
the shoot button and clears setup, and the slow-cadence Ball Tick is invoked in the same
iteration, after Game Tick: Ball Tick runs twice. -/
theorem slow_ball_tick_runs_after_game_tick :
    Reach doubleBallState ∧ doubleBallState.game_ticks ≥ 100 ∧
    iterCalls 8 doubleBallState (lateShotInputs 1000) =
      [Machine.Paddle, Machine.Ball, Machine.Game, Machine.Ball, Machine.LED] ∧
    (iterCalls 8 doubleBallState (lateShotInputs 1000)).count Machine.Ball = 2 := by
  obtain ⟨h1, -, -, h4⟩ := doubleBallState_calls
  refine ⟨runIters_reach 8 lateShotInputs 1000 0 initial doubleBallState Reach.start
    doubleBallState_spec, by rw [h1], h4, ?_⟩
  rw [h4]; decide

/-! ## C15, C16: the score display unit -/

theorem writeScore_lcd (d : Display) : (writeScore d).lcd = d.lcd ++ digitsWritten d.score := by
  unfold digitsWritten writeScore formatting
  by_cases h1 : d.score ≥ 100
  · by_cases h2 : d.score % 100 ≠ 0 <;>
      simp [h1, h2, LCD_WriteData, displayInitial, apply_ite Display.lcd,
        apply_ite Display.score, apply_ite Display.digit]
  · by_cases h2 : d.score ≥ 10 <;> simp [h1, h2, LCD_WriteData, displayInitial]

theorem LCD_Tick_score (d : Display) (b : Nat) (h : d.LCD_state = LCD_States.LCD_Score) :
    (LCD_Tick d (some b)).lcd = d.lcd ++ refreshCalls ++ digitsWritten d.USARTReceiver ∧
    (LCD_Tick d (some b)).USARTReceiver = b % 256 := by
  have ht : LCD_transition d (some b) = d := by simp [LCD_transition, h]
  unfold LCD_Tick
  rw [ht]
  constructor
  · simp only [LCD_action, h]
    rw [writeScore_lcd]
    simp [LCD_Cursor, LCD_WriteData, refreshCalls]
  · simp only [LCD_action, h]
    simp [writeScore, LCD_Cursor, LCD_WriteData, apply_ite Display.USARTReceiver]

/-- C15: the formatting code of lines 63-81 writes the decimal representation for
every value in 0..255 except 100 and 200, where it repeats the hundreds digit in the
tens place ("110" and "220"); the tick that receives the byte after 100 writes
'1', '1', '0'. -/
theorem hundreds_digit_repeated_at_100_and_200 :
    digitsWritten 100 = [LcdCall.writeData 49, LcdCall.writeData 49, LcdCall.writeData 48] ∧
    decimalChars 100 = [49, 48, 48] ∧
    digitsWritten 200 = [LcdCall.writeData 50, LcdCall.writeData 50, LcdCall.writeData 48] ∧
    decimalChars 200 = [50, 48, 48] ∧
    afterHundred.LCD_state = LCD_States.LCD_Score ∧
    (LCD_Tick afterHundred (some 101)).lcd = afterHundred.lcd ++ refreshCalls ++
      [LcdCall.writeData 49, LcdCall.writeData 49, LcdCall.writeData 48] ∧
    (∀ v : Nat, v < 256 → v ≠ 100 → v ≠ 200 →
      digitsWritten v = (decimalChars v).map LcdCall.writeData) := by
  refine ⟨by decide!, by decide!, by decide!, by decide!, by decide!, by decide!, ?_⟩
  decide!

/-- C16: a Score-state tick on which the byte `b` is received stores `b` in
`USARTReceiver` and writes the digits of the value `USARTReceiver` held before, the byte
of the previous reception: after the bytes 5 and 7 the tick that receives 7 writes '5';
the tick that receives the first byte writes '0'. -/
theorem score_rendered_is_previous_byte :
    afterFive.LCD_state = LCD_States.LCD_Score ∧
    afterFive.lcd = [LcdCall.instructions, LcdCall.scoreLabel, LcdCall.cursor 8] ++
      refreshCalls ++ [LcdCall.writeData 48] ∧
    (LCD_Tick afterFive (some 7)).lcd = afterFive.lcd ++ refreshCalls ++ [LcdCall.writeData 53] ∧
    decimalChars 7 = [55] ∧ decimalChars 5 = [53] ∧
    (∀ (d : Display) (b : Nat), d.LCD_state = LCD_States.LCD_Score →
      (LCD_Tick d (some b)).lcd = d.lcd ++ refreshCalls ++ digitsWritten d.USARTReceiver ∧
      (LCD_Tick d (some b)).USARTReceiver = b % 256) := by
  refine ⟨by decide!, by decide!, by decide!, by decide!, by decide!, ?_⟩
  intro d b h
  exact LCD_Tick_score d b h

/-! ## Column indices and layer bits -/

theorem oneHot_two_pow (n : Nat) (hn : n < 8) : OneHot (2 ^ n) := by
  interval_cases n <;> decide

theorem decodeLoop_two_pow (fuel n : Nat) (hn : n < 8) (hf : 8 ≤ fuel) :
    decodeLoop fuel (2 ^ n) 0 = some n := by
  obtain ⟨m, hm, hx, hd⟩ := decodeLoop_onehot fuel (2 ^ n) (oneHot_two_pow n hn) hf
  have : n = m := Nat.pow_right_injective (le_refl 2) hx
  subst this; exact hd

theorem testBit_clearBits_self (l k : Nat) (hk : k < 8) :
    Nat.testBit (clearBits l (2 ^ k)) k = false := by
  rw [clearBits_testBit l (2 ^ k) k hk, Nat.testBit_two_pow_self]
  simp

theorem GetBit_true_iff (l : Nat) (k : Int) :
    GetBit l k = true ↔ ∃ j : Nat, k = (j : Int) ∧ j < 8 ∧ Nat.testBit l j = true := by
  unfold GetBit
  constructor
  · intro h
    simp only [Bool.and_eq_true, decide_eq_true_eq] at h
    obtain ⟨⟨h0, h8⟩, ht⟩ := h
    refine ⟨k.toNat, (Int.toNat_of_nonneg h0).symm, by omega, ht⟩
  · rintro ⟨j, rfl, hj, ht⟩
    simp [hj, ht]

theorem GetBit_clear_left (l n : Nat) (h : GetBit l ((n : Int) - 1) = true) :
    GetBit (clearBits l (2 ^ n / 2)) ((n : Int) - 1) = false := by
  obtain ⟨j, hj, hj8, -⟩ := (GetBit_true_iff l _).1 h
  have hn : n = j + 1 := by omega
  subst hn
  have e : 2 ^ (j + 1) / 2 = 2 ^ j := by rw [pow_succ]; omega
  rw [e, hj]
  simp [GetBit, hj8, testBit_clearBits_self l j hj8]

theorem GetBit_clear_right (l n : Nat) (h : GetBit l ((n : Int) + 1) = true) :
    GetBit (clearBits l (2 ^ n * 2)) ((n : Int) + 1) = false := by
  obtain ⟨j, hj, hj8, -⟩ := (GetBit_true_iff l _).1 h
  have hn : j = n + 1 := by omega
  subst hn
  have e : 2 ^ n * 2 = 2 ^ (n + 1) := by rw [pow_succ]
  rw [e, hj]
  simp [GetBit, hj8, testBit_clearBits_self l (n + 1) hj8]

/-! ## C17: the chained diagonal hit -/

theorem afterSide_row2 (s : Globals) (i : Inputs) (n : Nat) (hy : s.ypos = 0x02) :
    (afterSide s i n).ypos = 0x02 ∧ (afterSide s i n).ydir = s.ydir ∧
    (afterSide s i n).xpos = s.xpos ∧ (afterSide s i n).layer1 = s.layer1 ∧
    (afterSide s i n).layer3 = s.layer3 ∧ (afterSide s i n).brickhits ≤ 1 := by
  have hl : cycLaunch (cycEnter { s with b_state := Ball_States.Ball_Cycle } i) =
      cycEnter { s with b_state := Ball_States.Ball_Cycle } i := by
    simp [cycLaunch, cycEnter, hy]
  unfold afterSide
  rw [hl]
  refine ⟨?_, ?_, ?_, ?_, ?_, ?_⟩
  all_goals
    simp [cycSide, cycSideLeft, cycSideRight, cycEnter, setXdir, hit1, hit2, hit3, hy,
      apply_ite Globals.ypos, apply_ite Globals.ydir, apply_ite Globals.xpos,
      apply_ite Globals.layer1, apply_ite Globals.layer3, apply_ite Globals.brickhits]
  split_ifs <;> omega

theorem cycBody_afterSide (s : Globals) (i : Inputs) (n : Nat) :
    cycBody (cycEnter { s with b_state := Ball_States.Ball_Cycle } i) n =
      cycSound (cycMove (cycTransition (cycCeil (afterSide s i n)) n).1
        (cycTransition (cycCeil (afterSide s i n)) n).2) := rfl

theorem chain_left (a : Globals) (n : Nat) (hy : a.ypos = 0x02) (hyd : a.ydir = DOWN)
    (h0 : GetBit a.layer3 n = false) (h1 : GetBit a.layer3 ((n : Int) - 1) = true)
    (hx : a.xdir = LEFT) (h2 : GetBit a.layer1 ((n : Int) + 1) = true) :
    cycSound (cycMove (cycTransition (cycCeil a) n).1 (cycTransition (cycCeil a) n).2) =
      cycSound (hit1 { setXdir (hit3 { setXdir a RIGHT with ydir := UP } (a.xpos / 2)) LEFT
        with ydir := DOWN } (a.xpos * 2)) := by
  have hc : cycCeil a = a := by simp [cycCeil, hy]
  rw [hc]
  simp [cycTransition, cycMove, hy, hyd, h0, h1, hx, h2, hit3, setXdir, UP, DOWN, LEFT, RIGHT]

theorem chain_right (a : Globals) (n : Nat) (hy : a.ypos = 0x02) (hyd : a.ydir = DOWN)
    (h0 : GetBit a.layer3 n = false) (h1 : GetBit a.layer3 ((n : Int) + 1) = true)
    (hx : a.xdir = RIGHT) (h2 : GetBit a.layer1 ((n : Int) - 1) = true) :
    cycSound (cycMove (cycTransition (cycCeil a) n).1 (cycTransition (cycCeil a) n).2) =
      cycSound (hit1 { setXdir (hit3 { setXdir a LEFT with ydir := UP } (a.xpos * 2)) RIGHT
        with ydir := DOWN } (a.xpos / 2)) := by
  have hc : cycCeil a = a := by simp [cycCeil, hy]
  rw [hc]
  simp [cycTransition, cycMove, hy, hyd, h0, h1, hx, h2, hit3, setXdir, UP, DOWN, LEFT, RIGHT]

/-- C17: for every Cycle tick at row 0x02 moving DOWN with the ball at column index `n`,
no brick of layer3 straight ahead, in which the layer-transition step takes a diagonal hit on
layer3 (a brick at index n - 1 with the ball moving LEFT at that step, or at index n + 1 with
the ball moving RIGHT) and the chained cell of layer1 on the opposite side holds a brick, the
tick returns, both bricks are cleared, at least two hits are counted, the directions end as
LEFT/DOWN (left-diagonal case) or RIGHT/DOWN (right-diagonal case), and the column and row of
the ball are unchanged. -/
theorem chained_diagonal_hit (fuel : Nat) (s : Globals) (i : Inputs) (n : Nat) (hf : 8 ≤ fuel)
    (hc : RunsCycle s) (hn : n < 8) (hx : s.xpos = 2 ^ n)
    (hy : s.ypos = 0x02) (hyd : s.ydir = DOWN)
    (h0 : GetBit s.layer3 n = false)
    (hcase :
      (GetBit s.layer3 ((n : Int) - 1) = true ∧ (afterSide s i n).xdir = LEFT ∧
        GetBit s.layer1 ((n : Int) + 1) = true) ∨
      (GetBit s.layer3 ((n : Int) + 1) = true ∧ (afterSide s i n).xdir = RIGHT ∧
        GetBit s.layer1 ((n : Int) - 1) = true)) :
    ∃ s' : Globals, Ball_Tick fuel s i = some s' ∧
      s'.xpos = s.xpos ∧ s'.ypos = s.ypos ∧ s'.ydir = DOWN ∧ 2 ≤ s'.brickhits ∧
      ((afterSide s i n).xdir = LEFT →
        s'.xdir = LEFT ∧ GetBit s'.layer3 ((n : Int) - 1) = false ∧
        GetBit s'.layer1 ((n : Int) + 1) = false) ∧
      ((afterSide s i n).xdir = RIGHT →
        s'.xdir = RIGHT ∧ GetBit s'.layer3 ((n : Int) + 1) = false ∧
        GetBit s'.layer1 ((n : Int) - 1) = false) := by
  have hd : decodeLoop fuel s.xpos 0 = some n := by rw [hx]; exact decodeLoop_two_pow fuel n hn hf
  refine ⟨_, Ball_Tick_decoded fuel s i hc n hd, ?_⟩
  rw [cycBody_afterSide]
  obtain ⟨a1, a2, a3, a4, a5, a6⟩ := afterSide_row2 s i n hy
  generalize afterSide s i n = a at *
  rw [hyd] at a2
  rw [← a5] at h0 hcase
  rw [← a4] at hcase
  rw [← a3, hy]
  have hxa : a.xpos = 2 ^ n := by rw [a3, hx]
  rcases hcase with ⟨h1, hxd, h2⟩ | ⟨h1, hxd, h2⟩
  · rw [chain_left a n a1 a2 h0 h1 hxd h2]
    have g1 := GetBit_clear_left a.layer3 n h1
    have g2 := GetBit_clear_right a.layer1 n h2
    rw [← hxa] at g1 g2
    refine ⟨?_, ?_, ?_, ?_, ?_, ?_⟩
    · simp [cycSound, hit1, hit3, setXdir, apply_ite Globals.xpos]
    · simp [cycSound, hit1, hit3, setXdir, apply_ite Globals.ypos, a1]
    · simp [cycSound, hit1, hit3, setXdir, apply_ite Globals.ydir, DOWN]
    · simp only [cycSound, hit1, hit3, setXdir, apply_ite Globals.brickhits, ite_self]
      omega
    · intro _
      refine ⟨?_, ?_, ?_⟩
      · simp [cycSound, hit1, hit3, setXdir, apply_ite Globals.xdir, LEFT]
      · simpa [cycSound, hit1, hit3, setXdir, apply_ite Globals.layer3] using g1
      · simpa [cycSound, hit1, hit3, setXdir, apply_ite Globals.layer1] using g2
    · intro h
      rw [hxd] at h
      exact absurd h (by decide)
  · rw [chain_right a n a1 a2 h0 h1 hxd h2]
    have g1 := GetBit_clear_right a.layer3 n h1
    have g2 := GetBit_clear_left a.layer1 n h2
    rw [← hxa] at g1 g2
    refine ⟨?_, ?_, ?_, ?_, ?_, ?_⟩
    · simp [cycSound, hit1, hit3, setXdir, apply_ite Globals.xpos]
    · simp [cycSound, hit1, hit3, setXdir, apply_ite Globals.ypos, a1]
    · simp [cycSound, hit1, hit3, setXdir, apply_ite Globals.ydir, DOWN]
    · simp only [cycSound, hit1, hit3, setXdir, apply_ite Globals.brickhits, ite_self]
      omega
    · intro h
      rw [hxd] at h
      exact absurd h (by decide)
    · intro _
      refine ⟨?_, ?_, ?_⟩
      · simp [cycSound, hit1, hit3, setXdir, apply_ite Globals.xdir, RIGHT]
      · simpa [cycSound, hit1, hit3, setXdir, apply_ite Globals.layer3] using g1
      · simpa [cycSound, hit1, hit3, setXdir, apply_ite Globals.layer1] using g2

/-- Witness for C17: `tripleFlipState` (column index 2, right-diagonal case: the side
collision with layer2 has turned the ball RIGHT, bit 3 of layer3 and bit 1 of layer1 hold
bricks). -/
theorem chained_diagonal_hit_witness :
    RunsCycle tripleFlipState ∧ tripleFlipState.xpos = 2 ^ 2 ∧
    ∃ s' : Globals, Ball_Tick 8 tripleFlipState quiet = some s' ∧
      s'.xpos = tripleFlipState.xpos ∧ s'.ypos = tripleFlipState.ypos ∧ s'.ydir = DOWN ∧
      2 ≤ s'.brickhits ∧
      ((afterSide tripleFlipState quiet 2).xdir = LEFT →
        s'.xdir = LEFT ∧ GetBit s'.layer3 ((2 : Nat) - 1 : Int) = false ∧
        GetBit s'.layer1 ((2 : Nat) + 1 : Int) = false) ∧
      ((afterSide tripleFlipState quiet 2).xdir = RIGHT →
        s'.xdir = RIGHT ∧ GetBit s'.layer3 ((2 : Nat) + 1 : Int) = false ∧
        GetBit s'.layer1 ((2 : Nat) - 1 : Int) = false) :=
  ⟨by decide, by decide,
   chained_diagonal_hit 8 tripleFlipState quiet 2 (by decide) (by decide) (by decide)
     (by decide) (by decide) (by decide) (by decide)
     (Or.inr ⟨by decide, by decide, by decide⟩)⟩

/-! ## C19: the bit indices passed to GetBit -/

theorem sideTests_in_range (s : Globals) (n : Nat) (hn : n < 8) (hx : s.xpos = 2 ^ n) :
    ∀ k ∈ sideTests s n, 0 ≤ k ∧ k < 8 := by
  have h0 : n = 0 → s.xpos = 1 := by intro h; rw [hx, h]; rfl
  have h7 : n = 7 → s.xpos = 0x80 := by intro h; rw [hx, h]; rfl
  intro k hk
  unfold sideTests at hk
  by_cases c1 : s.xpos = 0x01 ∧ s.xdir = LEFT
  · simp [c1] at hk
  · by_cases c2 : s.xpos = 0x80 ∧ s.xdir = RIGHT
    · simp [c1, c2] at hk
    · by_cases c3 : s.xdir = LEFT
      · have hn0 : n ≠ 0 := fun h => c1 ⟨h0 h, c3⟩
        simp only [if_neg c1, if_neg c2, if_pos c3, List.mem_append] at hk
        rcases hk with (hk | hk) | hk <;> split_ifs at hk <;> simp at hk <;> omega
      · by_cases c4 : s.xdir = RIGHT
        · have hn7 : n ≠ 7 := fun h => c2 ⟨h7 h, c4⟩
          simp only [if_neg c1, if_neg c2, if_neg c3, if_pos c4, List.mem_append] at hk
          rcases hk with (hk | hk) | hk <;> split_ifs at hk <;> simp at hk <;> omega
        · simp [c1, c2, c3, c4] at hk

theorem upwardTests_bounds (l : Nat) (xdir : Int) (n : Nat) :
    ∀ k ∈ upwardTests l xdir n, (n : Int) - 1 ≤ k ∧ k ≤ (n : Int) + 1 := by
  intro k hk
  unfold upwardTests at hk
  simp only [List.mem_cons] at hk
  rcases hk with hk | hk
  · omega
  · split_ifs at hk
    · simp at hk
    · simp at hk
      omega
    · simp at hk
      rcases hk with hk | hk <;> omega

theorem transitionTests_bounds (s : Globals) (n : Nat) :
    ∀ k ∈ transitionTests s n, (n : Int) - 1 ≤ k ∧ k ≤ (n : Int) + 1 := by
  intro k hk
  unfold transitionTests at hk
  split_ifs at hk
  all_goals first
    | exact upwardTests_bounds _ _ n k hk
    | (simp at hk <;> omega)

/-- C19: the side-collision step only tests bit indices in 0..7, but the layer-transition
step tests index n - 1 and index n + 1 whatever the column is: the Cycle tick of
`leftWallState` (column 0x01, index 0) passes the indices 1, 0, -1, 1 to `GetBit`, the one of
`rightWallState` (column 0x80, index 7) passes 6, 7, 6, 8. For every state with a one-hot
column of index n, the indices tested lie in -1..8, and in 0..7 when 1 ≤ n ≤ 6. -/
theorem getbit_index_out_of_range :
    (RunsCycle leftWallState ∧ OneHot leftWallState.xpos ∧
      decodeLoop 8 leftWallState.xpos 0 = some 0 ∧
      cycTests (cycEnter { leftWallState with b_state := Ball_States.Ball_Cycle } quiet) 0 =
        [1, 0, -1, 1]) ∧
    (RunsCycle rightWallState ∧ OneHot rightWallState.xpos ∧
      decodeLoop 8 rightWallState.xpos 0 = some 7 ∧
      cycTests (cycEnter { rightWallState with b_state := Ball_States.Ball_Cycle } quiet) 7 =
        [6, 7, 6, 8]) ∧
    (∀ (s : Globals) (n : Nat), n < 8 → s.xpos = 2 ^ n →
      (∀ k ∈ sideTests (cycLaunch s) n, 0 ≤ k ∧ k < 8) ∧
      (∀ k ∈ cycTests s n, -1 ≤ k ∧ k ≤ 8) ∧
      (1 ≤ n → n ≤ 6 → ∀ k ∈ cycTests s n, 0 ≤ k ∧ k < 8)) := by
  refine ⟨by decide, by decide, ?_⟩
  intro s n hn hx
  have hxl : (cycLaunch s).xpos = 2 ^ n := by
    rw [← hx]; simp [cycLaunch, setXdir, hit3, apply_ite Globals.xpos]
  have hside := sideTests_in_range (cycLaunch s) n hn hxl
  have htr := transitionTests_bounds (cycCeil (cycSide (cycLaunch s) n)) n
  refine ⟨hside, ?_, ?_⟩
  · intro k hk
    unfold cycTests at hk
    rcases List.mem_append.1 hk with h | h
    · have := hside k h; omega
    · have := htr k h; omega
  · intro h1 h6 k hk
    unfold cycTests at hk
    rcases List.mem_append.1 hk with h | h
    · exact hside k h
    · have := htr k h; omega

/-! ## C20: brick hits and bricks cleared -/

theorem clearedCount_self (l : Nat) : clearedCount l l = 0 := by
  simp [clearedCount]

theorem clearedCount_add (a b c : Nat) (h1 : bitSubset b a) (h2 : bitSubset c b) :
    clearedCount a c = clearedCount a b + clearedCount b c := by
  unfold clearedCount
  generalize List.range 8 = r
  induction r with
  | nil => rfl
  | cons k r ih =>
    have hb := h1 k
    have hc := h2 k
    simp only [List.filter_cons]
    cases ha' : Nat.testBit a k <;> cases hb' : Nat.testBit b k <;> cases hc' : Nat.testBit c k <;>
      simp_all <;> omega

theorem clearedCount_clear (l j : Nat) (hj : j < 8) :
    clearedCount l (clearBits l (2 ^ j)) = if Nat.testBit l j then 1 else 0 := by
  unfold clearedCount
  have key : ∀ k < 8, (Nat.testBit l k && !Nat.testBit (clearBits l (2 ^ j)) k) =
      (decide (k = j) && Nat.testBit l j) := by
    intro k hk
    rw [clearBits_testBit l (2 ^ j) k hk, Nat.testBit_two_pow]
    by_cases hkj : k = j
    · subst hkj; simp
    · have : ¬ j = k := fun h => hkj h.symm
      simp [hkj, this]
  have hfil : (List.range 8).filter (fun k => Nat.testBit l k && !Nat.testBit (clearBits l (2 ^ j)) k)
      = (List.range 8).filter (fun k => decide (k = j) && Nat.testBit l j) := by
    apply List.filter_congr
    intro k hk
    exact key k (List.mem_range.1 hk)
  rw [hfil]
  cases hl : Nat.testBit l j
  · simp
  · interval_cases j <;> simp <;> decide

theorem clearedCount_left (l n : Nat) (h : GetBit l ((n : Int) - 1) = true) :
    clearedCount l (clearBits l (2 ^ n / 2)) = 1 := by
  obtain ⟨j, hj, hj8, ht⟩ := (GetBit_true_iff l _).1 h
  have hn : n = j + 1 := by omega
  subst hn
  have e : 2 ^ (j + 1) / 2 = 2 ^ j := by rw [pow_succ]; omega
  rw [e, clearedCount_clear l j hj8, ht]; rfl

theorem clearedCount_right (l n : Nat) (h : GetBit l ((n : Int) + 1) = true) :
    clearedCount l (clearBits l (2 ^ n * 2)) = 1 := by
  obtain ⟨j, hj, hj8, ht⟩ := (GetBit_true_iff l _).1 h
  have hn : j = n + 1 := by omega
  subst hn
  have e : 2 ^ n * 2 = 2 ^ (n + 1) := by rw [pow_succ]
  rw [e, clearedCount_clear l (n + 1) hj8, ht]; rfl

theorem clearedCount_straight (l n : Nat) (h : GetBit l (n : Int) = true) :
    clearedCount l (clearBits l (2 ^ n)) = 1 := by
  obtain ⟨j, hj, hj8, ht⟩ := (GetBit_true_iff l _).1 h
  have hn : n = j := by omega
  subst hn
  rw [clearedCount_clear l n hj8, ht]; rfl

theorem tally_refl (a : Globals) : Tally a a := by
  simp [Tally, bricksCleared, clearedCount_self]

theorem tally_of_frame {a b : Globals} (h1 : b.layer1 = a.layer1) (h2 : b.layer2 = a.layer2)
    (h3 : b.layer3 = a.layer3) (hb : b.brickhits = a.brickhits) : Tally a b := by
  simp [Tally, bricksCleared, h1, h2, h3, hb, clearedCount_self]

theorem tally_trans {a b c : Globals} (hab : Tally a b) (hbc : Tally b c)
    (s1 : LayersSub b a) (s2 : LayersSub c b) : Tally a c := by
  unfold Tally bricksCleared at *
  rw [clearedCount_add a.layer1 b.layer1 c.layer1 s1.1 s2.1,
    clearedCount_add a.layer2 b.layer2 c.layer2 s1.2.1 s2.2.1,
    clearedCount_add a.layer3 b.layer3 c.layer3 s1.2.2 s2.2.2]
  omega

theorem hit1_tally (s t : Globals) (m : Nat) (h1 : t.layer1 = s.layer1)
    (h2 : t.layer2 = s.layer2) (h3 : t.layer3 = s.layer3) (hb : t.brickhits = s.brickhits)
    (hs : s.brickhits ≤ 200) (hc : clearedCount s.layer1 (clearBits s.layer1 m) = 1) :
    Tally s (hit1 t m) := by
  simp only [Tally, bricksCleared, hit1, h1, h2, h3, hb, hc, clearedCount_self]
  omega

theorem hit2_tally (s t : Globals) (m : Nat) (h1 : t.layer1 = s.layer1)
    (h2 : t.layer2 = s.layer2) (h3 : t.layer3 = s.layer3) (hb : t.brickhits = s.brickhits)
    (hs : s.brickhits ≤ 200) (hc : clearedCount s.layer2 (clearBits s.layer2 m) = 1) :
    Tally s (hit2 t m) := by
  simp only [Tally, bricksCleared, hit2, h1, h2, h3, hb, hc, clearedCount_self]
  omega

theorem hit3_tally (s t : Globals) (m : Nat) (h1 : t.layer1 = s.layer1)
    (h2 : t.layer2 = s.layer2) (h3 : t.layer3 = s.layer3) (hb : t.brickhits = s.brickhits)
    (hs : s.brickhits ≤ 200) (hc : clearedCount s.layer3 (clearBits s.layer3 m) = 1) :
    Tally s (hit3 t m) := by
  simp only [Tally, bricksCleared, hit3, h1, h2, h3, hb, hc, clearedCount_self]
  omega

theorem chain_tally (s t : Globals) (m1 m2 : Nat) (h1 : t.layer1 = s.layer1)
    (h2 : t.layer2 = s.layer2) (h3 : t.layer3 = clearBits s.layer3 m1)
    (hb : t.brickhits = (s.brickhits + 1) % 256) (hs : s.brickhits ≤ 200)
    (hc3 : clearedCount s.layer3 (clearBits s.layer3 m1) = 1)
    (hc1 : clearedCount s.layer1 (clearBits s.layer1 m2) = 1) :
    Tally s (hit1 t m2) := by
  simp only [Tally, bricksCleared, hit1, h1, h2, h3, hb, hc1, hc3, clearedCount_self]
  omega

theorem cleared_left (l x n : Nat) (hx : x = 2 ^ n) (h : GetBit l ((n : Int) - 1) = true) :
    clearedCount l (clearBits l (x / 2)) = 1 := by
  rw [hx]; exact clearedCount_left l n h

theorem cleared_right (l x n : Nat) (hx : x = 2 ^ n) (h : GetBit l ((n : Int) + 1) = true) :
    clearedCount l (clearBits l (x * 2)) = 1 := by
  rw [hx]; exact clearedCount_right l n h

theorem cleared_straight (l x n : Nat) (hx : x = 2 ^ n) (h : GetBit l (n : Int) = true) :
    clearedCount l (clearBits l x) = 1 := by
  rw [hx]; exact clearedCount_straight l n h

theorem cycPaddle_tally (s : Globals) : Tally s (cycPaddle s) := by
  apply tally_of_frame <;>
    simp [cycPaddle, setXdir, apply_ite Globals.layer1, apply_ite Globals.layer2,
      apply_ite Globals.layer3, apply_ite Globals.brickhits]

theorem cycTransition_tally (s : Globals) (n : Nat) (hx : s.xpos = 2 ^ n)
    (hb : s.brickhits ≤ 200) : Tally s (cycTransition s n).1 := by
  unfold cycTransition
  simp only []
  by_cases r1 : s.ypos = 0x01 ∧ s.ydir = DOWN
  · rw [if_pos r1]
    split_ifs with c1 c2
    · exact hit2_tally s _ _ rfl rfl rfl rfl hb (cleared_left _ _ n hx c1.1)
    · exact hit2_tally s _ _ rfl rfl rfl rfl hb (cleared_right _ _ n hx c2.1)
    · exact tally_refl s
  rw [if_neg r1]
  by_cases r2 : s.ypos = 0x02 ∧ s.ydir = DOWN
  · rw [if_pos r2]
    split_ifs with c0 c1 c2 c3 c4
    · exact hit3_tally s _ _ rfl rfl rfl rfl hb (cleared_straight _ _ n hx c0)
    · exact chain_tally s _ _ _ rfl rfl rfl rfl hb (cleared_left _ _ n hx c1.1)
        (cleared_right _ _ n hx c2)
    · exact hit3_tally s _ _ rfl rfl rfl rfl hb (cleared_left _ _ n hx c1.1)
    · exact chain_tally s _ _ _ rfl rfl rfl rfl hb (cleared_right _ _ n hx c3.1)
        (cleared_left _ _ n hx c4)
    · exact hit3_tally s _ _ rfl rfl rfl rfl hb (cleared_right _ _ n hx c3.1)
    · exact tally_refl s
  rw [if_neg r2]
  by_cases r3 : s.ypos = 0x02 ∧ s.ydir = UP
  · rw [if_pos r3]
    split_ifs with c0 c1 c2
    · exact hit1_tally s _ _ rfl rfl rfl rfl hb (cleared_straight _ _ n hx c0)
    · exact hit1_tally s _ _ rfl rfl rfl rfl hb (cleared_left _ _ n hx c1.1)
    · exact hit1_tally s _ _ rfl rfl rfl rfl hb (cleared_right _ _ n hx c2.1)
    · exact tally_refl s
  rw [if_neg r3]
  by_cases r4 : s.ypos = 0x04 ∧ s.ydir = UP
  · rw [if_pos r4]
    split_ifs with c0 c1 c2
    · exact hit2_tally s _ _ rfl rfl rfl rfl hb (cleared_straight _ _ n hx c0)
    · exact hit2_tally s _ _ rfl rfl rfl rfl hb (cleared_left _ _ n hx c1.1)
    · exact hit2_tally s _ _ rfl rfl rfl rfl hb (cleared_right _ _ n hx c2.1)
    · exact tally_refl s
  rw [if_neg r4]
  by_cases r5 : s.ypos = 0x08 ∧ s.ydir = UP
  · rw [if_pos r5]
    split_ifs with c0 c1 c2
    · exact hit3_tally s _ _ rfl rfl rfl rfl hb (cleared_straight _ _ n hx c0)
    · exact hit3_tally s _ _ rfl rfl rfl rfl hb (cleared_left _ _ n hx c1.1)
    · exact hit3_tally s _ _ rfl rfl rfl rfl hb (cleared_right _ _ n hx c2.1)
    · exact tally_refl s
  rw [if_neg r5]
  split_ifs
  · exact cycPaddle_tally s
  · exact tally_refl s

theorem cycSideLeft_eq (s : Globals) (n : Nat) :
    cycSideLeft s n =
      if s.ypos = 0x04 then
        (if GetBit s.layer3 ((n : Int) - 1) then hit3 (setXdir s RIGHT) (s.xpos / 2) else s)
      else if s.ypos = 0x02 then
        (if GetBit s.layer2 ((n : Int) - 1) then hit2 (setXdir s RIGHT) (s.xpos / 2) else s)
      else if s.ypos = 0x01 then
        (if GetBit s.layer1 ((n : Int) - 1) then hit1 (setXdir s RIGHT) (s.xpos / 2) else s)
      else s := by
  rcases ypos_cases s.ypos with h | h | h | h | ⟨h1, h2, h3, _⟩ <;>
    simp [cycSideLeft, hit1, hit2, hit3, setXdir, apply_ite Globals.ypos, *]

theorem cycSideRight_eq (s : Globals) (n : Nat) :
    cycSideRight s n =
      if s.ypos = 0x04 then
        (if GetBit s.layer3 ((n : Int) + 1) then hit3 (setXdir s LEFT) (s.xpos * 2) else s)
      else if s.ypos = 0x02 then
        (if GetBit s.layer2 ((n : Int) + 1) then hit2 (setXdir s LEFT) (s.xpos * 2) else s)
      else if s.ypos = 0x01 then
        (if GetBit s.layer1 ((n : Int) + 1) then hit1 (setXdir s LEFT) (s.xpos * 2) else s)
      else s := by
  rcases ypos_cases s.ypos with h | h | h | h | ⟨h1, h2, h3, _⟩ <;>
    simp [cycSideRight, hit1, hit2, hit3, setXdir, apply_ite Globals.ypos, *]

theorem cycSide_tally (s : Globals) (n : Nat) (hx : s.xpos = 2 ^ n) (hb : s.brickhits ≤ 200) :
    Tally s (cycSide s n) := by
  unfold cycSide
  rw [cycSideLeft_eq, cycSideRight_eq]
  split_ifs with w1 w2 d1 y4 c3 y2 c2 y1 c1 d2 z4 e3 z2 e2 z1 e1
  · exact tally_of_frame rfl rfl rfl rfl
  · exact tally_of_frame rfl rfl rfl rfl
  · exact hit3_tally s _ _ rfl rfl rfl rfl hb (cleared_left _ _ n hx c3)
  · exact tally_refl s
  · exact hit2_tally s _ _ rfl rfl rfl rfl hb (cleared_left _ _ n hx c2)
  · exact tally_refl s
  · exact hit1_tally s _ _ rfl rfl rfl rfl hb (cleared_left _ _ n hx c1)
  · exact tally_refl s
  · exact tally_refl s
  · exact hit3_tally s _ _ rfl rfl rfl rfl hb (cleared_right _ _ n hx e3)
  · exact tally_refl s
  · exact hit2_tally s _ _ rfl rfl rfl rfl hb (cleared_right _ _ n hx e2)
  · exact tally_refl s
  · exact hit1_tally s _ _ rfl rfl rfl rfl hb (cleared_right _ _ n hx e1)
  · exact tally_refl s
  · exact tally_refl s
  · exact tally_refl s

theorem cycLaunch_tally (s : Globals) (n : Nat) (hn : n < 8) (hx : s.xpos = 2 ^ n)
    (hb : s.brickhits ≤ 200) :
    (cycLaunch s).brickhits = s.brickhits + bricksCleared s (cycLaunch s) + launchExtra s n := by
  unfold cycLaunch launchExtra
  by_cases h : s.ypos = 0x08 ∧ s.xdir = MIDDLE
  · rw [if_pos h]
    have e : clearedCount s.layer3 (clearBits s.layer3 s.xpos) =
        if Nat.testBit s.layer3 n then 1 else 0 := by
      rw [hx]; exact clearedCount_clear _ n hn
    have key : ∀ t : Globals, t.layer1 = s.layer1 → t.layer2 = s.layer2 →
        t.layer3 = s.layer3 → t.brickhits = s.brickhits → t.xpos = s.xpos →
        (hit3 { t with ydir := DOWN } t.xpos).brickhits =
          s.brickhits + bricksCleared s (hit3 { t with ydir := DOWN } t.xpos) +
            (if s.ypos = 0x08 ∧ s.xdir = MIDDLE ∧ Nat.testBit s.layer3 n = false
              then 1 else 0) := by
      intro t h1 h2 h3 h4 h5
      simp only [bricksCleared, hit3, h1, h2, h3, h4, h5, e, clearedCount_self]
      cases ht : Nat.testBit s.layer3 n <;> simp [h.1, h.2] <;> omega
    by_cases hp : s.paddle_pos ≤ 0x08
    · simp only [if_pos hp]
      exact key (setXdir s LEFT) rfl rfl rfl rfl rfl
    · simp only [if_neg hp]
      exact key (setXdir s RIGHT) rfl rfl rfl rfl rfl
  · rw [if_neg h]
    have : ¬(s.ypos = 0x08 ∧ s.xdir = MIDDLE ∧ Nat.testBit s.layer3 n = false) :=
      fun c => h ⟨c.1, c.2.1⟩
    rw [if_neg this]
    simp [bricksCleared, clearedCount_self]

theorem cycBody_tally (s : Globals) (n : Nat) (hn : n < 8) (hx : s.xpos = 2 ^ n)
    (hb : s.brickhits = 0) :
    (cycBody s n).brickhits = bricksCleared s (cycBody s n) + launchExtra s n := by
  have hl := cycLaunch_tally s n hn hx (by omega)
  obtain ⟨_, l2, _⟩ := cycLaunch_hits s
  have xl : (cycLaunch s).xpos = 2 ^ n := by
    rw [← hx]; simp [cycLaunch, setXdir, hit3, apply_ite Globals.xpos]
  have hs := cycSide_tally (cycLaunch s) n xl (by omega)
  obtain ⟨s2, _⟩ := cycSide_hits (cycLaunch s) n
  have xs : (cycSide (cycLaunch s) n).xpos = 2 ^ n := by
    rw [← xl]
    simp [cycSide, cycSideLeft, cycSideRight, setXdir, hit1, hit2, hit3,
      apply_ite Globals.xpos, apply_ite Globals.ypos]
  have hc : Tally (cycSide (cycLaunch s) n) (cycCeil (cycSide (cycLaunch s) n)) := by
    apply tally_of_frame <;>
      simp [cycCeil, apply_ite Globals.layer1, apply_ite Globals.layer2,
        apply_ite Globals.layer3, apply_ite Globals.brickhits]
  have xc : (cycCeil (cycSide (cycLaunch s) n)).xpos = 2 ^ n := by
    rw [← xs]; simp [cycCeil, apply_ite Globals.xpos]
  have c2 := cycCeil_hits (cycSide (cycLaunch s) n)
  have ht := cycTransition_tally (cycCeil (cycSide (cycLaunch s) n)) n xc (by omega)
  have hm : ∀ (t : Globals) (o : Nat), Tally t (cycSound (cycMove t o)) := by
    intro t o
    apply tally_of_frame <;>
      simp [cycSound, cycMove, apply_ite Globals.layer1, apply_ite Globals.layer2,
        apply_ite Globals.layer3, apply_ite Globals.brickhits]
  have sub1 := cycSide_layers (cycLaunch s) n
  have sub2 := cycCeil_layers (cycSide (cycLaunch s) n)
  have sub3 := cycTransition_layers (cycCeil (cycSide (cycLaunch s) n)) n
  have sub4 : LayersSub (cycBody s n) (cycTransition (cycCeil (cycSide (cycLaunch s) n)) n).1 :=
    (cycSound_layers _).trans (cycMove_layers _ _)
  have t1 : Tally (cycLaunch s) (cycBody s n) :=
    tally_trans hs (tally_trans hc (tally_trans ht (hm _ _) sub3 sub4)
      sub2 (sub4.trans sub3)) sub1 ((sub4.trans sub3).trans sub2)
  have sub0 := cycLaunch_layers s
  have subT : LayersSub (cycBody s n) (cycLaunch s) := ((sub4.trans sub3).trans sub2).trans sub1
  unfold Tally at t1
  unfold bricksCleared at *
  rw [clearedCount_add s.layer1 (cycLaunch s).layer1 (cycBody s n).layer1 sub0.1 subT.1,
    clearedCount_add s.layer2 (cycLaunch s).layer2 (cycBody s n).layer2 sub0.2.1 subT.2.1,
    clearedCount_add s.layer3 (cycLaunch s).layer3 (cycBody s n).layer3 sub0.2.2 subT.2.2]
  omega

theorem cycBody_score_exact (s : Globals) (n : Nat) :
    (cycBody s n).score =
      if 1 ≤ (cycBody s n).brickhits then (s.score + (cycBody s n).brickhits) % 256
      else s.score := by
  have hpre : (cycTransition (cycCeil (cycSide (cycLaunch s) n)) n).1.score = s.score := by
    simp [cycTransition, cycPaddle, cycCeil, cycSide, cycSideLeft, cycSideRight, cycLaunch,
      setXdir, hit1, hit2, hit3, apply_ite Globals.score, apply_ite Prod.fst]
  unfold cycBody
  simp only []
  generalize (cycTransition (cycCeil (cycSide (cycLaunch s) n)) n) = p at hpre
  have hm : (cycMove p.1 p.2).score = s.score := by
    rw [← hpre]; simp [cycMove, apply_ite Globals.score]
  generalize cycMove p.1 p.2 = m at hm
  by_cases hge : 1 ≤ m.brickhits
  · simp [cycSound, hge, hm, apply_ite Globals.score, apply_ite Globals.brickhits]
  · simp [cycSound, hge, hm, apply_ite Globals.score, apply_ite Globals.brickhits]

theorem Ball_Tick_tally (fuel : Nat) (s : Globals) (i : Inputs) (n : Nat) (hf : 8 ≤ fuel)
    (hc : RunsCycle s) (hn : n < 8) (hx : s.xpos = 2 ^ n) :
    ∃ s' : Globals, Ball_Tick fuel s i = some s' ∧
      s'.brickhits = bricksCleared s s' + launchExtra s n ∧
      s'.score = if 1 ≤ s'.brickhits then (s.score + s'.brickhits) % 256 else s.score := by
  have hd : decodeLoop fuel s.xpos 0 = some n := by
    rw [hx]; exact decodeLoop_two_pow fuel n hn hf
  refine ⟨_, Ball_Tick_decoded fuel s i hc n hd, ?_, ?_⟩
  · exact cycBody_tally (cycEnter { s with b_state := Ball_States.Ball_Cycle } i) n hn hx rfl
  · exact cycBody_score_exact (cycEnter { s with b_state := Ball_States.Ball_Cycle } i) n

/-- Hit count of a Cycle tick: for every Cycle tick with a one-hot ball column that is not a
launch onto an empty cell (when the ball is at row 0x08 with x-direction MIDDLE, the cell of layer3
at the ball column holds a brick), the tick returns, its brick-hit count equals the number of
brick bits set before the tick and clear after it, summed over the three layers, and that
count is what the tick adds to score (modulo 256). -/
theorem brickhits_equal_bricks_cleared (fuel : Nat) (s : Globals) (i : Inputs) (n : Nat)
    (hf : 8 ≤ fuel) (hc : RunsCycle s) (hn : n < 8) (hx : s.xpos = 2 ^ n)
    (hl : s.ypos = 0x08 → s.xdir = MIDDLE → GetBit s.layer3 n = true) :
    ∃ s' : Globals, Ball_Tick fuel s i = some s' ∧
      s'.brickhits = bricksCleared s s' ∧
      s'.score = if 1 ≤ s'.brickhits then (s.score + s'.brickhits) % 256 else s.score := by
  obtain ⟨s', h1, h2, h3⟩ := Ball_Tick_tally fuel s i n hf hc hn hx
  refine ⟨s', h1, ?_, h3⟩
  have e : launchExtra s n = 0 := by
    unfold launchExtra
    rw [if_neg]
    rintro ⟨a, b, c⟩
    have := hl a b
    rw [GetBit_nat _ _ hn, c] at this
    exact Bool.false_ne_true this
  rw [h2, e, Nat.add_zero]

/-- Example of the hit count: `launchState`, a launch tick onto a brick (column index 3). -/
theorem brickhits_equal_bricks_cleared_witness :
    RunsCycle launchState ∧ launchState.xpos = 2 ^ 3 ∧
    ∃ s' : Globals, Ball_Tick 8 launchState quiet = some s' ∧
      s'.brickhits = bricksCleared launchState s' ∧
      s'.score = if 1 ≤ s'.brickhits then (launchState.score + s'.brickhits) % 256
        else launchState.score :=
  ⟨by decide, by decide,
   brickhits_equal_bricks_cleared 8 launchState quiet 3 (by decide) (by decide) (by decide)
     (by decide) (fun _ _ => by decide)⟩

end Breakout
